import Mathlib

/-!
# ESP8266 AT-command parser: protocol engine and low-level glue

The sources at hand are the platform glue (`esp8266_ll.c`, `esp8266_ll_template.h`) and
the example programs (`main.c`).  The protocol engine itself (`esp8266.c`: receive buffer,
frame parser, command dispatcher, connection table) is not among them; only its callers
are.  The engine is therefore modelled from the specification (sections 3, 4, 6 and 7),
every such definition saying so in its doc comment, while the glue code is embedded from
the C sources.

Conventions of the engine model:
* bytes are natural numbers, protocol texts are lists of ASCII codes (`protocol_text`);
* the engine is a value passed to and returned by every operation (spec section 9);
* the field `log` is the ordered history of what the engine transmitted, resolved and
  raised; events are recorded in the order in which they are raised (spec section 4.4);
* `Issue` is the non-blocking core operation of spec section 9; the blocking variant,
  which polls the update step, and the optional mutual-exclusion guard are not modelled.

Conventions of the glue and the examples:
* a function that calls into the platform libraries or the RTOS records the call with its
  arguments; what the hardware or the RTOS returns is given from outside (`ucsr1a`,
  `Rtos`, `env`);
* conditional compilation is a value (`Build`), a pointer that may be `NULL` an `Option`;
* a protothread is a function of its saved position, one call at a time;
* memory that a `char *` addresses is the list of the bytes from the address on, and a
  search that finds no NUL in it gives `none`;
* what the AVR hardware makes of its registers (baud rate, timer period) follows the
  ATmega2560 data sheet, each such definition saying so in its doc comment.
-/

namespace ESP

/-- One octet on the serial link, kept as a natural number (0..255). -/
abbrev Byte := Nat

/-! ## Protocol text (spec section 6), as ASCII codes -/

/-- Line feed, the line terminator. -/
def LF : Byte := 10
/-- Carriage return, dropped from the end of a line. -/
def CR : Byte := 13
/-- Text `+IPD,`: the binary-frame header start. -/
def tokIPD : List Byte := [43, 73, 80, 68, 44]
/-- Text `OK`. -/
def tokOK : List Byte := [79, 75]
/-- Text `ERROR`. -/
def tokERROR : List Byte := [69, 82, 82, 79, 82]
/-- Text `FAIL`. -/
def tokFAIL : List Byte := [70, 65, 73, 76]
/-- Text `SEND OK`. -/
def tokSENDOK : List Byte := [83, 69, 78, 68, 32, 79, 75]
/-- Text `SEND FAIL`. -/
def tokSENDFAIL : List Byte := [83, 69, 78, 68, 32, 70, 65, 73, 76]
/-- Text `busy p...`. -/
def tokBUSY : List Byte := [98, 117, 115, 121, 32, 112, 46, 46, 46]
/-- Text `ready`: the boot banner of the module. -/
def tokREADY : List Byte := [114, 101, 97, 100, 121]
/-- Text `WIFI CONNECTED`. -/
def tokWIFICONNECTED : List Byte := [87, 73, 70, 73, 32, 67, 79, 78, 78, 69, 67, 84, 69, 68]
/-- Text `WIFI GOT IP`. -/
def tokWIFIGOTIP : List Byte := [87, 73, 70, 73, 32, 71, 79, 84, 32, 73, 80]
/-- Text `WIFI DISCONNECT`. -/
def tokWIFIDISCONNECT : List Byte := [87, 73, 70, 73, 32, 68, 73, 83, 67, 79, 78, 78, 69, 67, 84]
/-- Text `,CONNECT`, which follows the connection id. -/
def tokCONNECT : List Byte := [44, 67, 79, 78, 78, 69, 67, 84]
/-- Text `,CLOSED`, which follows the connection id. -/
def tokCLOSED : List Byte := [44, 67, 76, 79, 83, 69, 68]
/-- Text `Content-Length:`. -/
def tokCONTENTLENGTH : List Byte :=
  [67, 111, 110, 116, 101, 110, 116, 45, 76, 101, 110, 103, 116, 104, 58]
/-- Text `AT+CIPSTART=`. -/
def cmdCIPSTART : List Byte := [65, 84, 43, 67, 73, 80, 83, 84, 65, 82, 84, 61]
/-- Text `AT+CIPCLOSE=`. -/
def cmdCIPCLOSE : List Byte := [65, 84, 43, 67, 73, 80, 67, 76, 79, 83, 69, 61]
/-- Text `AT+CWMODE=3` followed by CR LF. -/
def cmdCWMODE3 : List Byte := [65, 84, 43, 67, 87, 77, 79, 68, 69, 61, 51, 13, 10]

/-- ASCII codes of a piece of text. -/
def ascii (s : String) : List Byte := s.toList.map Char.toNat

/-! ## Decimal fields -/

/-- A decimal digit character. -/
def isDigit (b : Byte) : Bool := decide (48 ≤ b) && decide (b ≤ 57)

/-- Value of a run of decimal digit characters, most significant first. -/
def parseDecimal (ds : List Byte) : Nat := ds.foldl (fun acc d => acc * 10 + (d - 48)) 0

/-- Worker of `decimal`: peels the last digit off `n`, at most `fuel` times. -/
def decimalAux : Nat → Nat → List Byte → List Byte
  | 0, _, acc => acc
  | fuel + 1, n, acc =>
    if n < 10 then (48 + n) :: acc else decimalAux fuel (n / 10) ((48 + n % 10) :: acc)

/-- Decimal text of a number, as the module and the host write ids, lengths and ports. -/
def decimal (n : Nat) : List Byte := decimalAux (n + 1) n []

/-- Longest run of digit characters at the head of a line, and what follows it. -/
def leadingDigits : List Byte → List Byte × List Byte
  | [] => ([], [])
  | b :: bs =>
    if isDigit b then ((b :: (leadingDigits bs).1), (leadingDigits bs).2) else ([], b :: bs)

/-- A line without the carriage return that precedes the line feed. -/
def stripCR (line : List Byte) : List Byte :=
  if line.getLast? = some CR then line.dropLast else line

/-- Simple text search: what follows the first occurrence of `pat` in `text`. -/
def findAfter (pat : List Byte) : List Byte → Option (List Byte)
  | [] => if pat = [] then some [] else none
  | b :: bs =>
    if pat.isPrefixOf (b :: bs) then some ((b :: bs).drop pat.length) else findAfter pat bs

/-- The text with its leading blanks removed. -/
def skipSpaces : List Byte → List Byte
  | [] => []
  | b :: bs => if b = 32 then skipSpaces bs else b :: bs

/-! ## Data model of the engine (spec section 3) -/

/-- Modelled from the spec: the result codes of the engine, `esp8266.c` being absent.
Section 7 gives the error taxonomy; `ok` is the success code (`espOK`). -/
inductive Result where
  | ok | timeout | deviceError | busy | tableFull | parseDesync | watchdogReset | lockFailure
  deriving DecidableEq, Repr

/-- Modelled from the spec: lifecycle of a connection (section 3),
`Closed → Opening → Active → Closing → Closed`; the engine source is absent. -/
inductive ConnState where
  | closed | opening | active | closing
  deriving DecidableEq, Repr

/-- Modelled from the spec: role of a connection (section 3). -/
inductive Role where
  | client | server
  deriving DecidableEq, Repr

/-- Modelled from the spec: transport of a connection (section 3). -/
inductive Transport where
  | tcp | udp | tls
  deriving DecidableEq, Repr

/-- Modelled from the spec: a connection record (section 3), the engine source being
absent.  `firstPacket` is the "first packet" marker: it is set when the connection becomes
Active, the event of the first frame after that sees it set, and it is cleared once that
event has been raised (section 4.3; section 8: "set once then cleared"). -/
structure Connection where
  role : Role
  transport : Transport
  host : List Byte
  port : Nat
  state : ConnState
  bytesReceived : Nat
  totalBytesReceived : Nat
  contentLength : Option Nat
  firstPacket : Bool
  deriving DecidableEq, Repr

/-- Modelled from the spec: the command in flight (section 3): its text, the token
patterns that end it with success or with failure, issue timestamp, deadline, the
blocking flag, and the connection it is scoped to, if any. -/
structure PendingCommand where
  text : List Byte
  okTokens : List (List Byte)
  failTokens : List (List Byte)
  issuedAt : Nat
  deadline : Nat
  blocking : Bool
  conn : Option Nat
  deriving DecidableEq, Repr

/-- Modelled from the spec: the event kinds of section 3, with the parse-error event of
section 4.1.  Connection events carry the handle; a data event carries the payload. -/
inductive Event where
  | moduleReady
  | watchdogReset
  | wifiConnected
  | wifiDisconnected
  | wifiGotIP
  | connActive (id : Nat)
  | connClosed (id : Nat)
  | dataReceived (id : Nat) (payload : List Byte)
  | dataSent (id : Nat)
  | dataSentError (id : Nat)
  | connTimeout (id : Nat)
  | scanResult
  | idle
  | parseError
  deriving DecidableEq, Repr

/-- Modelled from the spec: one entry of the ordered history of what the engine did
towards its collaborators: a transmit on the serial link, the resolution of the command
in flight, or an event raised, the latter with the referenced connection as the callback
sees it through the handle. -/
inductive Obs where
  | transmit (bytes : List Byte)
  | resolved (text : List Byte) (result : Result)
  | event (ev : Event) (view : Option Connection)
  deriving DecidableEq, Repr

/-- Modelled from the spec: the field of the binary-frame header being read
(section 4.1, state `AwaitFrameHeader`): the connection id, then the length. -/
inductive HeaderField where
  | id (acc : Option Nat)
  | len (id : Nat) (acc : Option Nat)
  deriving DecidableEq, Repr

/-- Modelled from the spec: the four states of the frame parser (section 4.1). -/
inductive ParserState where
  | ScanLine (acc : List Byte)
  | AwaitFrameHeader (field : HeaderField)
  | ConsumeFramePayload (id : Nat) (remaining : Nat) (buf : List Byte)
  | Resync
  deriving DecidableEq, Repr

/-- Modelled from the spec: the engine (section 3): parser state, receive buffer, the
command in flight, the connection table (its capacity is the length of `conns`), the wifi
status snapshot, the millisecond clock, the last result, and the ordered history `log`. -/
structure Engine where
  parser : ParserState
  rx : List Byte
  pending : Option PendingCommand
  conns : List Connection
  wifiConnected : Bool
  wifiHasIP : Bool
  clock : Nat
  lastStatus : Result
  log : List Obs
  deriving DecidableEq, Repr

/-- Modelled from the spec: a free slot of the connection table. -/
def Connection.free : Connection :=
  { role := Role.client, transport := Transport.tcp, host := [], port := 0,
    state := ConnState.closed, bytesReceived := 0, totalBytesReceived := 0,
    contentLength := none, firstPacket := false }

/-- Modelled from the spec: the engine after initialisation, with `capacity` free slots
(the module allows 5). -/
def Engine.init (capacity : Nat) : Engine :=
  { parser := ParserState.ScanLine [], rx := [], pending := none,
    conns := List.replicate capacity Connection.free,
    wifiConnected := false, wifiHasIP := false, clock := 0,
    lastStatus := Result.ok, log := [] }

namespace Engine

/-- Modelled from the spec: appends an entry to the history. -/
def record (e : Engine) (o : Obs) : Engine := { e with log := e.log ++ [o] }

/-- Modelled from the spec: raises an event that refers to no connection. -/
def raise (e : Engine) (ev : Event) : Engine := e.record (Obs.event ev none)

/-- Modelled from the spec: raises an event about connection `id`; the callback sees the
connection record through the handle. -/
def raiseConn (e : Engine) (ev : Event) (id : Nat) : Engine :=
  e.record (Obs.event ev e.conns[id]?)

/-- Modelled from the spec: a slot is tracked when the id is within the table and its
occupant has not reached Closed. -/
def tracked (e : Engine) (id : Nat) : Bool :=
  match e.conns[id]? with
  | some c => decide (c.state ≠ ConnState.closed)
  | none => false

/-- Modelled from the spec: number of occupied slots of the connection table. -/
def occupied (e : Engine) : Nat :=
  (e.conns.filter (fun c => decide (c.state ≠ ConnState.closed))).length

end Engine

/-! ## Connection table (spec section 4.3) -/

/-- Modelled from the spec: rewrites slot `id` of the table with `f`; ids outside the
table leave it as it is, so its capacity never changes. -/
def updateSlot (f : Connection → Connection) : Nat → List Connection → List Connection
  | _, [] => []
  | 0, c :: cs => f c :: cs
  | n + 1, c :: cs => c :: updateSlot f n cs

/-- Modelled from the spec: the next free slot, that is the lowest id whose occupant is
Closed (section 4.3, `Open`). -/
def firstFree : List Connection → Option Nat
  | [] => none
  | c :: cs => if c.state = ConnState.closed then some 0 else (firstFree cs).map (· + 1)

/-- Modelled from the spec: one step of a connection towards Closed (section 4.2, timeout
policy; section 4.3, `Close`): an occupied slot goes to Closing and is freed only by the
Closed confirmation. -/
def towardClosed (c : Connection) : Connection :=
  if c.state = ConnState.closed then c else { c with state := ConnState.closing }

/-- Modelled from the spec: the record of a slot that becomes Active on `<id>,CONNECT`.
A slot that was Opening keeps what `Open` recorded; any other slot gets the record of a
connection accepted as server.  The counters start afresh, and the first-packet marker is
set for the first frame to come. -/
def activate (c : Connection) : Connection :=
  if c.state = ConnState.opening then
    { c with state := ConnState.active, bytesReceived := 0, totalBytesReceived := 0,
             contentLength := none, firstPacket := true }
  else
    { Connection.free with role := Role.server, state := ConnState.active,
                           firstPacket := true }

/-- Modelled from the spec: content-length detection by a simple text search (sections
4.3 and 9): the decimal number that follows `Content-Length:` in the payload, if any. -/
def detectContentLength (payload : List Byte) : Option Nat :=
  match findAfter tokCONTENTLENGTH payload with
  | none => none
  | some rest =>
    if (leadingDigits (skipSpaces rest)).1 = [] then none
    else some (parseDecimal (leadingDigits (skipSpaces rest)).1)

/-- Modelled from the spec: what a data frame does to the record of its connection
(section 4.3, `OnDataFrame`): the counters grow and the content length is recorded if none
was.  The first-packet marker is as the activation left it. -/
def receiveFrame (payload : List Byte) (c : Connection) : Connection :=
  { c with
    bytesReceived := payload.length
    totalBytesReceived := c.totalBytesReceived + payload.length
    contentLength :=
      match c.contentLength with
      | some n => some n
      | none => detectContentLength payload }

/-- Modelled from the spec: the first-packet marker is cleared (section 4.3: it marks the
first frame after becoming Active only). -/
def clearFirstPacket (c : Connection) : Connection := { c with firstPacket := false }

/-- Text of the transport in the connect command. -/
def transportText : Transport → List Byte
  | Transport.tcp => [84, 67, 80]
  | Transport.udp => [85, 68, 80]
  | Transport.tls => [83, 83, 76]

/-- Modelled from the spec: the connect command of section 6,
`AT+CIPSTART=<id>,"TCP","<host>",<port>` followed by CR LF. -/
def connectCommand (id : Nat) (t : Transport) (host : List Byte) (port : Nat) : List Byte :=
  cmdCIPSTART ++ decimal id ++ [44, 34] ++ transportText t ++ [34, 44, 34] ++ host
    ++ [34, 44] ++ decimal port ++ [CR, LF]

/-- Modelled from the spec: the close command, `AT+CIPCLOSE=<id>` followed by CR LF. -/
def closeCommand (id : Nat) : List Byte := cmdCIPCLOSE ++ decimal id ++ [CR, LF]

namespace Engine

/-- Modelled from the spec: rewrites the record of connection `id`. -/
def modifyConn (e : Engine) (id : Nat) (f : Connection → Connection) : Engine :=
  { e with conns := updateSlot f id e.conns }

/-! ## Command dispatcher (spec section 4.2) -/

/-- Modelled from the spec: operation `Issue(command, terminal tokens, timeout, blocking)`
of section 4.2, `esp8266.c` being absent: fails with Busy if a command is in flight;
otherwise transmits the text, records the command with its deadline
`issued_at + timeout_ms`, and returns.  The blocking flag is recorded only: this is the
non-blocking core, which the blocking variant wraps by polling the update step. -/
def Issue (e : Engine) (text : List Byte) (okTokens failTokens : List (List Byte))
    (timeout : Nat) (blocking : Bool) (conn : Option Nat) : Result × Engine :=
  match e.pending with
  | some _ => (Result.busy, e)
  | none =>
    (Result.ok,
      { e.record (Obs.transmit text) with
        pending := some
          { text := text, okTokens := okTokens, failTokens := failTokens,
            issuedAt := e.clock, deadline := e.clock + timeout,
            blocking := blocking, conn := conn } })

/-- Modelled from the spec: the command in flight is resolved with `r` and cleared. -/
def resolve (e : Engine) (p : PendingCommand) (r : Result) : Engine :=
  { e.record (Obs.resolved p.text r) with pending := none, lastStatus := r }

/-- Modelled from the spec: the stack-idle event, raised once no further work is
outstanding (section 4.2, `Complete`). -/
def raiseIdle (e : Engine) : Engine :=
  if e.pending.isNone then e.raise Event.idle else e

/-- Modelled from the spec: operation `Complete(token)` of section 4.2: a token among the
terminal tokens of the command in flight resolves it, with success or with failure
(Busy for `busy p...`, DeviceError otherwise), clears it and raises the idle event. -/
def Complete (e : Engine) (token : List Byte) : Engine :=
  match e.pending with
  | none => e
  | some p =>
    if token ∈ p.okTokens then (e.resolve p Result.ok).raiseIdle
    else if token ∈ p.failTokens then
      (e.resolve p (if token = tokBUSY then Result.busy else Result.deviceError)).raiseIdle
    else e

/-- Modelled from the spec: timeout policy of section 4.2: once the deadline has elapsed
the command in flight resolves as Timeout, is cleared, and the connection it is scoped to
moves towards Closed. -/
def checkTimeout (e : Engine) : Engine :=
  match e.pending with
  | none => e
  | some p =>
    if p.deadline ≤ e.clock then
      match p.conn with
      | none => e.resolve p Result.timeout
      | some id => (e.resolve p Result.timeout).modifyConn id towardClosed
    else e

/-- Modelled from the spec: `IsReady` of section 4.2 (`ESP_IsReady` for the callers):
Busy while a command is in flight. -/
def IsReady (e : Engine) : Result :=
  if e.pending.isSome then Result.busy else Result.ok

/-- Modelled from the spec: `LastStatus` of section 4.2 (`ESP_GetLastReturnStatus`). -/
def LastStatus (e : Engine) : Result := e.lastStatus

/-! ## Connection table operations (spec section 4.3) -/

/-- Modelled from the spec: `OnDataFrame(id, bytes)` of section 4.3: updates the record
of the connection and raises the data-received event; the first-packet marker, which that
event sees set on the first frame after the connection became Active, is cleared after
it. -/
def OnDataFrame (e : Engine) (id : Nat) (payload : List Byte) : Engine :=
  ((e.modifyConn id (receiveFrame payload)).raiseConn (Event.dataReceived id payload)
    id).modifyConn id clearFirstPacket

/-- Modelled from the spec: `Open(type, host, port)` of section 4.3: TableFull if no slot
is free; otherwise the connect command goes through the dispatcher; if that issues it the slot
becomes Opening, and if the dispatcher refuses, its result is returned and nothing
changes. -/
def Open (e : Engine) (t : Transport) (host : List Byte) (port : Nat)
    (timeout : Nat) (blocking : Bool) : Result × Engine :=
  match firstFree e.conns with
  | none => (Result.tableFull, e)
  | some id =>
    if (e.Issue (connectCommand id t host port) [tokOK] [tokERROR, tokFAIL, tokBUSY]
          timeout blocking (some id)).1 = Result.ok then
      (Result.ok,
        (e.Issue (connectCommand id t host port) [tokOK] [tokERROR, tokFAIL, tokBUSY]
          timeout blocking (some id)).2.modifyConn id
          (fun _ => { Connection.free with
                      role := Role.client, transport := t, host := host, port := port,
                      state := ConnState.opening }))
    else
      ((e.Issue (connectCommand id t host port) [tokOK] [tokERROR, tokFAIL, tokBUSY]
          timeout blocking (some id)).1, e)

/-- Modelled from the spec: `Close(id)` of section 4.3: an Active connection gets the
close command and becomes Closing; another occupied slot becomes Closing; the slot is
freed only by the Closed confirmation. -/
def Close (e : Engine) (id : Nat) (timeout : Nat) (blocking : Bool) : Result × Engine :=
  match e.conns[id]? with
  | none => (Result.ok, e)
  | some c =>
    if c.state = ConnState.active then
      if (e.Issue (closeCommand id) [tokOK] [tokERROR, tokBUSY]
            timeout blocking (some id)).1 = Result.ok then
        (Result.ok,
          (e.Issue (closeCommand id) [tokOK] [tokERROR, tokBUSY]
            timeout blocking (some id)).2.modifyConn id towardClosed)
      else
        ((e.Issue (closeCommand id) [tokOK] [tokERROR, tokBUSY]
            timeout blocking (some id)).1, e)
    else (Result.ok, e.modifyConn id towardClosed)

/-! ## Frame parser (spec section 4.1) -/

/-- Modelled from the spec: the ready banner (sections 4.1 and 4.5): with a command in
flight it is a watchdog reset, which raises the watchdog-reset event and fails the
command; otherwise it is a normal boot. -/
def onReady (e : Engine) : Engine :=
  match e.pending with
  | some p => (e.raise Event.watchdogReset).resolve p Result.watchdogReset
  | none => e.raise Event.moduleReady

/-- Modelled from the spec: `<id>,CONNECT`: the slot becomes Active. -/
def onConnect (e : Engine) (id : Nat) : Engine :=
  if id < e.conns.length then
    (e.modifyConn id activate).raiseConn (Event.connActive id) id
  else e

/-- Modelled from the spec: `<id>,CLOSED` (section 4.3, edge policy): a tracked slot is
freed and the closed event raised; for an id with no tracked slot the line is ignored. -/
def onClosed (e : Engine) (id : Nat) : Engine :=
  if e.tracked id then
    (e.modifyConn id (fun c => { c with state := ConnState.closed })).raiseConn
      (Event.connClosed id) id
  else e

/-- Modelled from the spec: the unsolicited tokens of section 6; each raises its event
whether or not a command is in flight. -/
def unsolicited (e : Engine) (line : List Byte) : Engine :=
  if line = tokREADY then e.onReady
  else if line = tokWIFICONNECTED then
    ({ e with wifiConnected := true }).raise Event.wifiConnected
  else if line = tokWIFIGOTIP then
    ({ e with wifiHasIP := true }).raise Event.wifiGotIP
  else if line = tokWIFIDISCONNECT then
    ({ e with wifiConnected := false, wifiHasIP := false }).raise Event.wifiDisconnected
  else if (leadingDigits line).1 = [] then e
  else if (leadingDigits line).2 = tokCONNECT then
    e.onConnect (parseDecimal (leadingDigits line).1)
  else if (leadingDigits line).2 = tokCLOSED then
    e.onClosed (parseDecimal (leadingDigits line).1)
  else e

/-- Modelled from the spec: a complete line (section 4.1): its unsolicited meaning first,
then the completion of the command in flight if the line is one of its terminal tokens. -/
def handleLine (e : Engine) (line : List Byte) : Engine :=
  (e.unsolicited line).Complete line

/-- Modelled from the spec: a malformed binary-frame header (section 4.1) raises the
parse-error event and sends the parser to `Resync`, which ends at the next line feed. -/
def malformed (e : Engine) (b : Byte) : Engine :=
  { e.raise Event.parseError with
    parser := if b = LF then ParserState.ScanLine [] else ParserState.Resync }

/-- Modelled from the spec: state `AwaitFrameHeader` (section 4.1): the decimal id up to
the comma, then the decimal length up to the colon.  A field without digits, an id
outside the table, or any other character is a malformed header. -/
def headerByte (e : Engine) (f : HeaderField) (b : Byte) : Engine :=
  match f with
  | HeaderField.id acc =>
    if isDigit b then
      { e with parser :=
          ParserState.AwaitFrameHeader (HeaderField.id (some (acc.getD 0 * 10 + (b - 48)))) }
    else if b = 44 then
      match acc with
      | some id =>
        if id < e.conns.length then
          { e with parser := ParserState.AwaitFrameHeader (HeaderField.len id none) }
        else e.malformed b
      | none => e.malformed b
    else e.malformed b
  | HeaderField.len id acc =>
    if isDigit b then
      { e with parser :=
          ParserState.AwaitFrameHeader (HeaderField.len id (some (acc.getD 0 * 10 + (b - 48)))) }
    else if b = 58 then
      match acc with
      | some n =>
        if n = 0 then ({ e with parser := ParserState.ScanLine [] }).OnDataFrame id []
        else { e with parser := ParserState.ConsumeFramePayload id n [] }
      | none => e.malformed b
    else e.malformed b

/-- Modelled from the spec: one byte through the frame parser (section 4.1), resumable at
any byte boundary. -/
def parseByte (e : Engine) (b : Byte) : Engine :=
  match e.parser with
  | ParserState.ScanLine acc =>
    if b = LF then ({ e with parser := ParserState.ScanLine [] }).handleLine (stripCR acc)
    else if acc ++ [b] = tokIPD then
      { e with parser := ParserState.AwaitFrameHeader (HeaderField.id none) }
    else { e with parser := ParserState.ScanLine (acc ++ [b]) }
  | ParserState.AwaitFrameHeader f => e.headerByte f b
  | ParserState.ConsumeFramePayload id remaining buf =>
    if remaining ≤ 1 then
      ({ e with parser := ParserState.ScanLine [] }).OnDataFrame id (buf ++ [b])
    else { e with parser := ParserState.ConsumeFramePayload id (remaining - 1) (buf ++ [b]) }
  | ParserState.Resync =>
    if b = LF then { e with parser := ParserState.ScanLine [] } else e

/-- Modelled from the spec: one call of the frame parser (section 4.1): it processes all
bytes currently in the receive buffer and leaves the buffer empty. -/
def Parse (e : Engine) : Engine :=
  e.rx.foldl parseByte { e with rx := [] }

end Engine

/-! ## Entry points of the engine used by the glue and the examples -/

/-- Modelled from the spec: `ESP_DataReceived(data, count)` (`ESP8266_DataReceived` in the
AVR port), whose definition is in the absent `esp8266.c`: contract `on_byte_received` of
section 6, which only pushes the bytes into the receive buffer. -/
def ESP_DataReceived (e : Engine) (data : List Byte) (count : Nat) : Engine :=
  { e with rx := e.rx ++ data.take count }

/-- Modelled from the spec: `ESP_UpdateTime(ms)` (`ESP8266_TimeUpdate`), contract
`advance_time` of section 6: the clock accumulates the milliseconds supplied. -/
def ESP_UpdateTime (e : Engine) (ms : Nat) : Engine :=
  { e with clock := e.clock + ms }

/-- Modelled from the spec: `ESP_Update`, the update step: the frame parser runs over the
receive buffer, then the deadline of the command in flight is checked. -/
def ESP_Update (e : Engine) : Engine :=
  e.Parse.checkTimeout

/-- What reaches the engine from outside between two commands: bytes from the receive
path, a tick of the timer, or a call of the update step. -/
inductive Input where
  | bytes (data : List Byte)
  | tick (ms : Nat)
  | update
  deriving DecidableEq, Repr

/-- The engine after one input. -/
def Engine.step (e : Engine) : Input → Engine
  | Input.bytes data => ESP_DataReceived e data data.length
  | Input.tick ms => ESP_UpdateTime e ms
  | Input.update => ESP_Update e

/-- The engine after a sequence of inputs. -/
def Engine.run (e : Engine) (ins : List Input) : Engine := ins.foldl Engine.step e

/-- Delivery of one chunk: the bytes arrive, then the update step runs. -/
def deliver (e : Engine) (chunk : List Byte) : Engine :=
  ESP_Update (ESP_DataReceived e chunk chunk.length)

/-- The connection data events of the history, in order: connection id and payload. -/
def dataEvents (log : List Obs) : List (Nat × List Byte) :=
  log.filterMap fun o =>
    match o with
    | Obs.event (Event.dataReceived id payload) _ => some (id, payload)
    | _ => none

/-- The resolutions of commands in the history, in order: command text and result. -/
def resolutions (log : List Obs) : List (List Byte × Result) :=
  log.filterMap fun o =>
    match o with
    | Obs.resolved text r => some (text, r)
    | _ => none

/-! ## The framing automaton

What the frame parser does to the parser state and to the sequence of data events depends
on the bytes and on the capacity of the table only.  `frameStep` is that part of
`Engine.parseByte`, written down on its own; `parseByte_frameStep` proves the two agree. -/

/-- Parser state after a malformed header that ends with byte `b`. -/
def badHeader (b : Byte) : ParserState :=
  if b = LF then ParserState.ScanLine [] else ParserState.Resync

/-- The parser state after one byte and the data frames that byte completes: the
projection of `Engine.parseByte` on the framing. -/
def frameStep (cap : Nat) : ParserState → Byte → ParserState × List (Nat × List Byte)
  | ParserState.ScanLine acc, b =>
    if b = LF then (ParserState.ScanLine [], [])
    else if acc ++ [b] = tokIPD then (ParserState.AwaitFrameHeader (HeaderField.id none), [])
    else (ParserState.ScanLine (acc ++ [b]), [])
  | ParserState.AwaitFrameHeader (HeaderField.id acc), b =>
    if isDigit b then
      (ParserState.AwaitFrameHeader (HeaderField.id (some (acc.getD 0 * 10 + (b - 48)))), [])
    else if b = 44 then
      match acc with
      | some id =>
        if id < cap then (ParserState.AwaitFrameHeader (HeaderField.len id none), [])
        else (badHeader b, [])
      | none => (badHeader b, [])
    else (badHeader b, [])
  | ParserState.AwaitFrameHeader (HeaderField.len id acc), b =>
    if isDigit b then
      (ParserState.AwaitFrameHeader (HeaderField.len id (some (acc.getD 0 * 10 + (b - 48)))), [])
    else if b = 58 then
      match acc with
      | some n =>
        if n = 0 then (ParserState.ScanLine [], [(id, [])])
        else (ParserState.ConsumeFramePayload id n [], [])
      | none => (badHeader b, [])
    else (badHeader b, [])
  | ParserState.ConsumeFramePayload id remaining buf, b =>
    if remaining ≤ 1 then (ParserState.ScanLine [], [(id, buf ++ [b])])
    else (ParserState.ConsumeFramePayload id (remaining - 1) (buf ++ [b]), [])
  | ParserState.Resync, b =>
    if b = LF then (ParserState.ScanLine [], []) else (ParserState.Resync, [])

/-- The parser state after a run of bytes and the data frames completed on the way. -/
def frameRun (cap : Nat) : ParserState → List Byte → ParserState × List (Nat × List Byte)
  | ps, [] => (ps, [])
  | ps, b :: bs =>
    ((frameRun cap (frameStep cap ps b).1 bs).1,
      (frameStep cap ps b).2 ++ (frameRun cap (frameStep cap ps b).1 bs).2)


/-- Two engine states that the framing of the byte stream cannot tell apart. -/
def Quiet (e e' : Engine) : Prop :=
  e'.parser = e.parser ∧ e'.rx = e.rx ∧ e'.conns.length = e.conns.length ∧
    dataEvents e'.log = dataEvents e.log


/-- The step from `e` to `e'` resolves the command in flight at most once: either the
command and the resolutions recorded are as before, or a command was in flight, is now
cleared, and exactly one resolution of it was recorded. -/
def Settles (e e' : Engine) : Prop :=
  (e'.pending = e.pending ∧ resolutions e'.log = resolutions e.log) ∨
  (∃ p r, e.pending = some p ∧ e'.pending = none ∧
    resolutions e'.log = resolutions e.log ++ [(p.text, r)])

/-! ## Concrete engines for the scenarios -/

/-- Text `+IPD,0,5:ABCDE`. -/
def frameABCDE : List Byte := [43, 73, 80, 68, 44, 48, 44, 53, 58, 65, 66, 67, 68, 69]

/-- An engine with five slots right after `AT+CWMODE=3` was issued with a timeout of
1000 ms. -/
def busyEngine : Engine :=
  (Engine.Issue (Engine.init 5) cmdCWMODE3 [tokOK] [tokERROR] 1000 false none).2

/-- The command `AT+CWMODE=3` as recorded when it is issued at time 0 with a timeout of
1000 ms. -/
def cwmodeCommand : PendingCommand :=
  { text := cmdCWMODE3, okTokens := [tokOK], failTokens := [tokERROR], issuedAt := 0,
    deadline := 1000, blocking := false, conn := none }

/-- The engine `busyEngine` 1000 ms later, with the line `WIFI CONNECTED` received. -/
def expiredEngine : Engine :=
  ESP_DataReceived (ESP_UpdateTime busyEngine 1000) (tokWIFICONNECTED ++ [CR, LF]) 16

/-- One parse step over `bytes`: they arrive in the receive buffer and the frame parser
runs. -/
def Engine.feed (e : Engine) (bytes : List Byte) : Engine :=
  (ESP_DataReceived e bytes bytes.length).Parse

/-- An engine whose five slots are all occupied by Active connections. -/
def fullEngine : Engine :=
  { Engine.init 5 with
    conns := List.replicate 5 { Connection.free with state := ConnState.active } }

/-! ## Low-level glue of the AVR port (`01-ESP8266_ATMEGA_2560/esp8266_ll.c`) -/

/-- USART1 of the ATmega2560 as `ESP8266_LL_USARTSend` sees it: how many times the status
register `UCSR1A` has been read, and the bytes written to the data register `UDR1`, in
order.  The value of the `k`-th read of `UCSR1A` is given by the hardware, as a function
`ucsr1a : Nat → Nat`. -/
structure Usart1 where
  reads : Nat
  udr1 : List Byte
  deriving DecidableEq, Repr

/-- The busy-wait `while ((UCSR1A & (1 << UDRE1)) == 0);` of `esp8266_ll.c`, lines 63 and
71: every test reads `UCSR1A` once; the loop ends at the first read with the bit `UDRE1`
set.  `fuel` bounds the number of reads; `none` means the bound was reached.  The bit
number `UDRE1` comes from `avr/io.h`, which is not part of the sources. -/
def waitUDRE (ucsr1a : Nat → Nat) (UDRE1 : Nat) : Nat → Usart1 → Option Usart1
  | 0, _ => none
  | fuel + 1, hw =>
    if ucsr1a hw.reads &&& (1 <<< UDRE1) = 0 then
      waitUDRE ucsr1a UDRE1 fuel { hw with reads := hw.reads + 1 }
    else some { hw with reads := hw.reads + 1 }

/-- The loop `while (count--) { UDR1 = *data++; while (...); }` of `esp8266_ll.c`, lines
66 to 72: while `count` is not zero it is decremented, the byte under the pointer is
written to `UDR1`, the pointer advances, and the transmitter is waited for.  The pointer is
the list of the bytes from it onwards; reading past the buffer gives `none`. -/
def sendLoop (ucsr1a : Nat → Nat) (UDRE1 : Nat) (fuel : Nat) :
    Nat → List Byte → Usart1 → Option Usart1
  | 0, _, hw => some hw
  | _ + 1, [], _ => none
  | count + 1, b :: rest, hw =>
    match waitUDRE ucsr1a UDRE1 fuel { hw with udr1 := hw.udr1 ++ [b] } with
    | none => none
    | some hw' => sendLoop ucsr1a UDRE1 fuel count rest hw'

/-- Function `uint8_t ESP8266_LL_USARTSend(uint8_t* data, uint16_t count)` of
`esp8266_ll.c`, lines 61 to 76: waits for the transmitter, sends `count` bytes, returns 0.
The parameter `count` is a `uint16_t`, hence taken modulo 65536. -/
def ESP8266_LL_USARTSend (ucsr1a : Nat → Nat) (UDRE1 : Nat) (fuel : Nat)
    (data : List Byte) (count : Nat) (hw : Usart1) : Option (Usart1 × Nat) :=
  match waitUDRE ucsr1a UDRE1 fuel hw with
  | none => none
  | some hw1 =>
    match sendLoop ucsr1a UDRE1 fuel (count % 65536) data hw1 with
    | none => none
    | some hw2 => some (hw2, 0)

/-- A transmitter whose `UDRE1` flag (bit 5) is set at every third read of `UCSR1A`. -/
def slowTransmitter (k : Nat) : Nat := if k % 3 = 2 then 32 else 0

/-! ## Receive handlers

The handlers pass the received byte to the entry point `ESP_DataReceived`
(`ESP8266_DataReceived` in the AVR port), which is defined in the engine.  They are
embedded over any engine state `σ`, with the entry point as the parameter `recv`. -/

/-- Handler `ISR(USART1_RX_vect)` of `01-ESP8266_ATMEGA_2560/esp8266_ll.c`, lines 79 to 84:
`uint8_t ch = UDR1; ESP8266_DataReceived(&ch, 1);`.  `UDR1` is the byte read from the data
register. -/
def ISR_USART1_RX_vect {σ : Type} (recv : σ → List Byte → Nat → σ) (UDR1 : Byte) (s : σ) : σ :=
  recv s [UDR1] 1

/-- Handler `TM_USART1_ReceiveHandler(uint8_t ch)` of the STM32 examples:
`ESP_DataReceived(&ch, 1);`. -/
def TM_USART1_ReceiveHandler {σ : Type} (recv : σ → List Byte → Nat → σ) (ch : Byte) (s : σ) :
    σ :=
  recv s [ch] 1

/-- Handler `TM_UART5_ReceiveHandler(uint8_t ch)` (STM32F769 Discovery):
`ESP_DataReceived(&ch, 1);`. -/
def TM_UART5_ReceiveHandler {σ : Type} (recv : σ → List Byte → Nat → σ) (ch : Byte) (s : σ) :
    σ :=
  recv s [ch] 1

/-- Handler `TM_USART6_ReceiveHandler(uint8_t ch)` (STM32F7 Discovery):
`ESP_DataReceived(&ch, 1);`. -/
def TM_USART6_ReceiveHandler {σ : Type} (recv : σ → List Byte → Nat → σ) (ch : Byte) (s : σ) :
    σ :=
  recv s [ch] 1

/-- An entry point that only records its calls: the buffer and the count of each. -/
def logCall (calls : List (List Byte × Nat)) (data : List Byte) (count : Nat) :
    List (List Byte × Nat) :=
  calls ++ [(data, count)]

/-! ## Low-level glue of the STM32 examples (`esp8266_ll.c` of the RTOS examples)

The platform libraries (`tm_stm32_usart.h`, `tm_stm32_gpio.h`) and the RTOS (`cmsis_os.h`)
are not among the sources.  A call of one of their functions is recorded, with its
arguments, in the order in which it is made; what the RTOS returns is given from outside. -/

/-- GPIO ports that the `esp8266_ll.c` files name. -/
inductive Port where
  | GPIOA | GPIOB | GPIOC | GPIOD | GPIOG | GPIOH | GPIOJ
  deriving DecidableEq, Repr

/-- A GPIO pin: port and pin number (`GPIO_PIN_14` is pin 14). -/
structure Pin where
  port : Port
  pin : Nat
  deriving DecidableEq, Repr

/-- The U(S)ART peripherals that the `esp8266_ll.c` files name. -/
inductive Usart where
  | USART1 | UART5 | USART6
  deriving DecidableEq, Repr

/-- The pins pack argument of `TM_USART_Init`. -/
inductive PinsPack where
  | TM_USART_PinsPack_1 | TM_USART_PinsPack_Custom
  deriving DecidableEq, Repr

/-- A call made by the low-level layer into the platform libraries or the RTOS.
`TM_GPIO_Init` is always called with `TM_GPIO_OType_PP, TM_GPIO_PuPd_UP,
TM_GPIO_Speed_Low`; only the mode differs (`output` for `TM_GPIO_Mode_OUT`). -/
inductive HwCall where
  | TM_USART_Init (usart : Usart) (pack : PinsPack) (baudrate : Nat)
  | TM_GPIO_Init (p : Pin) (output : Bool)
  | TM_GPIO_SetPinHigh (p : Pin)
  | TM_GPIO_SetPinLow (p : Pin)
  | TM_USART_Send (usart : Usart) (data : List Byte) (count : Nat)
  | osMutexCreate (mutex_def : Nat)
  | osMutexDelete (mutex_id : Nat)
  | osMutexWait (mutex_id : Nat) (millisec : Nat)
  | osMutexRelease (mutex_id : Nat)
  deriving DecidableEq, Repr

/-- Value `ESP_RTS_SET` of `esp8266_ll.h`: RTS should be set high. -/
def ESP_RTS_SET : Nat := 1
/-- Value `ESP_RTS_CLR` of `esp8266_ll.h`: RTS should be set low. -/
def ESP_RTS_CLR : Nat := 0
/-- Value `ESP_RESET_SET` of `esp8266_ll.h`: reset pin should be set. -/
def ESP_RESET_SET : Nat := 1
/-- Value `ESP_RESET_CLR` of `esp8266_ll.h`: reset pin should be cleared. -/
def ESP_RESET_CLR : Nat := 0

/-- Status `osOK` of the RTOS.  The header `cmsis_os.h` is not among the sources; a status
is a number and `osOK` is 0, as in CMSIS-RTOS. -/
def osOK : Nat := 0

/-- Timeout value `osWaitForever` of the RTOS (`cmsis_os.h`, not among the sources): no
time-out, `0xFFFFFFFF` in CMSIS-RTOS. -/
def osWaitForever : Nat := 0xFFFFFFFF

/-- What the RTOS returns to the low-level layer: the handle from `osMutexCreate` (0 is
`NULL`) and the status from `osMutexDelete`, `osMutexWait`, `osMutexRelease`, each as a
function of the arguments of the call. -/
structure Rtos where
  osMutexCreate : Nat → Nat
  osMutexDelete : Nat → Nat
  osMutexWait : Nat → Nat → Nat
  osMutexRelease : Nat → Nat

/-- Structure `ESP_LL_t` of `esp8266_ll.h`. -/
structure ESP_LL_t where
  Baudrate : Nat
  deriving DecidableEq, Repr

/-- Structure `ESP_LL_Send_t`, the parameter of the send control, with the fields that
`ESP_LL_Callback` reads (its declaration is in the absent `esp8266.h`). -/
structure ESP_LL_Send_t where
  Data : List Byte
  Count : Nat
  deriving DecidableEq, Repr

/-- The control code `ctrl` of `ESP_LL_Callback` together with what `param` points to for
that code.  The enumeration `ESP_LL_Control_t` is declared in the absent `esp8266.h`;
`other` stands for every code that the function names in no `case`. -/
inductive Control where
  | Init (LL : ESP_LL_t)
  | Send (send : ESP_LL_Send_t)
  | SetReset (state : Nat)
  | SetRTS (state : Nat)
  | SYS_Create (Sync : Nat)
  | SYS_Delete (Sync : Nat)
  | SYS_Request (Sync : Nat)
  | SYS_Release (Sync : Nat)
  | other (code : Nat)
  deriving DecidableEq, Repr

/-- The build of `01-EXAMPLE_NETWORK_SCAN_RTOS/User/esp8266_ll.c`: the macros `ESP_USART`,
`ESP_RESET_PORT` and `ESP_RESET_PIN` (when both are defined), `ESP_RTS_PORT` and
`ESP_RTS_PIN` (when both are defined), and `ESP_RTOS`. -/
structure Build where
  ESP_USART : Usart
  reset : Option Pin
  rts : Option Pin
  ESP_RTOS : Bool
  deriving DecidableEq, Repr

/-- Board `STM32F769_DISCOVERY`, lines 43 to 51. -/
def STM32F769_DISCOVERY (rtos : Bool) : Build :=
  { ESP_USART := Usart.UART5, reset := some ⟨Port.GPIOJ, 14⟩, rts := none, ESP_RTOS := rtos }
/-- Board `STM32F7_DISCOVERY`, lines 52 to 60. -/
def STM32F7_DISCOVERY (rtos : Bool) : Build :=
  { ESP_USART := Usart.USART6, reset := some ⟨Port.GPIOA, 0⟩, rts := none, ESP_RTOS := rtos }
/-- Boards `NUCLEO_F401` and `NUCLEO_F411`, lines 61 to 69. -/
def NUCLEO_F411 (rtos : Bool) : Build :=
  { ESP_USART := Usart.USART1, reset := some ⟨Port.GPIOA, 0⟩, rts := none, ESP_RTOS := rtos }
/-- Board `STM32F429_DISCOVERY`, lines 70 to 78. -/
def STM32F429_DISCOVERY (rtos : Bool) : Build :=
  { ESP_USART := Usart.USART1, reset := some ⟨Port.GPIOA, 1⟩, rts := none, ESP_RTOS := rtos }
/-- Board `STM32F4_DISCOVERY`, lines 79 to 87. -/
def STM32F4_DISCOVERY (rtos : Bool) : Build :=
  { ESP_USART := Usart.USART1, reset := some ⟨Port.GPIOA, 1⟩, rts := none, ESP_RTOS := rtos }

/-- The low-level layer of `01-EXAMPLE_NETWORK_SCAN_RTOS/User/esp8266_ll.c`: its only
variable, `osMutexId id` (0 is `NULL`), and the calls it has made so far. -/
structure LowLevel where
  id : Nat
  calls : List HwCall
  deriving DecidableEq, Repr

/-- The low-level layer after one more call into the platform or the RTOS. -/
def LowLevel.call (s : LowLevel) (c : HwCall) : LowLevel := { s with calls := s.calls ++ [c] }

/-- Function `uint8_t ESP_LL_Callback(ESP_LL_Control_t ctrl, void* param, void* result)` of
`01-EXAMPLE_NETWORK_SCAN_RTOS/User/esp8266_ll.c`, lines 89 to 182.  The cell that `result`
points to is `some v` (`none` for a `NULL` pointer).  The value is the layer after the
call, the cell after the call and the return value; it is `none` where the code writes
through `result` without testing it and `result` is `NULL`. -/
def ESP_LL_Callback (b : Build) (os : Rtos) (ctrl : Control) (result : Option Nat)
    (s : LowLevel) : Option (LowLevel × Option Nat × Nat) :=
  match ctrl with
  | Control.Init LL =>
    some
      ({ s with calls := s.calls
            ++ [HwCall.TM_USART_Init b.ESP_USART PinsPack.TM_USART_PinsPack_Custom LL.Baudrate]
            ++ (match b.reset with
                | some p => [HwCall.TM_GPIO_Init p true, HwCall.TM_GPIO_SetPinHigh p]
                | none => [])
            ++ (match b.rts with
                | some p => [HwCall.TM_GPIO_Init p true, HwCall.TM_GPIO_SetPinLow p]
                | none => []) },
        result.map (fun _ => 0), 1)
  | Control.Send send =>
    some (s.call (HwCall.TM_USART_Send b.ESP_USART send.Data send.Count),
      result.map (fun _ => 0), 1)
  | Control.SetReset state =>
    match b.reset with
    | some p =>
      if state = ESP_RESET_SET then some (s.call (HwCall.TM_GPIO_SetPinLow p), result, 1)
      else some (s.call (HwCall.TM_GPIO_SetPinHigh p), result, 1)
    | none => some (s, result, 0)
  | Control.SetRTS state =>
    match b.rts with
    | some p =>
      if state = ESP_RTS_SET then some (s.call (HwCall.TM_GPIO_SetPinHigh p), result, 1)
      else some (s.call (HwCall.TM_GPIO_SetPinHigh p), result, 1)
    | none => some (s, result, 0)
  | Control.SYS_Create Sync =>
    if b.ESP_RTOS then
      some ({ id := os.osMutexCreate Sync, calls := s.calls ++ [HwCall.osMutexCreate Sync] },
        result.map (fun _ => if os.osMutexCreate Sync = 0 then 1 else 0), 1)
    else some (s, result, 0)
  | Control.SYS_Delete Sync =>
    if b.ESP_RTOS then
      some (s.call (HwCall.osMutexDelete Sync),
        result.map (fun _ => if s.id = 0 then 1 else 0), 1)
    else some (s, result, 0)
  | Control.SYS_Request _ =>
    if b.ESP_RTOS then
      match result with
      | none => none
      | some _ =>
        some (s.call (HwCall.osMutexWait s.id 1000),
          some (if os.osMutexWait s.id 1000 = osOK then 0 else 1), 1)
    else some (s, result, 0)
  | Control.SYS_Release _ =>
    if b.ESP_RTOS then
      match result with
      | none => none
      | some _ =>
        some (s.call (HwCall.osMutexRelease s.id),
          some (if os.osMutexRelease s.id = osOK then 0 else 1), 1)
    else some (s, result, 0)
  | Control.other _ => some (s, result, 0)

/-- The controls that a build of `ESP_LL_Callback` processes: Init and Send always, SetReset
and SetRTS where the pin macros are defined, the four synchronization controls where
`ESP_RTOS` is set. -/
def processes (b : Build) : Control → Bool
  | Control.Init _ => true
  | Control.Send _ => true
  | Control.SetReset _ => b.reset.isSome
  | Control.SetRTS _ => b.rts.isSome
  | Control.SYS_Create _ => b.ESP_RTOS
  | Control.SYS_Delete _ => b.ESP_RTOS
  | Control.SYS_Request _ => b.ESP_RTOS
  | Control.SYS_Release _ => b.ESP_RTOS
  | Control.other _ => false

/-- The control writes through `result` without testing it for `NULL`. -/
def writesUnchecked (b : Build) : Control → Bool
  | Control.SYS_Request _ => b.ESP_RTOS
  | Control.SYS_Release _ => b.ESP_RTOS
  | _ => false

/-- Function `uint8_t ESP_LL_SetReset(ESP_LL_t* LL, uint8_t state)` of
`01-EXAMPLE_CLIENT_RTOS/User/esp8266_ll.c`, lines 54 to 64: the calls made and the return
value. -/
def ClientRTOS.ESP_LL_SetReset (state : Nat) : List HwCall × Nat :=
  if state = ESP_RESET_SET then ([HwCall.TM_GPIO_SetPinLow ⟨Port.GPIOA, 0⟩], 0)
  else ([HwCall.TM_GPIO_SetPinHigh ⟨Port.GPIOA, 0⟩], 0)

/-- The reset pin `LL_RESET_PORT`, `LL_RESET_PIN` of
`01-EXAMPLE_UART_WIFI_RTOS/User/esp8266_ll.c`, lines 36 to 59, which depends on whether
`STM32F769_DISCOVERY` is defined. -/
def UartWifiRTOS.LL_RESET (f769 : Bool) : Pin :=
  if f769 then ⟨Port.GPIOJ, 14⟩ else ⟨Port.GPIOA, 0⟩

/-- Function `uint8_t ESP_LL_SetReset(ESP_LL_t* LL, uint8_t state)` of
`01-EXAMPLE_UART_WIFI_RTOS/User/esp8266_ll.c`, lines 94 to 104: the calls made and the
return value. -/
def UartWifiRTOS.ESP_LL_SetReset (f769 : Bool) (state : Nat) : List HwCall × Nat :=
  if state = ESP_RESET_SET then ([HwCall.TM_GPIO_SetPinLow (UartWifiRTOS.LL_RESET f769)], 0)
  else ([HwCall.TM_GPIO_SetPinHigh (UartWifiRTOS.LL_RESET f769)], 0)

/-- The levels that a sequence of calls drives pins to, in order: `false` for low, `true`
for high. -/
def drivenLevels : List HwCall → List Bool
  | [] => []
  | HwCall.TM_GPIO_SetPinHigh _ :: cs => true :: drivenLevels cs
  | HwCall.TM_GPIO_SetPinLow _ :: cs => false :: drivenLevels cs
  | _ :: cs => drivenLevels cs

/-- An RTOS whose mutex calls all fail with status 193 except that `osMutexCreate`
returns the handle 7. -/
def failingRtos : Rtos :=
  { osMutexCreate := fun _ => 7, osMutexDelete := fun _ => 193,
    osMutexWait := fun _ _ => 193, osMutexRelease := fun _ => 193 }

/-! ## USART initialisation of the AVR port (`01-ESP8266_ATMEGA_2560/esp8266_ll.c`) -/

/-- Bit numbers of the USART registers that `ESP8266_LL_USARTInit` names.  They come from
`avr/io.h`, which is not among the sources. -/
structure UsartBits where
  U2X1 : Nat
  UCSZ10 : Nat
  UCSZ11 : Nat
  RXEN1 : Nat
  TXEN1 : Nat
  RXCIE1 : Nat
  deriving DecidableEq, Repr

/-- The bit numbers of the ATmega2560 device header. -/
def iom2560 : UsartBits :=
  { U2X1 := 1, UCSZ10 := 1, UCSZ11 := 2, RXEN1 := 4, TXEN1 := 3, RXCIE1 := 7 }

/-- The registers that `ESP8266_LL_USARTInit` writes, each 8 bits wide, the global
interrupt enable that `sei()` sets, and the milliseconds spent in `_delay_ms`. -/
structure AvrRegs where
  UCSR0A : Nat
  UCSR1A : Nat
  UCSR1B : Nat
  UCSR1C : Nat
  UBRR1H : Nat
  UBRR1L : Nat
  interrupts : Bool
  delayed : Nat
  deriving DecidableEq, Repr

/-- The expression `(F_CPU / d / baudrate - 1) / 2` of `esp8266_ll.c`, lines 25 and 32,
computed in 32-bit unsigned arithmetic (`F_CPU` is an `unsigned long` constant, `baudrate`
a `uint32_t`) and assigned to the `uint16_t prescaler`. -/
def prescalerOf (F_CPU d baudrate : Nat) : Nat :=
  ((F_CPU / d / baudrate + 2 ^ 32 - 1) % 2 ^ 32 / 2) % 2 ^ 16

/-- The test of `esp8266_ll.c`, line 28:
`((F_CPU == 16000000UL) && (baudrate == 57600)) || (prescaler > 4095)`. -/
def recalculates (F_CPU baudrate : Nat) : Bool :=
  (decide (F_CPU = 16000000) && decide (baudrate = 57600))
    || decide (prescalerOf F_CPU 4 baudrate > 4095)

/-- The value of `prescaler` that `ESP8266_LL_USARTInit` writes to `UBRR1H:UBRR1L`: the one
of line 25, replaced by the one of line 32 where the test of line 28 holds. -/
def prescalerWritten (F_CPU baudrate : Nat) : Nat :=
  if recalculates F_CPU baudrate then prescalerOf F_CPU 8 baudrate
  else prescalerOf F_CPU 4 baudrate

/-- Function `uint8_t ESP8266_LL_USARTInit(uint32_t baudrate)` of
`01-ESP8266_ATMEGA_2560/esp8266_ll.c`, lines 21 to 59, for the clock `F_CPU`: the registers
after the call and the return value.  The parameter is a `uint32_t`, hence taken modulo
`2 ^ 32`; a `baudrate` of 0 divides by zero and gives `none`. -/
def ESP8266_LL_USARTInit (F_CPU : Nat) (bits : UsartBits) (baudrate : Nat) (r : AvrRegs) :
    Option (AvrRegs × Nat) :=
  if baudrate % 2 ^ 32 = 0 then none
  else
    some
      ({ UCSR0A := if recalculates F_CPU (baudrate % 2 ^ 32) then 0 else r.UCSR0A
         UBRR1H := (prescalerWritten F_CPU (baudrate % 2 ^ 32) >>> 8) &&& 0xFF
         UBRR1L := prescalerWritten F_CPU (baudrate % 2 ^ 32) &&& 0xFF
         UCSR1A := (r.UCSR1A ||| (1 <<< bits.U2X1)) % 256
         UCSR1C := (r.UCSR1C ||| ((1 <<< bits.UCSZ10) ||| (1 <<< bits.UCSZ11))) % 256
         UCSR1B :=
            (((r.UCSR1B ||| ((1 <<< bits.RXEN1) ||| (1 <<< bits.TXEN1))) % 256)
              ||| (1 <<< bits.RXCIE1)) % 256
         interrupts := true
         delayed := r.delayed + 10 }, 0)

/-- The baud rate that the registers of USART1 select, by the formula of the ATmega2560
data sheet: `F_CPU / (8 * (UBRR1 + 1))` with the bit `U2X1` of `UCSR1A` set and
`F_CPU / (16 * (UBRR1 + 1))` otherwise, where `UBRR1 = UBRR1H * 256 + UBRR1L`. -/
def selectedBaud (F_CPU : Nat) (bits : UsartBits) (r : AvrRegs) : Nat :=
  if r.UCSR1A.testBit bits.U2X1 then F_CPU / (8 * (r.UBRR1H * 256 + r.UBRR1L + 1))
  else F_CPU / (16 * (r.UBRR1H * 256 + r.UBRR1L + 1))

/-- The selected rate and the requested rate differ by less than 5 percent. -/
def within5Percent (selected requested : Nat) : Bool :=
  decide ((selected - requested) * 100 < 5 * requested) &&
    decide ((requested - selected) * 100 < 5 * requested)

/-- Function `void DebugUARTInit(uint32_t baudrate)` of
`01-ESP8266_ATMEGA_2560/main.c`, lines 162 to 182, the sibling of `ESP8266_LL_USARTInit`
for USART0: the value of `UBRR0H * 256 + UBRR0L` it writes, and the double-speed bit
`U2X0` it sets. -/
def DebugUARTInit_UBRR0 (F_CPU baudrate : Nat) : Nat :=
  ((prescalerOf F_CPU 4 (baudrate % 2 ^ 32) >>> 8) &&& 0xFF) * 256
    + (prescalerOf F_CPU 4 (baudrate % 2 ^ 32) &&& 0xFF)

/-- The registers of the AVR after reset, all zero. -/
def AvrRegs.reset : AvrRegs :=
  { UCSR0A := 0, UCSR1A := 0, UCSR1B := 0, UCSR1C := 0, UBRR1H := 0, UBRR1L := 0,
    interrupts := false, delayed := 0 }

/-! ## Tick handlers -/

/-- Handler `ISR(TIMER0_COMPA_vect)` of `01-ESP8266_ATMEGA_2560/main.c`, lines 147 to 150:
`ESP8266_TimeUpdate(&ESP8266, 1);`.  The time-advance operation of the engine is the
parameter `timeUpdate`, over any engine state `σ`. -/
def ISR_TIMER0_COMPA_vect {σ : Type} (timeUpdate : σ → Nat → σ) (s : σ) : σ :=
  timeUpdate s 1

/-- Handler `TM_DELAY_1msHandler` of the protothread examples (`01-EXAMPLE_CLIENT_PT`,
`01-EXAMPLE_NETWORK_SCAN_PT`, `01-EXAMPLE_PING_PT`): `ESP_UpdateTime(&ESP, 1);`. -/
def TM_DELAY_1msHandler {σ : Type} (updateTime : σ → Nat → σ) (s : σ) : σ :=
  updateTime s 1

/-- Handler `TM_DELAY_1msHandler` of the RTOS examples: `ESP_UpdateTime(&ESP, 1);
osSystickHandler();`.  The state is the engine together with the kernel, on which
`osSystickHandler` works. -/
def RTOS.TM_DELAY_1msHandler {σ κ : Type} (updateTime : σ → Nat → σ)
    (osSystickHandler : κ → κ) (s : σ × κ) : σ × κ :=
  (updateTime s.1 1, osSystickHandler s.2)

/-- A time-advance operation that only records the increments it is called with. -/
def logTick (calls : List Nat) (ms : Nat) : List Nat := calls ++ [ms]

/-! ## Protothread examples

The threads poll the engine through `ESP_IsReady` and `ESP_GetLastReturnStatus` and issue
commands in non-blocking mode.  The engine is outside the thread: what each call returns
is given by `env`, the `k`-th call of the thread (counting all calls) returning `env k`.
The debug output through `printf` changes no variable and is left out. -/

/-- The engine functions that the protothread examples call. -/
inductive ApiCall where
  | ESP_IsReady
  | ESP_CONN_Start
  | ESP_GetLastReturnStatus
  | ESP_CONN_Send
  | ESP_STA_ListAccessPoints
  | ESP_Ping
  deriving DecidableEq, Repr

/-- Return value of a protothread function (`PT_WAITING`, `PT_ENDED` of `pt.h`). -/
inductive PtResult where
  | PT_WAITING
  | PT_ENDED
  deriving DecidableEq, Repr

/-- The variables of a protothread example: the saved position `PT.lc`, the global
`espRes`, the activation flag (`client`, `network_searching` or `ping`), and the calls of
engine functions made so far, each with the value it returned. -/
structure PtState where
  lc : Nat
  espRes : Result
  flag : Nat
  calls : List (ApiCall × Result)
  deriving DecidableEq, Repr

/-- One call of an engine function: it returns the next value of `env` and is recorded. -/
def apiCall (env : Nat → Result) (c : ApiCall) (s : PtState) : PtState × Result :=
  ({ s with calls := s.calls ++ [(c, env s.calls.length)] }, env s.calls.length)

/-- The condition `ESP_IsReady(&ESP) == espOK` of the `PT_WAIT_UNTIL` lines. -/
def isReadyOK (env : Nat → Result) (s : PtState) : PtState × Bool :=
  ((apiCall env ApiCall.ESP_IsReady s).1,
    decide ((apiCall env ApiCall.ESP_IsReady s).2 = Result.ok))

/-- The assignment `espRes = f(...)` for an engine function `f`. -/
def assignEspRes (env : Nat → Result) (c : ApiCall) (s : PtState) : PtState :=
  { (apiCall env c s).1 with espRes := (apiCall env c s).2 }

/-- Modelled from the spec: the macro `PT_WAIT_UNTIL(pt, cond)` of the protothread library
(`pt.h` is not among the sources; section 9: suspend and resume via a saved program
counter, advanced one step per call).  It saves the position `line` in `pt->lc`, tests the
condition, and returns `PT_WAITING` if it does not hold; otherwise the thread goes on with
`rest`.  The next call resumes at the saved position, that is with the test. -/
def PT_WAIT_UNTIL (line : Nat) (cond : PtState → PtState × Bool)
    (rest : PtState → PtState × PtResult) (s : PtState) : PtState × PtResult :=
  if (cond { s with lc := line }).2 then rest (cond { s with lc := line }).1
  else ((cond { s with lc := line }).1, PtResult.PT_WAITING)

/-- Modelled from the spec: the macro `PT_END(pt)` of the protothread library (`pt.h` is
not among the sources): the saved position is reset, so that the next call starts at
`PT_BEGIN`, and the function returns `PT_ENDED`. -/
def PT_END (s : PtState) : PtState × PtResult :=
  ({ s with lc := 0 }, PtResult.PT_ENDED)

namespace ClientPT

/-- The end of `CLIENT_THREAD`, `01-EXAMPLE_CLIENT_PT/User/main.c`, lines 124 and 125:
`client = 0; PT_END(pt);`. -/
def finish (s : PtState) : PtState × PtResult := PT_END { s with flag := 0 }

/-- Lines 104 to 112 of `CLIENT_THREAD`: wait for the stack to finish sending, then read
the status. -/
def line104 (env : Nat → Result) : PtState → PtState × PtResult :=
  PT_WAIT_UNTIL 104 (isReadyOK env) fun s =>
    finish (assignEspRes env ApiCall.ESP_GetLastReturnStatus s)

/-- Lines 93 to 120 of `CLIENT_THREAD`: wait for the connection, read the status, and on
`espOK` start sending. -/
def line93 (env : Nat → Result) : PtState → PtState × PtResult :=
  PT_WAIT_UNTIL 93 (isReadyOK env) fun s =>
    if (assignEspRes env ApiCall.ESP_GetLastReturnStatus s).espRes = Result.ok then
      if (assignEspRes env ApiCall.ESP_CONN_Send
            (assignEspRes env ApiCall.ESP_GetLastReturnStatus s)).espRes = Result.ok then
        line104 env (assignEspRes env ApiCall.ESP_CONN_Send
          (assignEspRes env ApiCall.ESP_GetLastReturnStatus s))
      else
        finish (assignEspRes env ApiCall.ESP_CONN_Send
          (assignEspRes env ApiCall.ESP_GetLastReturnStatus s))
    else finish (assignEspRes env ApiCall.ESP_GetLastReturnStatus s)

/-- Lines 87 to 123 of `CLIENT_THREAD`: wait for the stack to be ready, then start the
connection. -/
def line87 (env : Nat → Result) : PtState → PtState × PtResult :=
  PT_WAIT_UNTIL 87 (isReadyOK env) fun s =>
    if (assignEspRes env ApiCall.ESP_CONN_Start s).espRes = Result.ok then
      line93 env (assignEspRes env ApiCall.ESP_CONN_Start s)
    else finish (assignEspRes env ApiCall.ESP_CONN_Start s)

/-- Function `CLIENT_THREAD(struct pt* pt)` of `01-EXAMPLE_CLIENT_PT/User/main.c`, lines 83
to 126: one call.  `PT_BEGIN` resumes at the saved position: 0 is the start, 87, 93 and 104
are the lines of the three `PT_WAIT_UNTIL`; any other value matches no `case`, and control
reaches the end of `PT_END`. -/
def CLIENT_THREAD (env : Nat → Result) (s : PtState) : PtState × PtResult :=
  if s.lc = 0 then line87 env s
  else if s.lc = 87 then line87 env s
  else if s.lc = 93 then line93 env s
  else if s.lc = 104 then line104 env s
  else PT_END s

/-- The variables after `n` calls of `CLIENT_THREAD`. -/
def run (env : Nat → Result) : Nat → PtState → PtState
  | 0, s => s
  | n + 1, s => run env n (CLIENT_THREAD env s).1

end ClientPT

/-- A run of polls of `ESP_IsReady` that all found the stack not ready. -/
def busyPolls (ws : List (ApiCall × Result)) : Prop :=
  ∀ w ∈ ws, ∃ r, w = (ApiCall.ESP_IsReady, r) ∧ r ≠ Result.ok

/-- The order of the calls of `CLIENT_THREAD`: every `ESP_CONN_Start` comes right after an
`ESP_IsReady` that returned `espOK`; every `ESP_GetLastReturnStatus` comes after a command
(`ESP_CONN_Start` or `ESP_CONN_Send`) that returned `espOK`, polls that found the stack
not ready, and one `ESP_IsReady` that returned `espOK`; every `ESP_CONN_Send` comes after
an `ESP_CONN_Start` that returned `espOK`, polls that found the stack not ready, an
`ESP_IsReady` that returned `espOK` and the `ESP_GetLastReturnStatus` that returned
`espOK`. -/
def CallOrder (tr : List (ApiCall × Result)) : Prop :=
  (∀ pre r post, tr = pre ++ (ApiCall.ESP_CONN_Start, r) :: post →
    ∃ pre', pre = pre' ++ [(ApiCall.ESP_IsReady, Result.ok)]) ∧
  (∀ pre r post, tr = pre ++ (ApiCall.ESP_GetLastReturnStatus, r) :: post →
    ∃ pre' c ws, (c = ApiCall.ESP_CONN_Start ∨ c = ApiCall.ESP_CONN_Send) ∧ busyPolls ws ∧
      pre = pre' ++ (c, Result.ok) :: ws ++ [(ApiCall.ESP_IsReady, Result.ok)]) ∧
  (∀ pre r post, tr = pre ++ (ApiCall.ESP_CONN_Send, r) :: post →
    ∃ pre' ws, busyPolls ws ∧
      pre = pre' ++ (ApiCall.ESP_CONN_Start, Result.ok) :: ws
        ++ [(ApiCall.ESP_IsReady, Result.ok),
            (ApiCall.ESP_GetLastReturnStatus, Result.ok)])

/-- An engine whose calls number 0, 3 and 7 return Busy and all others `espOK`. -/
def alternatingEnv (k : Nat) : Result := if k = 0 ∨ k = 3 ∨ k = 7 then Result.busy else Result.ok


/-- The invariant of `CLIENT_THREAD` between calls: the calls so far are in order, and the
saved position tells what the thread waits for: at 93 the connection has been started, at
104 the sending, and only polls that found the stack not ready followed. -/
def ClientInv (s : PtState) : Prop :=
  CallOrder s.calls ∧
  (s.lc = 0 ∨ s.lc = 87 ∨
    (s.lc = 93 ∧ ∃ pre ws, busyPolls ws ∧
      s.calls = pre ++ (ApiCall.ESP_CONN_Start, Result.ok) :: ws) ∨
    (s.lc = 104 ∧ ∃ pre ws, busyPolls ws ∧
      s.calls = pre ++ (ApiCall.ESP_CONN_Send, Result.ok) :: ws))

namespace NetworkScanPT

/-- The end of `NETWORK_SCAN_THREAD`, `01-EXAMPLE_NETWORK_SCAN_PT/User/main.c`, lines 110
and 111: `network_searching = 0; PT_END(pt);`. -/
def finish (s : PtState) : PtState × PtResult := PT_END { s with flag := 0 }

/-- Lines 91 to 105 of `NETWORK_SCAN_THREAD`: wait for the stack to be ready, then read the
status of the scan.  Both branches of the test of `espRes` only print. -/
def line91 (env : Nat → Result) : PtState → PtState × PtResult :=
  PT_WAIT_UNTIL 91 (isReadyOK env) fun s =>
    finish (assignEspRes env ApiCall.ESP_GetLastReturnStatus s)

/-- Lines 85 to 108 of `NETWORK_SCAN_THREAD`: wait for the stack to be ready, then start
the scan in non-blocking mode. -/
def line85 (env : Nat → Result) : PtState → PtState × PtResult :=
  PT_WAIT_UNTIL 85 (isReadyOK env) fun s =>
    if (assignEspRes env ApiCall.ESP_STA_ListAccessPoints s).espRes = Result.ok then
      line91 env (assignEspRes env ApiCall.ESP_STA_ListAccessPoints s)
    else finish (assignEspRes env ApiCall.ESP_STA_ListAccessPoints s)

/-- Function `NETWORK_SCAN_THREAD(struct pt* pt)` of
`01-EXAMPLE_NETWORK_SCAN_PT/User/main.c`, lines 81 to 112: one call.  `PT_BEGIN` resumes
at the saved position: 0 is the start, 85 and 91 are the lines of the two `PT_WAIT_UNTIL`;
any other value matches no `case`, and control reaches the end of `PT_END`. -/
def NETWORK_SCAN_THREAD (env : Nat → Result) (s : PtState) : PtState × PtResult :=
  if s.lc = 0 then line85 env s
  else if s.lc = 85 then line85 env s
  else if s.lc = 91 then line91 env s
  else PT_END s

end NetworkScanPT

namespace PingPT

/-- The end of `PING_THREAD`, `01-EXAMPLE_PING_PT/User/main.c`, lines 100 and 101:
`ping = 0; PT_END(pt);`. -/
def finish (s : PtState) : PtState × PtResult := PT_END { s with flag := 0 }

/-- Lines 88 to 95 of `PING_THREAD`: wait for the stack to be ready, then read the status
of the ping.  Both branches of the test of `espRes` only print. -/
def line88 (env : Nat → Result) : PtState → PtState × PtResult :=
  PT_WAIT_UNTIL 88 (isReadyOK env) fun s =>
    finish (assignEspRes env ApiCall.ESP_GetLastReturnStatus s)

/-- Lines 82 to 98 of `PING_THREAD`: wait for the stack to be ready, then start the ping in
non-blocking mode. -/
def line82 (env : Nat → Result) : PtState → PtState × PtResult :=
  PT_WAIT_UNTIL 82 (isReadyOK env) fun s =>
    if (assignEspRes env ApiCall.ESP_Ping s).espRes = Result.ok then
      line88 env (assignEspRes env ApiCall.ESP_Ping s)
    else finish (assignEspRes env ApiCall.ESP_Ping s)

/-- Function `PING_THREAD(struct pt* pt)` of `01-EXAMPLE_PING_PT/User/main.c`, lines 78 to
102: one call.  `PT_BEGIN` resumes at the saved position: 0 is the start, 82 and 88 are the
lines of the two `PT_WAIT_UNTIL`; any other value matches no `case`, and control reaches
the end of `PT_END`. -/
def PING_THREAD (env : Nat → Result) (s : PtState) : PtState × PtResult :=
  if s.lc = 0 then line82 env s
  else if s.lc = 82 then line82 env s
  else if s.lc = 88 then line88 env s
  else PT_END s

end PingPT

/-- The three protothread examples. -/
inductive PtExample where
  | client
  | networkScan
  | ping
  deriving DecidableEq, Repr

/-- One call of the thread function of an example. -/
def PtExample.thread : PtExample → (Nat → Result) → PtState → PtState × PtResult
  | PtExample.client => ClientPT.CLIENT_THREAD
  | PtExample.networkScan => NetworkScanPT.NETWORK_SCAN_THREAD
  | PtExample.ping => PingPT.PING_THREAD

/-- The values that the thread function of an example stores in `PT.lc`: 0 (the value of
the zero-initialised global, of `PT_INIT` and of `PT_END`) and the lines of its
`PT_WAIT_UNTIL`. -/
def PtExample.positions : PtExample → List Nat
  | PtExample.client => [0, 87, 93, 104]
  | PtExample.networkScan => [0, 85, 91]
  | PtExample.ping => [0, 82, 88]

/-- The operations that issue a command to the module. -/
def ApiCall.issuesCommand : ApiCall → Bool
  | ApiCall.ESP_CONN_Start => true
  | ApiCall.ESP_CONN_Send => true
  | ApiCall.ESP_STA_ListAccessPoints => true
  | ApiCall.ESP_Ping => true
  | ApiCall.ESP_IsReady => false
  | ApiCall.ESP_GetLastReturnStatus => false

/-- One pass of the loop `while (1)` of `main` in the protothread examples
(`01-EXAMPLE_CLIENT_PT/User/main.c`, lines 153 to 165, and the same loop of the other
two): `ESP_Update(&ESP); if (flag) THREAD(&PT); if (TM_DISCO_ButtonOnPressed()) flag = 1;`.
`ESP_Update` works on the engine, whose answers are given by `env`; `pressed` is what
`TM_DISCO_ButtonOnPressed` returns in this pass. -/
def PtExample.mainPass (t : PtExample) (env : Nat → Result) (pressed : Bool) (s : PtState) :
    PtState :=
  if pressed then
    { (if s.flag ≠ 0 then (t.thread env s).1 else s) with flag := 1 }
  else (if s.flag ≠ 0 then (t.thread env s).1 else s)

/-- The variables after the passes of the loop of `main` whose button readings are
`presses`. -/
def PtExample.mainLoop (t : PtExample) (env : Nat → Result) : List Bool → PtState → PtState
  | [], s => s
  | p :: ps, s => PtExample.mainLoop t env ps (t.mainPass env p s)

/-- An engine that answers `espOK` to every call. -/
def alwaysOK (_ : Nat) : Result := Result.ok

/-- An engine that is never ready and refuses every command with Busy. -/
def alwaysBusy (_ : Nat) : Result := Result.busy

/-! ## Millisecond timer of the AVR port (`01-ESP8266_ATMEGA_2560/main.c`) -/

/-- Bit numbers of the registers of Timer/Counter0 that `TimerInit` names, together with
the other bits of the same fields.  They come from `avr/io.h`, which is not among the
sources. -/
structure Timer0Bits where
  WGM00 : Nat
  WGM01 : Nat
  WGM02 : Nat
  CS00 : Nat
  CS01 : Nat
  CS02 : Nat
  OCIE0A : Nat
  deriving DecidableEq, Repr

/-- The timer bit numbers of the ATmega2560 device header: `WGM00`, `WGM01` in `TCCR0A`;
`CS00`, `CS01`, `CS02`, `WGM02` in `TCCR0B`; `OCIE0A` in `TIMSK0`. -/
def iom2560Timer0 : Timer0Bits :=
  { WGM00 := 0, WGM01 := 1, WGM02 := 3, CS00 := 0, CS01 := 1, CS02 := 2, OCIE0A := 1 }

/-- The registers of Timer/Counter0 that `TimerInit` writes, each 8 bits wide. -/
structure Timer0Regs where
  TCCR0A : Nat
  TCCR0B : Nat
  OCR0A : Nat
  TIMSK0 : Nat
  deriving DecidableEq, Repr

/-- The timer registers after reset, all zero. -/
def Timer0Regs.reset : Timer0Regs := { TCCR0A := 0, TCCR0B := 0, OCR0A := 0, TIMSK0 := 0 }

/-- Function `void TimerInit(void)` of `01-ESP8266_ATMEGA_2560/main.c`, lines 129 to 144:
`TCCR0A |= 1 << WGM01; TCCR0B |= (1 << CS01) | (1 << CS00); OCR0A = 249;
TIMSK0 |= 1 << OCIE0A;`. -/
def TimerInit (bits : Timer0Bits) (r : Timer0Regs) : Timer0Regs :=
  { TCCR0A := (r.TCCR0A ||| (1 <<< bits.WGM01)) % 256
    TCCR0B := (r.TCCR0B ||| ((1 <<< bits.CS01) ||| (1 <<< bits.CS00))) % 256
    OCR0A := 249 % 256
    TIMSK0 := (r.TIMSK0 ||| (1 <<< bits.OCIE0A)) % 256 }

/-- The waveform generation mode `WGM02:WGM01:WGM00` that the registers select (ATmega2560
data sheet, Timer/Counter0): mode 2 is clear-timer-on-compare-match with `OCR0A` as top. -/
def waveformMode (bits : Timer0Bits) (r : Timer0Regs) : Nat :=
  (r.TCCR0B.testBit bits.WGM02).toNat * 4 + (r.TCCR0A.testBit bits.WGM01).toNat * 2
    + (r.TCCR0A.testBit bits.WGM00).toNat

/-- The clock select field `CS02:CS01:CS00` of `TCCR0B`. -/
def clockSelect (bits : Timer0Bits) (r : Timer0Regs) : Nat :=
  (r.TCCR0B.testBit bits.CS02).toNat * 4 + (r.TCCR0B.testBit bits.CS01).toNat * 2
    + (r.TCCR0B.testBit bits.CS00).toNat

/-- The division of the CPU clock that a clock select value stands for (ATmega2560 data
sheet, clock select bit description): 1, 8, 64, 256 and 1024 for the values 1 to 5; with 0
the timer is stopped, with 6 and 7 it is clocked from a pin. -/
def timer0Divider : Nat → Option Nat
  | 1 => some 1
  | 2 => some 8
  | 3 => some 64
  | 4 => some 256
  | 5 => some 1024
  | _ => none

/-- The number of CPU cycles from one compare-match interrupt of Timer/Counter0 to the
next (ATmega2560 data sheet): in clear-timer-on-compare-match mode the counter runs from 0
to `OCR0A` and starts again, one count every `divider` CPU cycles, so a compare match comes
every `divider * (OCR0A + 1)` cycles; it raises the interrupt when `OCIE0A` is set.  In
the other modes, with the interrupt masked or without the CPU clock there is no such
period. -/
def compareMatchPeriod (bits : Timer0Bits) (r : Timer0Regs) : Option Nat :=
  if waveformMode bits r = 2 ∧ r.TIMSK0.testBit bits.OCIE0A = true then
    (timer0Divider (clockSelect bits r)).map fun d => d * (r.OCR0A + 1)
  else none

/-- The number of compare-match interrupts in the first `cycles` CPU cycles after the
counter has started from 0. -/
def compareMatchesIn (period cycles : Nat) : Nat := cycles / period

/-! ## Callback of the server example (`01-EXAMPLE_SERVER_RTOS/User/main.c`)

The callback runs inside `ESP_ProcessCallbacks`.  As in the protothread examples, the
engine is outside: the `k`-th call of an engine function returns `env k`.  The debug
output through `printf` (which reads `conn->Number` and `params->UI`) is left out. -/

/-- The events that the engine passes to the callback.  The enumeration `ESP_Event_t` is
declared in `esp8266.h`, which is not among the sources: these are the enumerators that
the examples name, and `other` stands for the remaining ones. -/
inductive ESP_Event_t where
  | espEventIdle
  | espEventConnActive
  | espEventConnClosed
  | espEventDataReceived
  | espEventDataSent
  | espEventDataSentError
  | espEventTransparentReceived
  | other (n : Nat)
  deriving DecidableEq, Repr

/-- The fields of `ESP_EventParams_t` (declared in `esp8266.h`) that the callback reads:
`CP1`, the pointer to the connection of the event, as an address; `CP2`, the pointer to the
data, as the bytes in memory from that address to the end of the buffer; `UI`, the number
of bytes received. -/
structure ESP_EventParams_t where
  CP1 : Nat
  CP2 : List Byte
  UI : Nat
  deriving DecidableEq, Repr

/-- The received data of a data event: the `UI` bytes at `CP2`. -/
def receivedData (params : ESP_EventParams_t) : List Byte := params.CP2.take params.UI

/-- The C string at an address: the bytes before the first NUL. -/
def stringAt (mem : List Byte) : List Byte := mem.takeWhile fun b => decide (b ≠ 0)

/-- Library function `strstr(haystack, needle)`, as far as the callback uses it: whether
the result is not `NULL`, that is whether `needle` occurs in the string at `haystack`.
When the memory holds no NUL the search runs past its end, which gives `none`. -/
def strstr (haystack needle : List Byte) : Option Bool :=
  if 0 ∈ haystack then some (decide (needle <:+: stringAt haystack)) else none

/-- Text `/favicon`, the needle of the search. -/
def favicon : List Byte := [47, 102, 97, 118, 105, 99, 111, 110]

/-- The array `responseData` of `01-EXAMPLE_SERVER_RTOS/User/main.c`, lines 72 to 85: the
adjacent string literals and the terminating NUL, so that `sizeof(responseData)` is its
length. -/
def responseData : List Byte :=
  ascii ("HTTP/1.1 200 OK\r\n" ++ "Content-Type: text/html\r\n" ++ "Connection: close\r\n"
    ++ "\r\n" ++ "<html>\n" ++ "   <head>\n"
    ++ "       <meta http-equiv=\"Refresh\" content=\"1\" />\n" ++ "   </head>\n"
    ++ "   <body>\n"
    ++ "       <h1>Welcome to web server produced by ESP8266 Wi-Fi module!</h1>\n"
    ++ "       This website will constantly update itself every 1 second!\n"
    ++ "   </body>\n" ++ "</html>\n") ++ [0]

/-- The engine functions that the callback calls, with their arguments apart from `&ESP`
and the output pointer `&bw`: `ESP_IsReady()`, `ESP_CONN_Close(conn, blocking)` and
`ESP_CONN_Send(conn, data, btw, blocking)`. -/
inductive ServerCall where
  | ESP_IsReady
  | ESP_CONN_Close (conn : Nat) (blocking : Nat)
  | ESP_CONN_Send (conn : Nat) (data : List Byte) (btw : Nat) (blocking : Nat)
  deriving DecidableEq, Repr

/-- The calls that issue a command to the module. -/
def ServerCall.issuesCommand : ServerCall → Bool
  | ServerCall.ESP_IsReady => false
  | ServerCall.ESP_CONN_Close _ _ => true
  | ServerCall.ESP_CONN_Send _ _ _ _ => true

/-- The blocking flag of a call that has one. -/
def ServerCall.blocking : ServerCall → Option Nat
  | ServerCall.ESP_IsReady => none
  | ServerCall.ESP_CONN_Close _ b => some b
  | ServerCall.ESP_CONN_Send _ _ _ b => some b

/-- The variables of the server example that the callback writes: the global `espRes`, and
the calls of engine functions made so far, each with the value it returned. -/
structure ServerState where
  espRes : Result
  calls : List (ServerCall × Result)
  deriving DecidableEq, Repr

/-- One call of an engine function: it returns the next value of `env` and is recorded. -/
def ServerState.call (env : Nat → Result) (c : ServerCall) (s : ServerState) :
    ServerState × Result :=
  ({ s with calls := s.calls ++ [(c, env s.calls.length)] }, env s.calls.length)

/-- Function `int ESP_Callback(ESP_Event_t evt, ESP_EventParams_t* params)` of
`01-EXAMPLE_SERVER_RTOS/User/main.c`, lines 176 to 224: the variables after the call and
the return value; `none` when `strstr` runs past the end of the memory at `data`. -/
def Server.ESP_Callback (env : Nat → Result) (evt : ESP_Event_t) (params : ESP_EventParams_t)
    (s : ServerState) : Option (ServerState × Int) :=
  match evt with
  | ESP_Event_t.espEventIdle => some (s, 0)
  | ESP_Event_t.espEventConnActive => some (s, 0)
  | ESP_Event_t.espEventConnClosed => some (s, 0)
  | ESP_Event_t.espEventDataReceived =>
    if (s.call env ServerCall.ESP_IsReady).2 = Result.ok then
      (strstr params.CP2 favicon).map fun found =>
        if found then
          (((s.call env ServerCall.ESP_IsReady).1.call env
              (ServerCall.ESP_CONN_Close params.CP1 0)).1, 0)
        else
          ({ ((s.call env ServerCall.ESP_IsReady).1.call env
                (ServerCall.ESP_CONN_Send params.CP1 responseData responseData.length 0)).1 with
             espRes := ((s.call env ServerCall.ESP_IsReady).1.call env
                (ServerCall.ESP_CONN_Send params.CP1 responseData responseData.length 0)).2 }, 0)
    else some ((s.call env ServerCall.ESP_IsReady).1, 0)
  | ESP_Event_t.espEventDataSent =>
    some ((s.call env (ServerCall.ESP_CONN_Close params.CP1 0)).1, 0)
  | ESP_Event_t.espEventDataSentError =>
    some ((s.call env (ServerCall.ESP_CONN_Close params.CP1 0)).1, 0)
  | ESP_Event_t.espEventTransparentReceived => some (s, 0)
  | ESP_Event_t.other _ => some (s, 0)

/-- A data event whose received data are a NUL byte followed by the text `/favicon`, in a
buffer that is NUL-terminated, for the connection at address 3. -/
def nulFaviconParams : ESP_EventParams_t :=
  { CP1 := 3, CP2 := [0, 47, 102, 97, 118, 105, 99, 111, 110, 0], UI := 9 }

/-- A data event whose received data are the request line `GET /favicon.ico`, in a buffer
that is NUL-terminated, for the connection at address 3. -/
def faviconParams : ESP_EventParams_t :=
  { CP1 := 3, CP2 := ascii "GET /favicon.ico" ++ [0], UI := 16 }

/-! # Properties -/

open Engine

theorem length_updateSlot (f : Connection → Connection) (id : Nat) (cs : List Connection) :
    (updateSlot f id cs).length = cs.length := by
  induction cs generalizing id with
  | nil => cases id <;> rfl
  | cons c cs ih =>
    cases id with
    | zero => rfl
    | succ n => simp [updateSlot, ih]

@[simp] theorem dataEvents_append (l1 l2 : List Obs) :
    dataEvents (l1 ++ l2) = dataEvents l1 ++ dataEvents l2 := by
  simp [dataEvents]


theorem Quiet.qrefl (e : Engine) : Quiet e e := ⟨rfl, rfl, rfl, rfl⟩

theorem Quiet.qtrans {a b c : Engine} (h1 : Quiet a b) (h2 : Quiet b c) : Quiet a c :=
  ⟨h2.1.trans h1.1, h2.2.1.trans h1.2.1, h2.2.2.1.trans h1.2.2.1, h2.2.2.2.trans h1.2.2.2⟩

theorem quiet_resolve (e : Engine) (p : PendingCommand) (r : Result) :
    Quiet e (e.resolve p r) := by
  simp [Quiet, resolve, record, dataEvents]

theorem quiet_raise (e : Engine) (ev : Event) (h : ∀ id pl, ev ≠ Event.dataReceived id pl) :
    Quiet e (e.raise ev) := by
  cases ev <;> simp_all [Quiet, raise, record, dataEvents]

theorem quiet_raiseConn (e : Engine) (ev : Event) (id : Nat)
    (h : ∀ i pl, ev ≠ Event.dataReceived i pl) : Quiet e (e.raiseConn ev id) := by
  cases ev <;> simp_all [Quiet, raiseConn, record, dataEvents]

theorem quiet_modifyConn (e : Engine) (id : Nat) (f : Connection → Connection) :
    Quiet e (e.modifyConn id f) := by
  simp [Quiet, modifyConn, length_updateSlot]

theorem quiet_raiseIdle (e : Engine) : Quiet e e.raiseIdle := by
  unfold raiseIdle
  split
  · exact quiet_raise e _ (by simp)
  · exact Quiet.qrefl e

theorem quiet_Complete (e : Engine) (tok : List Byte) : Quiet e (e.Complete tok) := by
  unfold Complete
  split
  · exact Quiet.qrefl e
  · split
    · exact (quiet_resolve e _ _).qtrans (quiet_raiseIdle _)
    · split
      · exact (quiet_resolve e _ _).qtrans (quiet_raiseIdle _)
      · exact Quiet.qrefl e

theorem quiet_onReady (e : Engine) : Quiet e e.onReady := by
  unfold onReady
  split
  · exact (quiet_raise e _ (by simp)).qtrans (quiet_resolve _ _ _)
  · exact quiet_raise e _ (by simp)

theorem quiet_onConnect (e : Engine) (id : Nat) : Quiet e (e.onConnect id) := by
  unfold onConnect
  split
  · exact (quiet_modifyConn e _ _).qtrans (quiet_raiseConn _ _ _ (by simp))
  · exact Quiet.qrefl e

theorem quiet_onClosed (e : Engine) (id : Nat) : Quiet e (e.onClosed id) := by
  unfold onClosed
  split
  · exact (quiet_modifyConn e _ _).qtrans (quiet_raiseConn _ _ _ (by simp))
  · exact Quiet.qrefl e

theorem quiet_unsolicited (e : Engine) (line : List Byte) : Quiet e (e.unsolicited line) := by
  unfold unsolicited
  split
  · exact quiet_onReady e
  split
  · exact quiet_raise (e := { e with wifiConnected := true }) _ (by simp)
  split
  · exact quiet_raise (e := { e with wifiHasIP := true }) _ (by simp)
  split
  · exact quiet_raise (e := { e with wifiConnected := false, wifiHasIP := false }) _ (by simp)
  split
  · exact Quiet.qrefl e
  split
  · exact quiet_onConnect e _
  split
  · exact quiet_onClosed e _
  · exact Quiet.qrefl e

theorem quiet_handleLine (e : Engine) (line : List Byte) : Quiet e (e.handleLine line) :=
  (quiet_unsolicited e line).qtrans (quiet_Complete _ line)

theorem quiet_checkTimeout (e : Engine) : Quiet e e.checkTimeout := by
  unfold checkTimeout
  split
  · exact Quiet.qrefl e
  · split
    · split
      · exact quiet_resolve e _ _
      · exact (quiet_resolve e _ _).qtrans (quiet_modifyConn _ _ _)
    · exact Quiet.qrefl e


theorem OnDataFrame_framing (e : Engine) (id : Nat) (payload : List Byte) :
    (e.OnDataFrame id payload).parser = e.parser ∧ (e.OnDataFrame id payload).rx = e.rx ∧
    (e.OnDataFrame id payload).conns.length = e.conns.length ∧
    dataEvents (e.OnDataFrame id payload).log = dataEvents e.log ++ [(id, payload)] := by
  simp [OnDataFrame, raiseConn, record, modifyConn, length_updateSlot, dataEvents]

theorem malformed_framing (e : Engine) (b : Byte) :
    (e.malformed b).parser = badHeader b ∧ (e.malformed b).rx = e.rx ∧
    (e.malformed b).conns.length = e.conns.length ∧
    dataEvents (e.malformed b).log = dataEvents e.log := by
  simp [malformed, raise, record, badHeader, dataEvents]

/-- One byte through the parser, seen through the framing only. -/
theorem parseByte_frameStep (e : Engine) (b : Byte) :
    (e.parseByte b).parser = (frameStep e.conns.length e.parser b).1 ∧
    (e.parseByte b).rx = e.rx ∧
    (e.parseByte b).conns.length = e.conns.length ∧
    dataEvents (e.parseByte b).log =
      dataEvents e.log ++ (frameStep e.conns.length e.parser b).2 := by
  unfold parseByte
  cases hp : e.parser with
  | ScanLine acc =>
    simp only [frameStep]
    by_cases hb : b = LF
    · have h := quiet_handleLine { e with parser := ParserState.ScanLine [] } (stripCR acc)
      simpa [hb, Quiet] using h
    · by_cases h2 : acc ++ [b] = tokIPD <;> simp [hb, h2]
  | AwaitFrameHeader f =>
    cases f with
    | id acc =>
      simp only [headerByte, frameStep]
      by_cases hd : isDigit b = true
      · simp [hd]
      · by_cases hc : b = 44
        · subst hc
          cases acc with
          | none => simpa [hd] using malformed_framing e 44
          | some id =>
            by_cases hlt : id < e.conns.length
            · simp [hd, hlt]
            · simpa [hd, hlt] using malformed_framing e 44
        · simpa [hd, hc] using malformed_framing e b
    | len id acc =>
      simp only [headerByte, frameStep]
      by_cases hd : isDigit b = true
      · simp [hd]
      · by_cases hc : b = 58
        · subst hc
          cases acc with
          | none => simpa [hd] using malformed_framing e 58
          | some n =>
            by_cases hn : n = 0
            · simpa [hd, hn] using
                OnDataFrame_framing { e with parser := ParserState.ScanLine [] } id []
            · simp [hd, hn]
        · simpa [hd, hc] using malformed_framing e b
  | ConsumeFramePayload id remaining buf =>
    simp only [frameStep]
    by_cases hr : remaining ≤ 1
    · simpa [hr] using
        OnDataFrame_framing { e with parser := ParserState.ScanLine [] } id (buf ++ [b])
    · simp [hr]
  | Resync =>
    simp only [frameStep]
    by_cases hb : b = LF <;> simp [hb, hp]


theorem frameRun_append (cap : Nat) (ps : ParserState) (xs ys : List Byte) :
    frameRun cap ps (xs ++ ys) =
      ((frameRun cap (frameRun cap ps xs).1 ys).1,
        (frameRun cap ps xs).2 ++ (frameRun cap (frameRun cap ps xs).1 ys).2) := by
  induction xs generalizing ps with
  | nil => simp [frameRun]
  | cons x xs ih => simp [frameRun, ih, List.append_assoc]

/-- A run of bytes through the parser, seen through the framing only. -/
theorem foldl_parseByte_frameRun (bs : List Byte) (e : Engine) :
    (bs.foldl parseByte e).parser = (frameRun e.conns.length e.parser bs).1 ∧
    (bs.foldl parseByte e).rx = e.rx ∧
    (bs.foldl parseByte e).conns.length = e.conns.length ∧
    dataEvents (bs.foldl parseByte e).log =
      dataEvents e.log ++ (frameRun e.conns.length e.parser bs).2 := by
  induction bs generalizing e with
  | nil => simp [frameRun]
  | cons b bs ih =>
    obtain ⟨h1, h2, h3, h4⟩ := parseByte_frameStep e b
    obtain ⟨k1, k2, k3, k4⟩ := ih (e.parseByte b)
    simp only [List.foldl_cons, frameRun]
    rw [h3, h1] at k1 k4
    refine ⟨k1, k2.trans h2, k3.trans h3, ?_⟩
    rw [k4, h4, List.append_assoc]

/-- Delivery of a chunk, seen through the framing only. -/
theorem deliver_frameRun (e : Engine) (c : List Byte) :
    (deliver e c).parser = (frameRun e.conns.length e.parser (e.rx ++ c)).1 ∧
    (deliver e c).rx = [] ∧
    (deliver e c).conns.length = e.conns.length ∧
    dataEvents (deliver e c).log =
      dataEvents e.log ++ (frameRun e.conns.length e.parser (e.rx ++ c)).2 := by
  obtain ⟨q1, q2, q3, q4⟩ := quiet_checkTimeout (ESP_DataReceived e c c.length).Parse
  obtain ⟨h1, h2, h3, h4⟩ :=
    foldl_parseByte_frameRun (e.rx ++ c) { e with rx := [] }
  have hP : (ESP_DataReceived e c c.length).Parse
      = (e.rx ++ c).foldl parseByte { e with rx := [] } := by
    simp [Parse, ESP_DataReceived]
  unfold deliver ESP_Update
  rw [q1, q2, q3, q4, hP]
  exact ⟨h1, h2, h3, h4⟩

/-- Chunked delivery from an engine whose receive buffer is empty. -/
theorem foldl_deliver_frameRun (cs : List (List Byte)) (e : Engine) (hrx : e.rx = []) :
    (cs.foldl deliver e).parser = (frameRun e.conns.length e.parser cs.flatten).1 ∧
    (cs.foldl deliver e).rx = [] ∧
    (cs.foldl deliver e).conns.length = e.conns.length ∧
    dataEvents (cs.foldl deliver e).log =
      dataEvents e.log ++ (frameRun e.conns.length e.parser cs.flatten).2 := by
  induction cs generalizing e with
  | nil => simp [frameRun, hrx]
  | cons c cs ih =>
    obtain ⟨h1, h2, h3, h4⟩ := deliver_frameRun e c
    obtain ⟨k1, k2, k3, k4⟩ := ih (deliver e c) h2
    rw [hrx, List.nil_append] at h1 h4
    rw [h3, h1] at k1 k4
    simp only [List.foldl_cons, List.flatten_cons, frameRun_append]
    refine ⟨k1, k2, k3.trans h3, ?_⟩
    rw [k4, h4, List.append_assoc]

/-- C1: chunk-boundary invariance.  A byte stream split into k ≥ 1 chunks `c :: cs`, each
delivered in a separate update call, yields the same sequence of connection data events
(connection id, payload, order) as the stream delivered whole; so does the stream
`b :: bs` delivered one byte per call, as the receive handlers do. -/
theorem chunk_boundary_invariance (e : Engine) :
    (∀ (c : List Byte) (cs : List (List Byte)),
      dataEvents ((c :: cs).foldl deliver e).log
        = dataEvents (deliver e (c :: cs).flatten).log) ∧
    (∀ (b : Byte) (bs : List Byte),
      dataEvents (((b :: bs).map fun x => [x]).foldl deliver e).log
        = dataEvents (deliver e (b :: bs)).log) := by
  have key : ∀ (c : List Byte) (cs : List (List Byte)),
      dataEvents ((c :: cs).foldl deliver e).log
        = dataEvents (deliver e (c :: cs).flatten).log := by
    intro c cs
    obtain ⟨h1, h2, h3, h4⟩ := deliver_frameRun e c
    obtain ⟨k1, k2, k3, k4⟩ := foldl_deliver_frameRun cs (deliver e c) h2
    obtain ⟨w1, w2, w3, w4⟩ := deliver_frameRun e (c :: cs).flatten
    simp only [List.foldl_cons]
    rw [k4, h4, w4, h3, h1]
    simp [frameRun_append, List.append_assoc]
  refine ⟨key, ?_⟩
  intro b bs
  have h := key [b] (bs.map fun x => [x])
  have hj : ([b] :: bs.map fun x => [x]).flatten = b :: bs := by
    induction bs with
    | nil => rfl
    | cons x xs ih => simp_all
  rw [hj] at h
  simpa using h

/-- The frame `+IPD,0,5:ABCDE` delivered one byte per call yields one data event, for
connection 0 with payload `ABCDE`. -/
theorem frameABCDE_one_byte_per_call :
    dataEvents ((frameABCDE.map fun x => [x]).foldl deliver (Engine.init 5)).log
      = [(0, [65, 66, 67, 68, 69])] := by
  decide

/-- C2: while a command is outstanding, issuing any command fails with Busy and the engine,
with it the outstanding command (text, terminal tokens, issue timestamp, deadline,
blocking flag), is the same after the call as before; the same holds for the connect
command of `Open` and the close command of `Close`, which go through the dispatcher. -/
theorem issue_while_outstanding_is_busy (e : Engine) (p : PendingCommand)
    (h : e.pending = some p) :
    (∀ (text : List Byte) (okTokens failTokens : List (List Byte)) (timeout : Nat)
        (blocking : Bool) (conn : Option Nat),
      e.Issue text okTokens failTokens timeout blocking conn = (Result.busy, e) ∧
      (e.Issue text okTokens failTokens timeout blocking conn).2.pending = some p) ∧
    (∀ (t : Transport) (host : List Byte) (port timeout : Nat) (blocking : Bool),
      firstFree e.conns ≠ none → e.Open t host port timeout blocking = (Result.busy, e)) ∧
    (∀ (id : Nat) (c : Connection) (timeout : Nat) (blocking : Bool),
      e.conns[id]? = some c → c.state = ConnState.active →
      e.Close id timeout blocking = (Result.busy, e)) := by
  have hI : ∀ (text : List Byte) (okTokens failTokens : List (List Byte)) (timeout : Nat)
      (blocking : Bool) (conn : Option Nat),
      e.Issue text okTokens failTokens timeout blocking conn = (Result.busy, e) := by
    intro text okTokens failTokens timeout blocking conn
    simp [Issue, h]
  refine ⟨fun text okTokens failTokens timeout blocking conn => ?_, ?_, ?_⟩
  · rw [hI]
    exact ⟨rfl, h⟩
  · intro t host port timeout blocking hfree
    unfold Open
    cases hf : firstFree e.conns with
    | none => exact absurd hf hfree
    | some id => simp [hI]
  · intro id c timeout blocking hc hact
    unfold Close
    simp [hc, hact, hI]

/-- Witness of C2 on the engine that has `AT+CWMODE=3` outstanding. -/
theorem issue_while_outstanding_is_busy_witness :
    busyEngine.pending ≠ none ∧
    busyEngine.Issue cmdCIPCLOSE [tokOK] [tokERROR] 500 true none = (Result.busy, busyEngine) :=
  ⟨by decide,
    ((issue_while_outstanding_is_busy busyEngine
      { text := cmdCWMODE3, okTokens := [tokOK], failTokens := [tokERROR], issuedAt := 0,
        deadline := 1000, blocking := false, conn := none } rfl).1
      cmdCIPCLOSE [tokOK] [tokERROR] 500 true none).1⟩

@[simp] theorem resolutions_append (l1 l2 : List Obs) :
    resolutions (l1 ++ l2) = resolutions l1 ++ resolutions l2 := by
  simp [resolutions]

theorem Settles.srefl (e : Engine) : Settles e e := Or.inl ⟨rfl, rfl⟩

theorem Settles.strans {a b c : Engine} (h1 : Settles a b) (h2 : Settles b c) : Settles a c := by
  rcases h1 with ⟨p1, r1⟩ | ⟨p, r, ha, hb, hr⟩
  · rcases h2 with ⟨p2, r2⟩ | ⟨q, s, hb, hc, hr⟩
    · exact Or.inl ⟨p2.trans p1, r2.trans r1⟩
    · exact Or.inr ⟨q, s, p1 ▸ hb, hc, by rw [hr, r1]⟩
  · rcases h2 with ⟨p2, r2⟩ | ⟨q, s, hb', _, _⟩
    · exact Or.inr ⟨p, r, ha, p2.trans hb, by rw [r2, hr]⟩
    · rw [hb] at hb'
      exact absurd hb' (by simp)

/-- A step that leaves the command in flight: nothing was resolved. -/
theorem Settles.of_pending {e e' : Engine} {p : PendingCommand} (h : Settles e e')
    (hp : e'.pending = some p) : e.pending = some p ∧ resolutions e'.log = resolutions e.log := by
  rcases h with ⟨h1, h2⟩ | ⟨q, r, _, hn, _⟩
  · exact ⟨h1 ▸ hp, h2⟩
  · rw [hn] at hp
    exact absurd hp (by simp)

/-- A step from an engine without a command in flight: nothing is resolved. -/
theorem Settles.of_idle {e e' : Engine} (h : Settles e e') (hp : e.pending = none) :
    e'.pending = none ∧ resolutions e'.log = resolutions e.log := by
  rcases h with ⟨h1, h2⟩ | ⟨q, r, hs, _, _⟩
  · exact ⟨h1.trans hp, h2⟩
  · rw [hp] at hs
    exact absurd hs (by simp)

theorem settles_resolve (e : Engine) (p : PendingCommand) (r : Result) (h : e.pending = some p) :
    Settles e (e.resolve p r) :=
  Or.inr ⟨p, r, h, by simp [resolve], by simp [resolve, record, resolutions]⟩

theorem settles_raise (e : Engine) (ev : Event) : Settles e (e.raise ev) :=
  Or.inl ⟨by simp [raise, record], by simp [raise, record, resolutions]⟩

theorem settles_raiseConn (e : Engine) (ev : Event) (id : Nat) : Settles e (e.raiseConn ev id) :=
  Or.inl ⟨by simp [raiseConn, record], by simp [raiseConn, record, resolutions]⟩

theorem settles_modifyConn (e : Engine) (id : Nat) (f : Connection → Connection) :
    Settles e (e.modifyConn id f) :=
  Or.inl ⟨by simp [modifyConn], by simp [modifyConn]⟩

theorem settles_raiseIdle (e : Engine) : Settles e e.raiseIdle := by
  unfold raiseIdle
  split
  · exact settles_raise e _
  · exact Settles.srefl e

theorem settles_Complete (e : Engine) (tok : List Byte) : Settles e (e.Complete tok) := by
  unfold Complete
  split
  · exact Settles.srefl e
  · rename_i p hp
    split
    · exact (settles_resolve e p _ hp).strans (settles_raiseIdle _)
    · split
      · exact (settles_resolve e p _ hp).strans (settles_raiseIdle _)
      · exact Settles.srefl e

theorem settles_onReady (e : Engine) : Settles e e.onReady := by
  unfold onReady
  split
  · rename_i p hp
    exact (settles_raise e _).strans (settles_resolve _ p _ (by simpa [raise, record] using hp))
  · exact settles_raise e _

theorem settles_onConnect (e : Engine) (id : Nat) : Settles e (e.onConnect id) := by
  unfold onConnect
  split
  · exact (settles_modifyConn e _ _).strans (settles_raiseConn _ _ _)
  · exact Settles.srefl e

theorem settles_onClosed (e : Engine) (id : Nat) : Settles e (e.onClosed id) := by
  unfold onClosed
  split
  · exact (settles_modifyConn e _ _).strans (settles_raiseConn _ _ _)
  · exact Settles.srefl e

theorem settles_unsolicited (e : Engine) (line : List Byte) : Settles e (e.unsolicited line) := by
  unfold unsolicited
  split
  · exact settles_onReady e
  split
  · exact settles_raise (e := { e with wifiConnected := true }) _
  split
  · exact settles_raise (e := { e with wifiHasIP := true }) _
  split
  · exact settles_raise (e := { e with wifiConnected := false, wifiHasIP := false }) _
  split
  · exact Settles.srefl e
  split
  · exact settles_onConnect e _
  split
  · exact settles_onClosed e _
  · exact Settles.srefl e

theorem settles_handleLine (e : Engine) (line : List Byte) : Settles e (e.handleLine line) :=
  (settles_unsolicited e line).strans (settles_Complete _ line)

theorem settles_OnDataFrame (e : Engine) (id : Nat) (payload : List Byte) :
    Settles e (e.OnDataFrame id payload) :=
  ((settles_modifyConn e _ _).strans (settles_raiseConn _ _ _)).strans
    (settles_modifyConn _ _ _)

theorem settles_malformed (e : Engine) (b : Byte) : Settles e (e.malformed b) :=
  Or.inl ⟨by simp [malformed, raise, record], by simp [malformed, raise, record, resolutions]⟩

theorem settles_setParser (e : Engine) (ps : ParserState) : Settles e { e with parser := ps } :=
  Or.inl ⟨rfl, rfl⟩

theorem settles_headerByte (e : Engine) (f : HeaderField) (b : Byte) :
    Settles e (e.headerByte f b) := by
  unfold headerByte
  split
  · split
    · exact settles_setParser e _
    · split
      · split
        · split
          · exact settles_setParser e _
          · exact settles_malformed e b
        · exact settles_malformed e b
      · exact settles_malformed e b
  · split
    · exact settles_setParser e _
    · split
      · split
        · split
          · exact (settles_setParser e _).strans (settles_OnDataFrame _ _ _)
          · exact settles_setParser e _
        · exact settles_malformed e b
      · exact settles_malformed e b

theorem settles_parseByte (e : Engine) (b : Byte) : Settles e (e.parseByte b) := by
  unfold parseByte
  split
  · split
    · exact (settles_setParser e _).strans (settles_handleLine _ _)
    · split
      · exact settles_setParser e _
      · exact settles_setParser e _
  · exact settles_headerByte e _ b
  · split
    · exact (settles_setParser e _).strans (settles_OnDataFrame _ _ _)
    · exact settles_setParser e _
  · split
    · exact settles_setParser e _
    · exact Settles.srefl e

theorem settles_foldl_parseByte (bs : List Byte) (e : Engine) :
    Settles e (bs.foldl parseByte e) := by
  induction bs generalizing e with
  | nil => exact Settles.srefl e
  | cons b bs ih => exact (settles_parseByte e b).strans (ih _)

theorem settles_Parse (e : Engine) : Settles e e.Parse :=
  Settles.strans (Or.inl ⟨rfl, rfl⟩ : Settles e { e with rx := [] }) (settles_foldl_parseByte _ _)

theorem settles_checkTimeout (e : Engine) : Settles e e.checkTimeout := by
  unfold checkTimeout
  split
  · exact Settles.srefl e
  · rename_i p hp
    split
    · split
      · exact settles_resolve e p _ hp
      · exact (settles_resolve e p _ hp).strans (settles_modifyConn _ _ _)
    · exact Settles.srefl e

theorem settles_step (e : Engine) (i : Input) : Settles e (e.step i) := by
  cases i with
  | bytes data => exact Or.inl ⟨rfl, rfl⟩
  | tick ms => exact Or.inl ⟨rfl, rfl⟩
  | update => exact (settles_Parse e).strans (settles_checkTimeout _)

theorem settles_run (ins : List Input) (e : Engine) : Settles e (e.run ins) := by
  induction ins generalizing e with
  | nil => exact Settles.srefl e
  | cons i ins ih => exact (settles_step e i).strans (ih _)

theorem clock_raiseIdle (e : Engine) : e.raiseIdle.clock = e.clock := by
  unfold raiseIdle
  split <;> simp [raise, record]

theorem clock_Complete (e : Engine) (tok : List Byte) : (e.Complete tok).clock = e.clock := by
  unfold Complete
  split
  · rfl
  · split
    · simp [clock_raiseIdle, resolve, record]
    · split
      · simp [clock_raiseIdle, resolve, record]
      · rfl

theorem clock_unsolicited (e : Engine) (line : List Byte) :
    (e.unsolicited line).clock = e.clock := by
  unfold unsolicited onReady onConnect onClosed
  repeat' split
  all_goals simp [raise, raiseConn, resolve, record, modifyConn]

theorem clock_handleLine (e : Engine) (line : List Byte) :
    (e.handleLine line).clock = e.clock := by
  unfold handleLine
  rw [clock_Complete, clock_unsolicited]

theorem clock_OnDataFrame (e : Engine) (id : Nat) (payload : List Byte) :
    (e.OnDataFrame id payload).clock = e.clock := by
  simp [OnDataFrame, raiseConn, record, modifyConn]

theorem clock_headerByte (e : Engine) (f : HeaderField) (b : Byte) :
    (e.headerByte f b).clock = e.clock := by
  unfold headerByte
  repeat' split
  all_goals simp [malformed, raise, record, clock_OnDataFrame]

theorem clock_parseByte (e : Engine) (b : Byte) : (e.parseByte b).clock = e.clock := by
  unfold parseByte
  repeat' split
  all_goals simp [clock_handleLine, clock_headerByte, clock_OnDataFrame]

theorem clock_foldl_parseByte (bs : List Byte) (e : Engine) :
    (bs.foldl parseByte e).clock = e.clock := by
  induction bs generalizing e with
  | nil => rfl
  | cons b bs ih => simp [ih, clock_parseByte]

theorem clock_Parse (e : Engine) : e.Parse.clock = e.clock := by
  simp [Parse, clock_foldl_parseByte]

/-- C3: a command `p` in flight that no terminal token has resolved (after the bytes
received so far are parsed it is still in flight) is left alone by an update before its
deadline, and resolves as Timeout at the first update at or after the deadline: it is
cleared, the last status is Timeout and exactly one resolution is recorded; whatever
bytes, ticks and updates follow, it is never resolved again. -/
theorem timeout_resolves_exactly_once (e : Engine) (p : PendingCommand)
    (hp : e.Parse.pending = some p) :
    (e.clock < p.deadline →
      (ESP_Update e).pending = some p ∧
      resolutions (ESP_Update e).log = resolutions e.log) ∧
    (p.deadline ≤ e.clock →
      (ESP_Update e).pending = none ∧
      (ESP_Update e).lastStatus = Result.timeout ∧
      resolutions (ESP_Update e).log = resolutions e.log ++ [(p.text, Result.timeout)] ∧
      ∀ later : List Input,
        ((ESP_Update e).run later).pending = none ∧
        resolutions ((ESP_Update e).run later).log
          = resolutions e.log ++ [(p.text, Result.timeout)]) := by
  obtain ⟨_, hres⟩ := (settles_Parse e).of_pending hp
  have hclock := clock_Parse e
  constructor
  · intro hlt
    have hU : ESP_Update e = e.Parse := by
      unfold ESP_Update checkTimeout
      rw [hp]
      simp only
      rw [if_neg (by rw [hclock]; exact Nat.not_le.mpr hlt)]
    rw [hU]
    exact ⟨hp, hres⟩
  · intro hge
    have hU : (ESP_Update e).pending = none ∧ (ESP_Update e).lastStatus = Result.timeout ∧
        resolutions (ESP_Update e).log = resolutions e.log ++ [(p.text, Result.timeout)] := by
      unfold ESP_Update checkTimeout
      rw [hp]
      simp only
      rw [if_pos (by rw [hclock]; exact hge)]
      have h1 : resolutions [Obs.resolved p.text Result.timeout] = [(p.text, Result.timeout)] :=
        rfl
      cases p.conn <;> simp [resolve, record, modifyConn, hres, h1]
    refine ⟨hU.1, hU.2.1, hU.2.2, fun later => ?_⟩
    obtain ⟨h1, h2⟩ := (settles_run later (ESP_Update e)).of_idle hU.1
    exact ⟨h1, h2.trans hU.2.2⟩

/-- Witness of C3: `AT+CWMODE=3` issued at time 0 with a timeout of 1000 ms, the clock at
1000 and the unrelated line `WIFI CONNECTED` in the receive buffer. -/
theorem timeout_resolves_exactly_once_witness :
    expiredEngine.Parse.pending = some cwmodeCommand ∧
    (ESP_Update expiredEngine).pending = none ∧
    (ESP_Update expiredEngine).lastStatus = Result.timeout ∧
    resolutions (ESP_Update expiredEngine).log =
      resolutions expiredEngine.log ++ [(cwmodeCommand.text, Result.timeout)] :=
  ⟨by decide,
    ((timeout_resolves_exactly_once expiredEngine cwmodeCommand (by decide)).2 (by decide)).1,
    ((timeout_resolves_exactly_once expiredEngine cwmodeCommand (by decide)).2 (by decide)).2.1,
    ((timeout_resolves_exactly_once expiredEngine cwmodeCommand (by decide)).2 (by decide)).2.2.1⟩

theorem decimalAux_spec (fuel : Nat) : ∀ (n : Nat) (acc : List Byte), n < fuel →
    ∃ ds : List Byte, decimalAux fuel n acc = ds ++ acc ∧ ds ≠ [] ∧
      (∀ d ∈ ds, isDigit d = true) ∧ parseDecimal ds = n := by
  induction fuel with
  | zero => intro n acc h; exact absurd h (Nat.not_lt_zero n)
  | succ fuel ih =>
    intro n acc h
    unfold decimalAux
    by_cases h10 : n < 10
    · refine ⟨[48 + n], by simp [h10], by simp, ?_, by simp [parseDecimal]⟩
      intro d hd
      simp only [List.mem_singleton] at hd
      subst hd
      have hn : (48 + n : Nat) ≤ 57 := by omega
      simpa [isDigit] using hn
    · have hlt : n / 10 < fuel := by omega
      obtain ⟨ds, h1, h2, h3, h4⟩ := ih (n / 10) ((48 + n % 10) :: acc) hlt
      refine ⟨ds ++ [48 + n % 10], by simp [h10, h1], by simp, ?_, ?_⟩
      · intro d hd
        rcases List.mem_append.mp hd with hd | hd
        · exact h3 d hd
        · simp only [List.mem_singleton] at hd
          subst hd
          have hn : (48 + n % 10 : Nat) ≤ 57 := by omega
          simpa [isDigit] using hn
      · unfold parseDecimal at h4 ⊢
        rw [List.foldl_append, h4]
        have hn : (n / 10 * 10 + (48 + n % 10 - 48) : Nat) = n := by omega
        simpa using hn

/-- The decimal text of a number consists of digits, is not empty, and reads back as the
number. -/
theorem decimal_spec (n : Nat) :
    decimal n ≠ [] ∧ (∀ d ∈ decimal n, isDigit d = true) ∧ parseDecimal (decimal n) = n := by
  obtain ⟨ds, h1, h2, h3, h4⟩ := decimalAux_spec (n + 1) n [] (Nat.lt_succ_self n)
  have : decimal n = ds := by simp [decimal, h1]
  rw [this]
  exact ⟨h2, h3, h4⟩

/-- Bytes of a line that starts no binary frame are accumulated by `ScanLine`. -/
theorem foldl_parseByte_scan (line : List Byte) :
    ∀ (acc : List Byte) (e : Engine), e.parser = ParserState.ScanLine acc → LF ∉ line →
      (acc ++ line).head? ≠ some 43 →
      line.foldl parseByte e = { e with parser := ParserState.ScanLine (acc ++ line) } := by
  induction line with
  | nil =>
    intro acc e h _ _
    simp [← h]
  | cons b line ih =>
    intro acc e h hlf hhead
    have hb : b ≠ LF := fun hb => hlf (by simp [hb])
    have hne : acc ++ [b] ≠ tokIPD := by
      intro heq
      apply hhead
      have : acc ++ b :: line = tokIPD ++ line := by
        rw [← heq]
        simp
      rw [this]
      rfl
    have h1 : e.parseByte b = { e with parser := ParserState.ScanLine (acc ++ [b]) } := by
      simp [parseByte, h, hb, hne]
    rw [List.foldl_cons, h1,
      ih (acc ++ [b]) _ rfl (fun hm => hlf (by simp [hm])) (by simpa using hhead)]
    simp

theorem stripCR_concat (line : List Byte) : stripCR (line ++ [CR]) = line := by
  simp [stripCR]

/-- A parse step over what follows a parse step that emptied the receive buffer. -/
theorem feed_eq_foldl (e : Engine) (bytes : List Byte) (hrx : e.rx = []) :
    e.feed bytes = bytes.foldl parseByte e := by
  have he : ({ e with rx := [] } : Engine) = e := by rw [← hrx]
  simp [feed, Parse, ESP_DataReceived, hrx, he]

theorem deliver_eq (e : Engine) (c : List Byte) : deliver e c = (e.feed c).checkTimeout := rfl

/-- Line round trip: a line that holds no line feed and does not start with `+`, followed
by CR LF and fed at a line boundary, reaches `handleLine` as it is. -/
theorem feed_line (e : Engine) (line : List Byte) (hps : e.parser = ParserState.ScanLine [])
    (hrx : e.rx = []) (hlf : LF ∉ line) (hhead : line.head? ≠ some 43) :
    e.feed (line ++ [CR, LF]) = e.handleLine line := by
  have hsplit : line ++ [CR, LF] = (line ++ [CR]) ++ [LF] := by simp
  have hlf' : LF ∉ line ++ [CR] := by
    intro hm
    rcases List.mem_append.mp hm with hm | hm
    · exact hlf hm
    · simp [LF, CR] at hm
  have hhead' : ([] ++ (line ++ [CR])).head? ≠ some 43 := by
    cases line with
    | nil => simp [CR]
    | cons b bs => simpa using hhead
  rw [feed_eq_foldl e _ hrx, hsplit, List.foldl_append,
    foldl_parseByte_scan (line ++ [CR]) [] e hps hlf' hhead']
  simp [parseByte, stripCR_concat, ← hps]

/-- C5: a ready banner parsed while command `p` is outstanding resolves `p` as failed by
WatchdogReset and clears it; the history gains the watchdog-reset event, once, then the
resolution, and neither a success nor the module-ready event of a normal boot. -/
theorem ready_banner_is_watchdog_reset (e : Engine) (p : PendingCommand)
    (hp : e.pending = some p) (hps : e.parser = ParserState.ScanLine []) (hrx : e.rx = []) :
    (deliver e (tokREADY ++ [CR, LF])).pending = none ∧
    (deliver e (tokREADY ++ [CR, LF])).lastStatus = Result.watchdogReset ∧
    (deliver e (tokREADY ++ [CR, LF])).log =
      e.log ++ [Obs.event Event.watchdogReset none,
                Obs.resolved p.text Result.watchdogReset] := by
  have hfeed := feed_line e tokREADY hps hrx (by decide) (by decide)
  have hline : e.handleLine tokREADY = (e.raise Event.watchdogReset).resolve p
      Result.watchdogReset := by
    simp [handleLine, unsolicited, onReady, hp, Complete, resolve]
  rw [deliver_eq, hfeed, hline]
  simp [checkTimeout, resolve, raise, record]

/-- Witness of C5 on the engine that has `AT+CWMODE=3` outstanding. -/
theorem ready_banner_is_watchdog_reset_witness :
    busyEngine.pending = some cwmodeCommand ∧
    (deliver busyEngine (tokREADY ++ [CR, LF])).log =
      busyEngine.log ++ [Obs.event Event.watchdogReset none,
                         Obs.resolved cwmodeCommand.text Result.watchdogReset] :=
  ⟨by decide,
    (ready_banner_is_watchdog_reset busyEngine cwmodeCommand (by decide) (by decide)
      (by decide)).2.2⟩

theorem firstFree_eq_none (cs : List Connection) (h : ∀ c ∈ cs, c.state ≠ ConnState.closed) :
    firstFree cs = none := by
  induction cs with
  | nil => rfl
  | cons c cs ih =>
    have hc : c.state ≠ ConnState.closed := h c (by simp)
    simp [firstFree, hc, ih (fun x hx => h x (by simp [hx]))]

/-- C6: with every slot of the connection table occupied, `Open` fails with TableFull for
every type, host and port; the engine is the same after the call as before, so no connect
command was transmitted or recorded and the number of occupied slots is unchanged. -/
theorem open_on_full_table_is_table_full (e : Engine)
    (hfull : ∀ c ∈ e.conns, c.state ≠ ConnState.closed)
    (t : Transport) (host : List Byte) (port timeout : Nat) (blocking : Bool) :
    e.Open t host port timeout blocking = (Result.tableFull, e) ∧
    (e.Open t host port timeout blocking).2.occupied = e.occupied ∧
    (e.Open t host port timeout blocking).2.log = e.log ∧
    (e.Open t host port timeout blocking).2.pending = e.pending := by
  have h : e.Open t host port timeout blocking = (Result.tableFull, e) := by
    simp [Open, firstFree_eq_none e.conns hfull]
  rw [h]
  exact ⟨rfl, rfl, rfl, rfl⟩

/-- Witness of C6: the sixth connection on a table of five Active ones. -/
theorem open_on_full_table_is_table_full_witness :
    fullEngine.occupied = 5 ∧
    fullEngine.Open Transport.tcp [] 80 1000 false = (Result.tableFull, fullEngine) :=
  ⟨by decide,
    (open_on_full_table_is_table_full fullEngine (by decide) Transport.tcp [] 80 1000 false).1⟩

theorem leadingDigits_append (ds rest : List Byte) (hds : ∀ d ∈ ds, isDigit d = true)
    (hrest : ∀ b ∈ rest.head?, isDigit b = false) :
    leadingDigits (ds ++ rest) = (ds, rest) := by
  induction ds with
  | nil =>
    cases rest with
    | nil => rfl
    | cons b bs =>
      have hb : isDigit b = false := hrest b (by simp)
      simp [leadingDigits, hb]
  | cons d ds ih =>
    have hd : isDigit d = true := hds d (by simp)
    have := ih (fun x hx => hds x (by simp [hx]))
    simp [leadingDigits, hd, this]

/-- The first byte of a decimal text is a digit. -/
theorem decimal_head (n : Nat) :
    ∃ (d : Nat) (ds : List Nat), decimal n = d :: ds ∧ 48 ≤ d ∧ d ≤ 57 := by
  obtain ⟨h1, h2, _⟩ := decimal_spec n
  cases hd : decimal n with
  | nil => exact absurd hd h1
  | cons d ds =>
    have := h2 d (by simp [hd])
    exact ⟨d, ds, rfl, by simpa [isDigit] using this⟩

theorem LF_not_mem_decimal (n : Nat) : LF ∉ decimal n := by
  intro h
  have := (decimal_spec n).2.1 LF h
  simp [isDigit, LF] at this

/-- The line `<id>,CLOSED` for an id with no tracked slot changes nothing. -/
theorem handleLine_closed_untracked (e : Engine) (id : Nat) (hun : e.tracked id = false)
    (hsol : ∀ p, e.pending = some p →
      decimal id ++ tokCLOSED ∉ p.okTokens ∧ decimal id ++ tokCLOSED ∉ p.failTokens) :
    e.handleLine (decimal id ++ tokCLOSED) = e := by
  obtain ⟨d, ds, hdec, hd48⟩ := decimal_head id
  have hlead : leadingDigits (decimal id ++ tokCLOSED) = (decimal id, tokCLOSED) :=
    leadingDigits_append _ _ (decimal_spec id).2.1 (by simp [tokCLOSED, isDigit])
  have hne : ∀ (x : Nat) (xs : List Nat), (x < 48 ∨ 57 < x) →
      decimal id ++ tokCLOSED ≠ x :: xs := by
    intro x xs hx heq
    rw [hdec] at heq
    simp only [List.cons_append, List.cons.injEq] at heq
    omega
  have r1 : decimal id ++ tokCLOSED ≠ tokREADY := hne 114 _ (by decide)
  have r2 : decimal id ++ tokCLOSED ≠ tokWIFICONNECTED := hne 87 _ (by decide)
  have r3 : decimal id ++ tokCLOSED ≠ tokWIFIGOTIP := hne 87 _ (by decide)
  have r4 : decimal id ++ tokCLOSED ≠ tokWIFIDISCONNECT := hne 87 _ (by decide)
  have r5 : tokCLOSED ≠ tokCONNECT := by decide
  have hU : e.unsolicited (decimal id ++ tokCLOSED) = e := by
    unfold unsolicited
    rw [if_neg r1, if_neg r2, if_neg r3, if_neg r4, hlead]
    simp only
    rw [if_neg (decimal_spec id).1, if_neg r5]
    simp [(decimal_spec id).2.2, onClosed, hun]
  unfold handleLine
  rw [hU]
  unfold Complete
  cases hp : e.pending with
  | none => rfl
  | some p =>
    obtain ⟨h1, h2⟩ := hsol p hp
    simp [h1, h2]

/-- C7: an unsolicited `<id>,CLOSED` line (not a terminal token of the command in flight)
for an id with no tracked slot, parsed at a line boundary, leaves the engine exactly as it
was: no error status, no event, the connection table and the command in flight unchanged.
The same holds for the whole update step unless the deadline of the command in flight has
elapsed. -/
theorem closed_for_untracked_id_is_ignored (e : Engine) (id : Nat)
    (hps : e.parser = ParserState.ScanLine []) (hrx : e.rx = [])
    (hun : e.tracked id = false)
    (hsol : ∀ p, e.pending = some p →
      decimal id ++ tokCLOSED ∉ p.okTokens ∧ decimal id ++ tokCLOSED ∉ p.failTokens) :
    e.feed (decimal id ++ tokCLOSED ++ [CR, LF]) = e ∧
    ((∀ p, e.pending = some p → e.clock < p.deadline) →
      deliver e (decimal id ++ tokCLOSED ++ [CR, LF]) = e) := by
  obtain ⟨d, ds, hdec, hd48⟩ := decimal_head id
  have hlf : LF ∉ decimal id ++ tokCLOSED := by
    intro h
    rcases List.mem_append.mp h with h | h
    · exact LF_not_mem_decimal id h
    · simp [LF, tokCLOSED] at h
  have hhead : (decimal id ++ tokCLOSED).head? ≠ some 43 := by
    rw [hdec]
    simp only [List.cons_append, List.head?_cons, ne_eq, Option.some.injEq]
    intro h43
    have h43n : (d : Nat) = 43 := h43
    omega
  have hfeed : e.feed (decimal id ++ tokCLOSED ++ [CR, LF]) = e := by
    rw [feed_line e _ hps hrx hlf hhead, handleLine_closed_untracked e id hun hsol]
  refine ⟨hfeed, fun hdl => ?_⟩
  rw [deliver_eq, hfeed]
  unfold checkTimeout
  cases hp : e.pending with
  | none => rfl
  | some p => simp [Nat.not_le.mpr (hdl p hp)]

/-- Witness of C7: `7,CLOSED` on an engine with five slots and a command in flight. -/
theorem closed_for_untracked_id_is_ignored_witness :
    busyEngine.tracked 7 = false ∧
    busyEngine.feed (decimal 7 ++ tokCLOSED ++ [CR, LF]) = busyEngine :=
  ⟨by decide,
    (closed_for_untracked_id_is_ignored busyEngine 7 (by decide) (by decide) (by decide)
      (by
        intro p hp
        have h : busyEngine.pending = some cwmodeCommand := by decide
        rw [h] at hp
        cases hp
        decide)).1⟩

/-- C8: `AT+CWMODE=3` issued on an idle engine is transmitted and outstanding; one update
step over the bytes CR LF `OK` CR LF resolves it with success, clears it, and then raises
the stack-idle event: the history gains the transmit, the resolution and the idle event
in this order.  After any shorter part of these bytes the command is still outstanding
and neither the resolution nor the idle event has been recorded. -/
theorem ok_resolves_then_idle (e : Engine) (timeout : Nat) (blocking : Bool)
    (hp : e.pending = none) (hps : e.parser = ParserState.ScanLine []) (hrx : e.rx = []) :
    (e.Issue cmdCWMODE3 [tokOK] [tokERROR] timeout blocking none).1 = Result.ok ∧
    (e.Issue cmdCWMODE3 [tokOK] [tokERROR] timeout blocking none).2.IsReady = Result.busy ∧
    (deliver (e.Issue cmdCWMODE3 [tokOK] [tokERROR] timeout blocking none).2
        ([CR, LF] ++ tokOK ++ [CR, LF])).pending = none ∧
    (deliver (e.Issue cmdCWMODE3 [tokOK] [tokERROR] timeout blocking none).2
        ([CR, LF] ++ tokOK ++ [CR, LF])).lastStatus = Result.ok ∧
    (deliver (e.Issue cmdCWMODE3 [tokOK] [tokERROR] timeout blocking none).2
        ([CR, LF] ++ tokOK ++ [CR, LF])).log =
      e.log ++ [Obs.transmit cmdCWMODE3, Obs.resolved cmdCWMODE3 Result.ok,
                Obs.event Event.idle none] ∧
    (∀ n, n < 6 →
      ((e.Issue cmdCWMODE3 [tokOK] [tokERROR] timeout blocking none).2.feed
          (([CR, LF] ++ tokOK ++ [CR, LF]).take n)).pending ≠ none ∧
      ((e.Issue cmdCWMODE3 [tokOK] [tokERROR] timeout blocking none).2.feed
          (([CR, LF] ++ tokOK ++ [CR, LF]).take n)).log = e.log ++ [Obs.transmit cmdCWMODE3]) := by
  refine ⟨by simp [Issue, hp], by simp [Issue, hp, IsReady], ?_, ?_, ?_, ?_⟩
  · simp [deliver, ESP_Update, ESP_DataReceived, Parse, Issue, hp, hps, hrx, record,
      parseByte, handleLine, unsolicited, Complete, resolve, raiseIdle, raise, checkTimeout,
      stripCR, leadingDigits, isDigit, CR, LF, tokOK, tokIPD, tokREADY, tokWIFICONNECTED,
      tokWIFIGOTIP, tokWIFIDISCONNECT, tokERROR]
  · simp [deliver, ESP_Update, ESP_DataReceived, Parse, Issue, hp, hps, hrx, record,
      parseByte, handleLine, unsolicited, Complete, resolve, raiseIdle, raise, checkTimeout,
      stripCR, leadingDigits, isDigit, CR, LF, tokOK, tokIPD, tokREADY, tokWIFICONNECTED,
      tokWIFIGOTIP, tokWIFIDISCONNECT, tokERROR]
  · simp [deliver, ESP_Update, ESP_DataReceived, Parse, Issue, hp, hps, hrx, record,
      parseByte, handleLine, unsolicited, Complete, resolve, raiseIdle, raise, checkTimeout,
      stripCR, leadingDigits, isDigit, CR, LF, tokOK, tokIPD, tokREADY, tokWIFICONNECTED,
      tokWIFIGOTIP, tokWIFIDISCONNECT, tokERROR]
  · intro n hn
    interval_cases n <;>
    simp [feed, ESP_DataReceived, Parse, Issue, hp, hps, hrx, record,
      parseByte, handleLine, unsolicited, Complete, resolve, raiseIdle, raise,
      stripCR, leadingDigits, isDigit, CR, LF, tokOK, tokIPD, tokREADY, tokWIFICONNECTED,
      tokWIFIGOTIP, tokWIFIDISCONNECT, tokERROR]

/-- Witness of C8 on the engine with five free slots right after initialisation. -/
theorem ok_resolves_then_idle_witness :
    (deliver ((Engine.init 5).Issue cmdCWMODE3 [tokOK] [tokERROR] 1000 false none).2
        ([CR, LF] ++ tokOK ++ [CR, LF])).log =
      (Engine.init 5).log ++ [Obs.transmit cmdCWMODE3, Obs.resolved cmdCWMODE3 Result.ok,
                Obs.event Event.idle none] :=
  (ok_resolves_then_idle (Engine.init 5) 1000 false (by decide) (by decide) (by decide)).2.2.2.2.1

/-- The busy-wait ends if the flag is set `d` reads from now. -/
theorem waitUDRE_terminates (ucsr1a : Nat → Nat) (UDRE1 : Nat) (d : Nat) :
    ∀ hw : Usart1, ucsr1a (hw.reads + d) &&& (1 <<< UDRE1) ≠ 0 →
      ∃ (fuel0 : Nat) (hw' : Usart1), hw'.udr1 = hw.udr1 ∧
        ∀ fuel, fuel0 ≤ fuel → waitUDRE ucsr1a UDRE1 fuel hw = some hw' := by
  induction d with
  | zero =>
    intro hw h
    refine ⟨1, { hw with reads := hw.reads + 1 }, rfl, fun fuel hf => ?_⟩
    obtain ⟨f, rfl⟩ : ∃ f, fuel = f + 1 := ⟨fuel - 1, by omega⟩
    simp only [Nat.add_zero] at h
    simp [waitUDRE, h]
  | succ d ih =>
    intro hw h
    by_cases h0 : ucsr1a hw.reads &&& (1 <<< UDRE1) = 0
    · obtain ⟨f0, hw', h1, h2⟩ := ih { hw with reads := hw.reads + 1 }
        (by simpa [Nat.add_assoc, Nat.add_comm 1 d] using h)
      refine ⟨f0 + 1, hw', h1, fun fuel hf => ?_⟩
      obtain ⟨f, rfl⟩ : ∃ f, fuel = f + 1 := ⟨fuel - 1, by omega⟩
      simp only [waitUDRE, h0, if_true]
      exact h2 f (by omega)
    · refine ⟨1, { hw with reads := hw.reads + 1 }, rfl, fun fuel hf => ?_⟩
      obtain ⟨f, rfl⟩ : ∃ f, fuel = f + 1 := ⟨fuel - 1, by omega⟩
      simp [waitUDRE, h0]

theorem waitUDRE_of_eventually (ucsr1a : Nat → Nat) (UDRE1 : Nat)
    (hready : ∀ k, ∃ j, k ≤ j ∧ ucsr1a j &&& (1 <<< UDRE1) ≠ 0) (hw : Usart1) :
    ∃ (fuel0 : Nat) (hw' : Usart1), hw'.udr1 = hw.udr1 ∧
      ∀ fuel, fuel0 ≤ fuel → waitUDRE ucsr1a UDRE1 fuel hw = some hw' := by
  obtain ⟨j, hj, hset⟩ := hready hw.reads
  exact waitUDRE_terminates ucsr1a UDRE1 (j - hw.reads) hw
    (by rwa [Nat.add_sub_cancel' hj])

theorem sendLoop_of_eventually (ucsr1a : Nat → Nat) (UDRE1 : Nat)
    (hready : ∀ k, ∃ j, k ≤ j ∧ ucsr1a j &&& (1 <<< UDRE1) ≠ 0) (count : Nat) :
    ∀ (data : List Byte) (hw : Usart1), count ≤ data.length →
      ∃ (fuel0 : Nat) (hw' : Usart1), hw'.udr1 = hw.udr1 ++ data.take count ∧
        ∀ fuel, fuel0 ≤ fuel → sendLoop ucsr1a UDRE1 fuel count data hw = some hw' := by
  induction count with
  | zero =>
    intro data hw _
    exact ⟨0, hw, by simp, fun fuel _ => by simp [sendLoop]⟩
  | succ count ih =>
    intro data hw hlen
    cases data with
    | nil => simp at hlen
    | cons b rest =>
      obtain ⟨f1, hw1, h1, k1⟩ :=
        waitUDRE_of_eventually ucsr1a UDRE1 hready { hw with udr1 := hw.udr1 ++ [b] }
      obtain ⟨f2, hw2, h2, k2⟩ := ih rest hw1 (by simpa using hlen)
      refine ⟨max f1 f2, hw2, by simp [h2, h1], fun fuel hf => ?_⟩
      simp only [sendLoop, k1 fuel (le_trans (le_max_left _ _) hf)]
      exact k2 fuel (le_trans (le_max_right _ _) hf)

/-- C9: for every buffer and every `count` (at most 65535 and at most the length of the
buffer), if the transmitter-empty flag `UDRE1` is always eventually set, then with enough
fuel `ESP8266_LL_USARTSend` returns 0 and has written to `UDR1` exactly the bytes
`data[0], ..., data[count-1]`, in this order, after what was written before; with
`count = 0` that is nothing. -/
theorem USARTSend_writes_exactly (ucsr1a : Nat → Nat) (UDRE1 : Nat) (data : List Byte)
    (count : Nat) (hw : Usart1) (hcount : count ≤ 65535) (hlen : count ≤ data.length)
    (hready : ∀ k, ∃ j, k ≤ j ∧ ucsr1a j &&& (1 <<< UDRE1) ≠ 0) :
    ∃ (fuel0 : Nat) (hw' : Usart1), hw'.udr1 = hw.udr1 ++ data.take count ∧
      ∀ fuel, fuel0 ≤ fuel →
        ESP8266_LL_USARTSend ucsr1a UDRE1 fuel data count hw = some (hw', 0) := by
  obtain ⟨f1, hw1, h1, k1⟩ := waitUDRE_of_eventually ucsr1a UDRE1 hready hw
  obtain ⟨f2, hw2, h2, k2⟩ := sendLoop_of_eventually ucsr1a UDRE1 hready count data hw1 hlen
  refine ⟨max f1 f2, hw2, by rw [h2, h1], fun fuel hf => ?_⟩
  have hmod : count % 65536 = count := Nat.mod_eq_of_lt (by omega)
  simp [ESP8266_LL_USARTSend, hmod, k1 fuel (le_trans (le_max_left _ _) hf),
    k2 fuel (le_trans (le_max_right _ _) hf)]

theorem slowTransmitter_eventually (k : Nat) :
    ∃ j, k ≤ j ∧ slowTransmitter j &&& (1 <<< 5) ≠ 0 := by
  refine ⟨3 * k + 2, by omega, ?_⟩
  have h : (3 * k + 2) % 3 = 2 := by omega
  simp only [slowTransmitter, h, if_true]
  decide

/-- Witness of C9: two of three bytes sent through a transmitter that is ready at every
third read of the status register. -/
theorem USARTSend_writes_exactly_witness :
    ∃ (fuel0 : Nat) (hw' : Usart1), hw'.udr1 = [] ++ [65, 66, 67].take 2 ∧
      ∀ fuel, fuel0 ≤ fuel →
        ESP8266_LL_USARTSend slowTransmitter 5 fuel [65, 66, 67] 2 ⟨0, []⟩ = some (hw', 0) :=
  USARTSend_writes_exactly slowTransmitter 5 [65, 66, 67] 2 ⟨0, []⟩ (by decide) (by decide)
    slowTransmitter_eventually

/-- The same run evaluated: three reads per wait, the bytes 65 and 66 written. -/
theorem USARTSend_slowTransmitter :
    ESP8266_LL_USARTSend slowTransmitter 5 3 [65, 66, 67] 2 ⟨0, []⟩ = some (⟨9, [65, 66]⟩, 0) ∧
    ESP8266_LL_USARTSend slowTransmitter 5 3 [65, 66, 67] 0 ⟨0, []⟩ = some (⟨3, []⟩, 0) ∧
    ESP8266_LL_USARTSend slowTransmitter 5 2 [65, 66, 67] 2 ⟨0, []⟩ = none := by
  decide

/-- C10: every invocation of a receive handler with the received byte `ch` is one call of
the data-received entry point with a buffer of length 1 that holds `ch`, and touches the
engine state in no other way; so after the bytes `bs` the entry point has been called
once per byte, in arrival order, and the receive buffer of the engine has grown by
exactly `bs`. -/
theorem receive_handlers_feed_one_byte :
    (∀ (σ : Type) (recv : σ → List Byte → Nat → σ) (ch : Byte) (s : σ),
      ISR_USART1_RX_vect recv ch s = recv s [ch] 1 ∧
      TM_USART1_ReceiveHandler recv ch s = recv s [ch] 1 ∧
      TM_UART5_ReceiveHandler recv ch s = recv s [ch] 1 ∧
      TM_USART6_ReceiveHandler recv ch s = recv s [ch] 1) ∧
    (∀ (calls : List (List Byte × Nat)) (bs : List Byte),
      bs.foldl (fun s b => ISR_USART1_RX_vect logCall b s) calls
        = calls ++ bs.map (fun b => ([b], 1)) ∧
      bs.foldl (fun s b => TM_USART1_ReceiveHandler logCall b s) calls
        = calls ++ bs.map (fun b => ([b], 1)) ∧
      bs.foldl (fun s b => TM_UART5_ReceiveHandler logCall b s) calls
        = calls ++ bs.map (fun b => ([b], 1)) ∧
      bs.foldl (fun s b => TM_USART6_ReceiveHandler logCall b s) calls
        = calls ++ bs.map (fun b => ([b], 1))) ∧
    (∀ (e : Engine) (bs : List Byte),
      bs.foldl (fun s b => ISR_USART1_RX_vect ESP_DataReceived b s) e
        = { e with rx := e.rx ++ bs } ∧
      bs.foldl (fun s b => TM_USART1_ReceiveHandler ESP_DataReceived b s) e
        = { e with rx := e.rx ++ bs } ∧
      bs.foldl (fun s b => TM_UART5_ReceiveHandler ESP_DataReceived b s) e
        = { e with rx := e.rx ++ bs } ∧
      bs.foldl (fun s b => TM_USART6_ReceiveHandler ESP_DataReceived b s) e
        = { e with rx := e.rx ++ bs }) := by
  have hlog : ∀ (bs : List Byte) (calls : List (List Byte × Nat)),
      bs.foldl (fun s b => logCall s [b] 1) calls = calls ++ bs.map (fun b => ([b], 1)) := by
    intro bs
    induction bs with
    | nil => intro calls; simp
    | cons b bs ih =>
      intro calls
      rw [List.foldl_cons, ih]
      simp [logCall]
  have hrx : ∀ (bs : List Byte) (e : Engine),
      bs.foldl (fun s b => ESP_DataReceived s [b] 1) e = { e with rx := e.rx ++ bs } := by
    intro bs
    induction bs with
    | nil => intro e; simp
    | cons b bs ih =>
      intro e
      rw [List.foldl_cons, ih]
      simp [ESP_DataReceived]
  refine ⟨fun σ recv ch s => ⟨rfl, rfl, rfl, rfl⟩, fun calls bs => ?_, fun e bs => ?_⟩
  · exact ⟨hlog bs calls, hlog bs calls, hlog bs calls, hlog bs calls⟩
  · exact ⟨hrx bs e, hrx bs e, hrx bs e, hrx bs e⟩


/-- The protocol constants are the ASCII codes of the texts of spec section 6. -/
theorem protocol_text :
    tokIPD = ascii "+IPD," ∧ tokOK = ascii "OK" ∧ tokERROR = ascii "ERROR" ∧
    tokFAIL = ascii "FAIL" ∧ tokSENDOK = ascii "SEND OK" ∧ tokSENDFAIL = ascii "SEND FAIL" ∧
    tokBUSY = ascii "busy p..." ∧ tokREADY = ascii "ready" ∧
    tokWIFICONNECTED = ascii "WIFI CONNECTED" ∧ tokWIFIGOTIP = ascii "WIFI GOT IP" ∧
    tokWIFIDISCONNECT = ascii "WIFI DISCONNECT" ∧ tokCONNECT = ascii ",CONNECT" ∧
    tokCLOSED = ascii ",CLOSED" ∧ tokCONTENTLENGTH = ascii "Content-Length:" ∧
    cmdCIPSTART = ascii "AT+CIPSTART=" ∧ cmdCIPCLOSE = ascii "AT+CIPCLOSE=" ∧
    cmdCWMODE3 = ascii "AT+CWMODE=3" ++ [CR, LF] ∧
    frameABCDE = ascii "+IPD,0,5:ABCDE" := by
  decide

/-- C11: in a build with `ESP_RTOS`, the control `ESP_LL_Control_SYS_Request` makes one
call, `osMutexWait(id, 1000)`, whose timeout of 1000 ms is not `osWaitForever`; the status
written to `*result` is 0 if and only if that call returned `osOK` and is 1 otherwise; the
function returns 1. -/
theorem SYS_Request_bounded_wait (b : Build) (os : Rtos) (Sync v : Nat) (s : LowLevel)
    (hrtos : b.ESP_RTOS = true) :
    ∃ status : Nat,
      ESP_LL_Callback b os (Control.SYS_Request Sync) (some v) s =
        some (s.call (HwCall.osMutexWait s.id 1000), some status, 1) ∧
      (status = 0 ↔ os.osMutexWait s.id 1000 = osOK) ∧
      (os.osMutexWait s.id 1000 ≠ osOK → status = 1) ∧
      1000 < osWaitForever := by
  refine ⟨if os.osMutexWait s.id 1000 = osOK then 0 else 1, ?_, ?_, ?_, by decide⟩
  · simp [ESP_LL_Callback, hrtos]
  · by_cases h : os.osMutexWait s.id 1000 = osOK <;> simp [h]
  · intro h
    simp [h]

/-- Witness of C11: an acquire that times out on the STM32F4 Discovery build. -/
theorem SYS_Request_bounded_wait_witness :
    ∃ status : Nat,
      ESP_LL_Callback (STM32F4_DISCOVERY true) failingRtos (Control.SYS_Request 0) (some 0)
          ⟨7, []⟩ =
        some ((⟨7, []⟩ : LowLevel).call (HwCall.osMutexWait 7 1000), some status, 1) ∧
      (status = 0 ↔ failingRtos.osMutexWait 7 1000 = osOK) ∧
      (failingRtos.osMutexWait 7 1000 ≠ osOK → status = 1) ∧
      1000 < osWaitForever :=
  SYS_Request_bounded_wait (STM32F4_DISCOVERY true) failingRtos 0 0 ⟨7, []⟩ rfl

/-- C12: when the acquire fails (`osMutexWait` returns anything but `osOK`), the control
`ESP_LL_Control_SYS_Request` sets `*result` to 1 and returns 1; the stored mutex id, the
only variable of the low-level layer, is the same after the call as before, and the only
call made is the `osMutexWait` itself. -/
theorem SYS_Request_failure_keeps_state (b : Build) (os : Rtos) (Sync v : Nat)
    (s : LowLevel) (hrtos : b.ESP_RTOS = true)
    (hfail : os.osMutexWait s.id 1000 ≠ osOK) :
    ∃ s' : LowLevel,
      ESP_LL_Callback b os (Control.SYS_Request Sync) (some v) s = some (s', some 1, 1) ∧
      s'.id = s.id ∧
      s'.calls = s.calls ++ [HwCall.osMutexWait s.id 1000] := by
  refine ⟨s.call (HwCall.osMutexWait s.id 1000), ?_, rfl, rfl⟩
  simp [ESP_LL_Callback, hrtos, hfail]

/-- Witness of C12: an acquire that times out on the STM32F4 Discovery build. -/
theorem SYS_Request_failure_keeps_state_witness :
    ∃ s' : LowLevel,
      ESP_LL_Callback (STM32F4_DISCOVERY true) failingRtos (Control.SYS_Request 0) (some 0)
          ⟨7, []⟩ = some (s', some 1, 1) ∧
      s'.id = 7 ∧
      s'.calls = [] ++ [HwCall.osMutexWait 7 1000] :=
  SYS_Request_failure_keeps_state (STM32F4_DISCOVERY true) failingRtos 0 0 ⟨7, []⟩ rfl
    (by decide)

/-- C15: for every control code, provided `result` is not `NULL` where the code writes
through it unchecked, `ESP_LL_Callback` returns 1 if the build processes the control and 0
otherwise; in the latter case it makes no call and leaves the low-level layer and
`*result` as they were.  In a build without `ESP_RTS_PORT` and `ESP_RTS_PIN`, as that of
every board the file lists, `ESP_LL_Control_SetRTS` returns 0. -/
theorem callback_return_value (b : Build) (os : Rtos) (ctrl : Control) (result : Option Nat)
    (s : LowLevel) (hvalid : writesUnchecked b ctrl = true → result ≠ none) :
    (∃ (s' : LowLevel) (cell : Option Nat),
      ESP_LL_Callback b os ctrl result s
        = some (s', cell, if processes b ctrl = true then 1 else 0) ∧
      (processes b ctrl = false → s' = s ∧ cell = result)) ∧
    (b.rts = none → ∀ state : Nat,
      ESP_LL_Callback b os (Control.SetRTS state) result s = some (s, result, 0)) ∧
    (∀ rtos : Bool, (STM32F769_DISCOVERY rtos).rts = none ∧ (STM32F7_DISCOVERY rtos).rts = none ∧
      (NUCLEO_F411 rtos).rts = none ∧ (STM32F429_DISCOVERY rtos).rts = none ∧
      (STM32F4_DISCOVERY rtos).rts = none) := by
  refine ⟨?_, ?_, fun rtos => ⟨rfl, rfl, rfl, rfl, rfl⟩⟩
  · cases ctrl with
    | Init LL => simp [ESP_LL_Callback, processes]
    | Send send => simp [ESP_LL_Callback, processes]
    | SetReset state =>
      cases hr : b.reset with
      | none => simp [ESP_LL_Callback, processes, hr]
      | some p => by_cases hs : state = ESP_RESET_SET <;> simp [ESP_LL_Callback, processes, hr, hs]
    | SetRTS state =>
      cases hr : b.rts with
      | none => simp [ESP_LL_Callback, processes, hr]
      | some p => simp [ESP_LL_Callback, processes, hr]
    | SYS_Create Sync =>
      cases hr : b.ESP_RTOS <;> simp [ESP_LL_Callback, processes, hr]
    | SYS_Delete Sync =>
      cases hr : b.ESP_RTOS <;> simp [ESP_LL_Callback, processes, hr]
    | SYS_Request Sync =>
      cases hr : b.ESP_RTOS with
      | false => simp [ESP_LL_Callback, processes, hr]
      | true =>
        cases hres : result with
        | none => exact absurd hres (hvalid (by simp [writesUnchecked, hr]))
        | some v => simp [ESP_LL_Callback, processes, hr]
    | SYS_Release Sync =>
      cases hr : b.ESP_RTOS with
      | false => simp [ESP_LL_Callback, processes, hr]
      | true =>
        cases hres : result with
        | none => exact absurd hres (hvalid (by simp [writesUnchecked, hr]))
        | some v => simp [ESP_LL_Callback, processes, hr]
    | other code => simp [ESP_LL_Callback, processes]
  · intro hr state
    simp [ESP_LL_Callback, hr]

/-- Witness of C15: a code that the function names in no `case`, on the Nucleo build. -/
theorem callback_return_value_witness :
    ∃ (s' : LowLevel) (cell : Option Nat),
      ESP_LL_Callback (NUCLEO_F411 true) failingRtos (Control.other 99) (some 9) ⟨7, []⟩
        = some (s', cell,
            if processes (NUCLEO_F411 true) (Control.other 99) = true then 1 else 0) ∧
      (processes (NUCLEO_F411 true) (Control.other 99) = false →
        s' = ⟨7, []⟩ ∧ cell = some 9) :=
  (callback_return_value (NUCLEO_F411 true) failingRtos (Control.other 99) (some 9) ⟨7, []⟩
    (by decide)).1

/-- C16: for every value of `state` the three reset implementations agree: each makes one
call, which drives its reset pin low if `state` is `ESP_RESET_SET` (1) and high for every
other value, and each reports success: `ESP_LL_SetReset` of the client example and of the
UART-WiFi example return 0, the `ESP_LL_Control_SetReset` branch of `ESP_LL_Callback`
returns 1 (processed). -/
theorem reset_implementations_agree (state : Nat) (f769 : Bool) (b : Build) (p : Pin)
    (os : Rtos) (result : Option Nat) (s : LowLevel) (hreset : b.reset = some p) :
    ClientRTOS.ESP_LL_SetReset state =
      ([if state = 1 then HwCall.TM_GPIO_SetPinLow ⟨Port.GPIOA, 0⟩
        else HwCall.TM_GPIO_SetPinHigh ⟨Port.GPIOA, 0⟩], 0) ∧
    UartWifiRTOS.ESP_LL_SetReset f769 state =
      ([if state = 1 then HwCall.TM_GPIO_SetPinLow (UartWifiRTOS.LL_RESET f769)
        else HwCall.TM_GPIO_SetPinHigh (UartWifiRTOS.LL_RESET f769)], 0) ∧
    ESP_LL_Callback b os (Control.SetReset state) result s =
      some (s.call (if state = 1 then HwCall.TM_GPIO_SetPinLow p
        else HwCall.TM_GPIO_SetPinHigh p), result, 1) ∧
    drivenLevels (ClientRTOS.ESP_LL_SetReset state).1 = [decide (state ≠ 1)] ∧
    drivenLevels (UartWifiRTOS.ESP_LL_SetReset f769 state).1 = [decide (state ≠ 1)] ∧
    drivenLevels [if state = 1 then HwCall.TM_GPIO_SetPinLow p
      else HwCall.TM_GPIO_SetPinHigh p] = [decide (state ≠ 1)] := by
  by_cases hs : state = 1
  · subst hs
    exact ⟨rfl, rfl, by simp [ESP_LL_Callback, hreset, ESP_RESET_SET], rfl, rfl, rfl⟩
  · exact ⟨by simp [ClientRTOS.ESP_LL_SetReset, ESP_RESET_SET, hs],
      by simp [UartWifiRTOS.ESP_LL_SetReset, ESP_RESET_SET, hs],
      by simp [ESP_LL_Callback, hreset, ESP_RESET_SET, hs],
      by simp [ClientRTOS.ESP_LL_SetReset, ESP_RESET_SET, hs, drivenLevels],
      by simp [UartWifiRTOS.ESP_LL_SetReset, ESP_RESET_SET, hs, drivenLevels],
      by simp [hs, drivenLevels]⟩

/-- Witness of C16: `state = ESP_RESET_CLR` on the STM32F769 Discovery build. -/
theorem reset_implementations_agree_witness :
    drivenLevels (ClientRTOS.ESP_LL_SetReset 0).1 = [decide (0 ≠ 1)] ∧
    ESP_LL_Callback (STM32F769_DISCOVERY true) failingRtos (Control.SetReset 0) none ⟨0, []⟩ =
      some ((⟨0, []⟩ : LowLevel).call (if 0 = 1 then HwCall.TM_GPIO_SetPinLow ⟨Port.GPIOJ, 14⟩
        else HwCall.TM_GPIO_SetPinHigh ⟨Port.GPIOJ, 14⟩), none, 1) :=
  ⟨(reset_implementations_agree 0 true (STM32F769_DISCOVERY true) ⟨Port.GPIOJ, 14⟩ failingRtos
      none ⟨0, []⟩ rfl).2.2.2.1,
    (reset_implementations_agree 0 true (STM32F769_DISCOVERY true) ⟨Port.GPIOJ, 14⟩ failingRtos
      none ⟨0, []⟩ rfl).2.2.1⟩

/-- C17, evaluated: in a build where `ESP_RTS_PORT` and `ESP_RTS_PIN` are defined (pin
`p`), the `ESP_LL_Control_SetRTS` branch of `ESP_LL_Callback` calls `TM_GPIO_SetPinHigh`
for every value of `state`, also for `ESP_RTS_CLR` (0), and never `TM_GPIO_SetPinLow`. -/
theorem SetRTS_always_high (b : Build) (p : Pin) (os : Rtos) (state : Nat)
    (result : Option Nat) (s : LowLevel) :
    ESP_LL_Callback { b with rts := some p } os (Control.SetRTS state) result s =
      some (s.call (HwCall.TM_GPIO_SetPinHigh p), result, 1) ∧
    ESP_LL_Callback { b with rts := some p } os (Control.SetRTS ESP_RTS_CLR) result s =
      some (s.call (HwCall.TM_GPIO_SetPinHigh p), result, 1) := by
  constructor <;> simp [ESP_LL_Callback]

/-- C18: in a build with `ESP_RTOS`, the `ESP_LL_Control_SYS_Create` branch makes one call,
`osMutexCreate(Sync)`, stores the handle it returns in `id` and returns 1; with `result`
not `NULL` the status written is 0 if and only if the handle is not `NULL` and is 1
(greater than 0) otherwise; with `result` `NULL` no status is written. -/
theorem SYS_Create_status (b : Build) (os : Rtos) (Sync : Nat) (result : Option Nat)
    (s : LowLevel) (hrtos : b.ESP_RTOS = true) :
    ∃ cell : Option Nat,
      ESP_LL_Callback b os (Control.SYS_Create Sync) result s =
        some ({ id := os.osMutexCreate Sync, calls := s.calls ++ [HwCall.osMutexCreate Sync] },
          cell, 1) ∧
      (result = none → cell = none) ∧
      (∀ v, result = some v → ∃ status : Nat, cell = some status ∧
        (status = 0 ↔ os.osMutexCreate Sync ≠ 0) ∧
        (os.osMutexCreate Sync = 0 → status = 1 ∧ 0 < status)) := by
  refine ⟨result.map (fun _ => if os.osMutexCreate Sync = 0 then 1 else 0), ?_, ?_, ?_⟩
  · simp [ESP_LL_Callback, hrtos]
  · intro h
    simp [h]
  · intro v h
    refine ⟨if os.osMutexCreate Sync = 0 then 1 else 0, by simp [h], ?_, ?_⟩
    · by_cases hz : os.osMutexCreate Sync = 0 <;> simp [hz]
    · intro hz
      simp [hz]

/-- Witness of C18: creation succeeds with handle 7 on the STM32F7 Discovery build. -/
theorem SYS_Create_status_witness :
    ∃ cell : Option Nat,
      ESP_LL_Callback (STM32F7_DISCOVERY true) failingRtos (Control.SYS_Create 3) (some 5)
          ⟨0, []⟩ =
        some ({ id := failingRtos.osMutexCreate 3, calls := [] ++ [HwCall.osMutexCreate 3] },
          cell, 1) ∧
      ((some 5 : Option Nat) = none → cell = none) ∧
      (∀ v, (some 5 : Option Nat) = some v → ∃ status : Nat, cell = some status ∧
        (status = 0 ↔ failingRtos.osMutexCreate 3 ≠ 0) ∧
        (failingRtos.osMutexCreate 3 = 0 → status = 1 ∧ 0 < status)) :=
  SYS_Create_status (STM32F7_DISCOVERY true) failingRtos 3 (some 5) ⟨0, []⟩ rfl

/-- C19, evaluated: in a build with `ESP_RTOS`, the `ESP_LL_Control_SYS_Delete` branch calls
`osMutexDelete` with the parameter `Sync`, not with the stored handle `id`, drops what the
call returns, and writes the status `id == NULL`: with a mutex created (`id` not `NULL`)
the status is 0 whatever `osMutexDelete` returns, also when deleting failed. -/
theorem SYS_Delete_status_ignores_delete (b : Build) (os : Rtos) (Sync v : Nat)
    (s : LowLevel) :
    ESP_LL_Callback { b with ESP_RTOS := true } os (Control.SYS_Delete Sync) (some v) s =
      some (s.call (HwCall.osMutexDelete Sync), some (if s.id = 0 then 1 else 0), 1) ∧
    failingRtos.osMutexDelete 3 ≠ osOK ∧
    ESP_LL_Callback (STM32F4_DISCOVERY true) failingRtos (Control.SYS_Delete 3) (some 5)
        ⟨7, []⟩ =
      some (⟨7, [HwCall.osMutexDelete 3]⟩, some 0, 1) := by
  refine ⟨by simp [ESP_LL_Callback], by decide, by decide⟩

/-- After `UCSR1A |= 1 << U2X1` the double-speed bit is set, whatever the register held. -/
theorem testBit_U2X1_set (x : Nat) :
    ((x ||| (1 <<< iom2560.U2X1)) % 256).testBit iom2560.U2X1 = true := by
  have h : (256 : Nat) = 2 ^ 8 := by norm_num
  show ((x ||| (1 <<< 1)) % 256).testBit 1 = true
  have h2 : Nat.testBit (1 <<< 1) 1 = true := by decide
  rw [h, Nat.testBit_mod_two_pow, Nat.testBit_or, h2]
  simp

/-- The registers after `ESP8266_LL_USARTInit` with a baud rate that is not zero. -/
theorem USARTInit_regs (F_CPU : Nat) (bits : UsartBits) (baudrate : Nat) (r : AvrRegs)
    (h : baudrate % 2 ^ 32 ≠ 0) :
    ESP8266_LL_USARTInit F_CPU bits baudrate r =
      some
        ({ UCSR0A := if recalculates F_CPU (baudrate % 2 ^ 32) then 0 else r.UCSR0A
           UBRR1H := (prescalerWritten F_CPU (baudrate % 2 ^ 32) >>> 8) &&& 0xFF
           UBRR1L := prescalerWritten F_CPU (baudrate % 2 ^ 32) &&& 0xFF
           UCSR1A := (r.UCSR1A ||| (1 <<< bits.U2X1)) % 256
           UCSR1C := (r.UCSR1C ||| ((1 <<< bits.UCSZ10) ||| (1 <<< bits.UCSZ11))) % 256
           UCSR1B :=
              (((r.UCSR1B ||| ((1 <<< bits.RXEN1) ||| (1 <<< bits.TXEN1))) % 256)
                ||| (1 <<< bits.RXCIE1)) % 256
           interrupts := true
           delayed := r.delayed + 10 }, 0) := by
  unfold ESP8266_LL_USARTInit
  rw [if_neg h]

/-- The rate selected after `ESP8266_LL_USARTInit` on the ATmega2560: double speed is
always on, so it is `F_CPU / (8 * (prescaler + 1))`. -/
theorem selectedBaud_USARTInit (F_CPU baudrate : Nat) (r r' : AvrRegs) (ret : Nat)
    (h : ESP8266_LL_USARTInit F_CPU iom2560 baudrate r = some (r', ret)) :
    ret = 0 ∧ r'.UCSR1A.testBit iom2560.U2X1 = true ∧
    selectedBaud F_CPU iom2560 r' =
      F_CPU / (8 * (((prescalerWritten F_CPU (baudrate % 2 ^ 32) >>> 8) &&& 0xFF) * 256
        + (prescalerWritten F_CPU (baudrate % 2 ^ 32) &&& 0xFF) + 1)) := by
  by_cases hz : baudrate % 2 ^ 32 = 0
  · unfold ESP8266_LL_USARTInit at h
    rw [if_pos hz] at h
    exact absurd h (by simp)
  · rw [USARTInit_regs _ _ _ _ hz] at h
    simp only [Option.some.injEq, Prod.mk.injEq] at h
    obtain ⟨h1, h2⟩ := h
    subst h1
    refine ⟨h2.symm, testBit_U2X1_set r.UCSR1A, ?_⟩
    simp only [selectedBaud]
    rw [if_pos (testBit_U2X1_set r.UCSR1A)]

/-- C14, evaluated at 57600 baud with `F_CPU = 16000000`: whatever the registers hold
before, `ESP8266_LL_USARTInit` returns 0 with `UCSR0A` cleared, `UBRR1 = 16` and the bit
`U2X1` set, which selects 117647 baud, more than twice the rate requested and the same
registers as for 115200 baud.  For 9600, 19200, 38400 and 115200 baud the selected rate is
within 5 percent of the request.  The sibling `DebugUARTInit`, which has no special case,
writes `UBRR0 = 34` for 57600 baud, that is 57142 baud at double speed. -/
theorem USARTInit_57600_selects_double_rate (r : AvrRegs) :
    (∃ r' : AvrRegs, ESP8266_LL_USARTInit 16000000 iom2560 57600 r = some (r', 0) ∧
      r'.UCSR0A = 0 ∧ r'.UBRR1H = 0 ∧ r'.UBRR1L = 16 ∧
      r'.UCSR1A.testBit iom2560.U2X1 = true ∧
      selectedBaud 16000000 iom2560 r' = 117647 ∧
      within5Percent (selectedBaud 16000000 iom2560 r') 57600 = false) ∧
    (∀ baudrate ∈ [9600, 19200, 38400, 115200],
      ∃ r' : AvrRegs, ESP8266_LL_USARTInit 16000000 iom2560 baudrate r = some (r', 0) ∧
        within5Percent (selectedBaud 16000000 iom2560 r') baudrate = true) ∧
    DebugUARTInit_UBRR0 16000000 57600 = 34 ∧
    within5Percent (16000000 / (8 * (DebugUARTInit_UBRR0 16000000 57600 + 1))) 57600 = true := by
  have key : ∀ baudrate : Nat, baudrate % 2 ^ 32 ≠ 0 →
      ∃ r' : AvrRegs, ESP8266_LL_USARTInit 16000000 iom2560 baudrate r = some (r', 0) ∧
        r'.UCSR0A = (if recalculates 16000000 (baudrate % 2 ^ 32) then 0 else r.UCSR0A) ∧
        r'.UBRR1H = (prescalerWritten 16000000 (baudrate % 2 ^ 32) >>> 8) &&& 0xFF ∧
        r'.UBRR1L = prescalerWritten 16000000 (baudrate % 2 ^ 32) &&& 0xFF ∧
        r'.UCSR1A.testBit iom2560.U2X1 = true ∧
        selectedBaud 16000000 iom2560 r' =
          16000000 / (8 * (((prescalerWritten 16000000 (baudrate % 2 ^ 32) >>> 8) &&& 0xFF) * 256
            + (prescalerWritten 16000000 (baudrate % 2 ^ 32) &&& 0xFF) + 1)) := by
    intro baudrate hz
    have h := USARTInit_regs 16000000 iom2560 baudrate r hz
    obtain ⟨_, h2, h3⟩ := selectedBaud_USARTInit 16000000 baudrate r _ 0 h
    exact ⟨_, h, rfl, rfl, rfl, h2, h3⟩
  refine ⟨?_, ?_, by decide, by decide⟩
  · obtain ⟨r', h1, h2, h3, h4, h5, h6⟩ := key 57600 (by decide)
    have hrec : recalculates 16000000 (57600 % 2 ^ 32) = true := by decide
    refine ⟨r', h1, ?_, ?_, ?_, h5, ?_, ?_⟩
    · rw [h2, if_pos hrec]
    · rw [h3]; decide
    · rw [h4]; decide
    · rw [h6]; decide
    · rw [h6]; decide
  · intro baudrate hb
    simp only [List.mem_cons, List.mem_singleton, List.not_mem_nil, or_false] at hb
    rcases hb with rfl | rfl | rfl | rfl
    · obtain ⟨r', h1, -, -, -, -, h6⟩ := key 9600 (by decide)
      exact ⟨r', h1, by rw [h6]; decide⟩
    · obtain ⟨r', h1, -, -, -, -, h6⟩ := key 19200 (by decide)
      exact ⟨r', h1, by rw [h6]; decide⟩
    · obtain ⟨r', h1, -, -, -, -, h6⟩ := key 38400 (by decide)
      exact ⟨r', h1, by rw [h6]; decide⟩
    · obtain ⟨r', h1, -, -, -, -, h6⟩ := key 115200 (by decide)
      exact ⟨r', h1, by rw [h6]; decide⟩

/-- C13: every invocation of a 1 ms tick handler is one call of the time-advance operation
of the engine with the increment 1, and in the RTOS examples one call of
`osSystickHandler` on the kernel besides; so after `n` invocations the operation has been
called `n` times with 1, the milliseconds supplied add up to `n`, and the clock of the
engine is `n` more than before: it never decreases. -/
theorem tick_handlers_advance_by_one :
    (∀ (σ : Type) (f : σ → Nat → σ) (s : σ),
      ISR_TIMER0_COMPA_vect f s = f s 1 ∧ TM_DELAY_1msHandler f s = f s 1) ∧
    (∀ (σ κ : Type) (f : σ → Nat → σ) (k : κ → κ) (s : σ × κ),
      RTOS.TM_DELAY_1msHandler f k s = (f s.1 1, k s.2)) ∧
    (∀ (n : Nat) (calls : List Nat),
      Nat.iterate (ISR_TIMER0_COMPA_vect logTick) n calls = calls ++ List.replicate n 1 ∧
      Nat.iterate (TM_DELAY_1msHandler logTick) n calls = calls ++ List.replicate n 1 ∧
      (Nat.iterate (RTOS.TM_DELAY_1msHandler logTick id) n (calls, ())).1
        = calls ++ List.replicate n 1 ∧
      (List.replicate n 1).sum = n) ∧
    (∀ (n : Nat) (e : Engine),
      Nat.iterate (ISR_TIMER0_COMPA_vect ESP_UpdateTime) n e = { e with clock := e.clock + n } ∧
      Nat.iterate (TM_DELAY_1msHandler ESP_UpdateTime) n e = { e with clock := e.clock + n } ∧
      (Nat.iterate (RTOS.TM_DELAY_1msHandler ESP_UpdateTime id) n (e, ())).1
        = { e with clock := e.clock + n }) ∧
    (∀ (n m : Nat) (e : Engine), n ≤ m →
      (Nat.iterate (ISR_TIMER0_COMPA_vect ESP_UpdateTime) n e).clock
        ≤ (Nat.iterate (ISR_TIMER0_COMPA_vect ESP_UpdateTime) m e).clock ∧
      (Nat.iterate (TM_DELAY_1msHandler ESP_UpdateTime) n e).clock
        ≤ (Nat.iterate (TM_DELAY_1msHandler ESP_UpdateTime) m e).clock) := by
  have hlog : ∀ (n : Nat) (calls : List Nat),
      Nat.iterate (fun s => logTick s 1) n calls = calls ++ List.replicate n 1 := by
    intro n
    induction n with
    | zero => intro calls; simp
    | succ n ih =>
      intro calls
      rw [Function.iterate_succ_apply, ih]
      simp [logTick, List.replicate_succ]
  have hlogR : ∀ (n : Nat) (calls : List Nat),
      (Nat.iterate (RTOS.TM_DELAY_1msHandler logTick id) n (calls, ())).1
        = calls ++ List.replicate n 1 := by
    intro n
    induction n with
    | zero => intro calls; simp
    | succ n ih =>
      intro calls
      rw [Function.iterate_succ_apply]
      have : RTOS.TM_DELAY_1msHandler logTick id (calls, ()) = (calls ++ [1], ()) := rfl
      rw [this, ih]
      simp [List.replicate_succ]
  have hclk : ∀ (n : Nat) (e : Engine),
      Nat.iterate (fun s => ESP_UpdateTime s 1) n e = { e with clock := e.clock + n } := by
    intro n
    induction n with
    | zero => intro e; simp
    | succ n ih =>
      intro e
      rw [Function.iterate_succ_apply, ih]
      simp [ESP_UpdateTime, Nat.add_assoc, Nat.add_comm 1 n]
  have hclkR : ∀ (n : Nat) (e : Engine),
      (Nat.iterate (RTOS.TM_DELAY_1msHandler ESP_UpdateTime id) n (e, ())).1
        = { e with clock := e.clock + n } := by
    intro n
    induction n with
    | zero => intro e; simp
    | succ n ih =>
      intro e
      rw [Function.iterate_succ_apply]
      have : RTOS.TM_DELAY_1msHandler ESP_UpdateTime id (e, ())
          = (ESP_UpdateTime e 1, ()) := rfl
      rw [this, ih]
      simp [ESP_UpdateTime, Nat.add_assoc, Nat.add_comm 1 n]
  refine ⟨fun σ f s => ⟨rfl, rfl⟩, fun σ κ f k s => rfl, fun n calls => ?_, fun n e => ?_,
    fun n m e hnm => ?_⟩
  · exact ⟨hlog n calls, hlog n calls, hlogR n calls, by simp⟩
  · exact ⟨hclk n e, hclk n e, hclkR n e⟩
  · have h1 := hclk n e
    have h2 := hclk m e
    have e1 : Nat.iterate (ISR_TIMER0_COMPA_vect ESP_UpdateTime) n e
        = { e with clock := e.clock + n } := h1
    have e2 : Nat.iterate (ISR_TIMER0_COMPA_vect ESP_UpdateTime) m e
        = { e with clock := e.clock + m } := h2
    have e3 : Nat.iterate (TM_DELAY_1msHandler ESP_UpdateTime) n e
        = { e with clock := e.clock + n } := h1
    have e4 : Nat.iterate (TM_DELAY_1msHandler ESP_UpdateTime) m e
        = { e with clock := e.clock + m } := h2
    rw [e1, e2, e3, e4]
    exact ⟨Nat.add_le_add_left hnm _, Nat.add_le_add_left hnm _⟩

/-- Where an element of a list with one more element at the end can be. -/
theorem snoc_decomp {α : Type} {tr pre post : List α} {e x : α}
    (h : tr ++ [e] = pre ++ x :: post) :
    (post = [] ∧ pre = tr ∧ x = e) ∨ ∃ post', post = post' ++ [e] ∧ tr = pre ++ x :: post' := by
  rcases List.eq_nil_or_concat post with rfl | ⟨post', y, hpost⟩
  · left
    have := List.append_inj' h rfl
    exact ⟨rfl, this.1.symm, by simpa using this.2.symm⟩
  · right
    rw [List.concat_eq_append] at hpost
    subst hpost
    have h' : tr ++ [e] = (pre ++ x :: post') ++ [y] := by simpa using h
    have := List.append_inj' h' rfl
    have hy : e = y := by simpa using this.2
    exact ⟨post', by rw [hy], this.1⟩

theorem callOrder_nil : CallOrder [] := by
  refine ⟨?_, ?_, ?_⟩ <;>
  · intro pre r post h
    have := congrArg List.length h
    simp at this
    omega

theorem callOrder_snoc_isReady {tr : List (ApiCall × Result)} (h : CallOrder tr) (r : Result) :
    CallOrder (tr ++ [(ApiCall.ESP_IsReady, r)]) := by
  refine ⟨?_, ?_, ?_⟩
  · intro pre r' post heq
    rcases snoc_decomp heq with ⟨_, _, hx⟩ | ⟨post', _, htr⟩
    · cases hx
    · exact h.1 pre r' post' htr
  · intro pre r' post heq
    rcases snoc_decomp heq with ⟨_, _, hx⟩ | ⟨post', _, htr⟩
    · cases hx
    · exact h.2.1 pre r' post' htr
  · intro pre r' post heq
    rcases snoc_decomp heq with ⟨_, _, hx⟩ | ⟨post', _, htr⟩
    · cases hx
    · exact h.2.2 pre r' post' htr

theorem callOrder_snoc_start {tr : List (ApiCall × Result)} (h : CallOrder tr) (r : Result)
    (hshape : ∃ pre', tr = pre' ++ [(ApiCall.ESP_IsReady, Result.ok)]) :
    CallOrder (tr ++ [(ApiCall.ESP_CONN_Start, r)]) := by
  refine ⟨?_, ?_, ?_⟩
  · intro pre r' post heq
    rcases snoc_decomp heq with ⟨_, hpre, _⟩ | ⟨post', _, htr⟩
    · rw [hpre]
      exact hshape
    · exact h.1 pre r' post' htr
  · intro pre r' post heq
    rcases snoc_decomp heq with ⟨_, _, hx⟩ | ⟨post', _, htr⟩
    · cases hx
    · exact h.2.1 pre r' post' htr
  · intro pre r' post heq
    rcases snoc_decomp heq with ⟨_, _, hx⟩ | ⟨post', _, htr⟩
    · cases hx
    · exact h.2.2 pre r' post' htr

theorem callOrder_snoc_getLast {tr : List (ApiCall × Result)} (h : CallOrder tr) (r : Result)
    (hshape : ∃ pre' c ws, (c = ApiCall.ESP_CONN_Start ∨ c = ApiCall.ESP_CONN_Send) ∧
      busyPolls ws ∧ tr = pre' ++ (c, Result.ok) :: ws ++ [(ApiCall.ESP_IsReady, Result.ok)]) :
    CallOrder (tr ++ [(ApiCall.ESP_GetLastReturnStatus, r)]) := by
  refine ⟨?_, ?_, ?_⟩
  · intro pre r' post heq
    rcases snoc_decomp heq with ⟨_, _, hx⟩ | ⟨post', _, htr⟩
    · cases hx
    · exact h.1 pre r' post' htr
  · intro pre r' post heq
    rcases snoc_decomp heq with ⟨_, hpre, _⟩ | ⟨post', _, htr⟩
    · rw [hpre]
      exact hshape
    · exact h.2.1 pre r' post' htr
  · intro pre r' post heq
    rcases snoc_decomp heq with ⟨_, _, hx⟩ | ⟨post', _, htr⟩
    · cases hx
    · exact h.2.2 pre r' post' htr

theorem callOrder_snoc_send {tr : List (ApiCall × Result)} (h : CallOrder tr) (r : Result)
    (hshape : ∃ pre' ws, busyPolls ws ∧
      tr = pre' ++ (ApiCall.ESP_CONN_Start, Result.ok) :: ws
        ++ [(ApiCall.ESP_IsReady, Result.ok),
            (ApiCall.ESP_GetLastReturnStatus, Result.ok)]) :
    CallOrder (tr ++ [(ApiCall.ESP_CONN_Send, r)]) := by
  refine ⟨?_, ?_, ?_⟩
  · intro pre r' post heq
    rcases snoc_decomp heq with ⟨_, _, hx⟩ | ⟨post', _, htr⟩
    · cases hx
    · exact h.1 pre r' post' htr
  · intro pre r' post heq
    rcases snoc_decomp heq with ⟨_, _, hx⟩ | ⟨post', _, htr⟩
    · cases hx
    · exact h.2.1 pre r' post' htr
  · intro pre r' post heq
    rcases snoc_decomp heq with ⟨_, hpre, _⟩ | ⟨post', _, htr⟩
    · rw [hpre]
      exact hshape
    · exact h.2.2 pre r' post' htr

theorem busyPolls_snoc {ws : List (ApiCall × Result)} (h : busyPolls ws) {r : Result}
    (hr : r ≠ Result.ok) : busyPolls (ws ++ [(ApiCall.ESP_IsReady, r)]) := by
  intro w hw
  rcases List.mem_append.mp hw with hw | hw
  · exact h w hw
  · simp only [List.mem_singleton] at hw
    exact ⟨r, hw, hr⟩

theorem busyPolls_nil : busyPolls [] := by
  intro w hw
  simp at hw

theorem calls_isReadyOK (env : Nat → Result) (s : PtState) (line : Nat) :
    (isReadyOK env { s with lc := line }).1
      = { s with lc := line, calls := s.calls ++ [(ApiCall.ESP_IsReady, env s.calls.length)] } ∧
    ((isReadyOK env { s with lc := line }).2 = true ↔ env s.calls.length = Result.ok) := by
  simp [isReadyOK, apiCall]

theorem calls_assignEspRes (env : Nat → Result) (c : ApiCall) (s : PtState) :
    (assignEspRes env c s).calls = s.calls ++ [(c, env s.calls.length)] ∧
    (assignEspRes env c s).espRes = env s.calls.length := by
  simp [assignEspRes, apiCall]

theorem inv_finish (s : PtState) (h : CallOrder s.calls) : ClientInv (ClientPT.finish s).1 :=
  ⟨h, Or.inl rfl⟩

theorem inv_line104 (env : Nat → Result) (s : PtState) (h : CallOrder s.calls)
    (hshape : ∃ pre ws, busyPolls ws ∧
      s.calls = pre ++ (ApiCall.ESP_CONN_Send, Result.ok) :: ws) :
    ClientInv (ClientPT.line104 env s).1 := by
  obtain ⟨pre, ws, hws, hcalls⟩ := hshape
  obtain ⟨h1, h2⟩ := calls_isReadyOK env s 104
  unfold ClientPT.line104 PT_WAIT_UNTIL
  by_cases hr : env s.calls.length = Result.ok
  · rw [if_pos (h2.mpr hr), h1]
    apply inv_finish
    rw [(calls_assignEspRes env _ _).1]
    refine callOrder_snoc_getLast (by rw [hr]; exact callOrder_snoc_isReady h _) _
      ⟨pre, ApiCall.ESP_CONN_Send, ws, Or.inr rfl, hws, ?_⟩
    show s.calls ++ [(ApiCall.ESP_IsReady, env s.calls.length)] = _
    rw [hr, hcalls]
  · rw [if_neg (fun hc => hr (h2.mp hc)), h1]
    exact ⟨callOrder_snoc_isReady h _,
      Or.inr (Or.inr (Or.inr ⟨rfl, pre, ws ++ [(ApiCall.ESP_IsReady, env s.calls.length)],
        busyPolls_snoc hws hr, by simp [hcalls]⟩))⟩

theorem inv_line93 (env : Nat → Result) (s : PtState) (h : CallOrder s.calls)
    (hshape : ∃ pre ws, busyPolls ws ∧
      s.calls = pre ++ (ApiCall.ESP_CONN_Start, Result.ok) :: ws) :
    ClientInv (ClientPT.line93 env s).1 := by
  obtain ⟨pre, ws, hws, hcalls⟩ := hshape
  obtain ⟨h1, h2⟩ := calls_isReadyOK env s 93
  unfold ClientPT.line93 PT_WAIT_UNTIL
  by_cases hr : env s.calls.length = Result.ok
  · rw [if_pos (h2.mpr hr), h1]
    simp only []
    have hg : CallOrder (assignEspRes env ApiCall.ESP_GetLastReturnStatus
        { s with lc := 93,
                 calls := s.calls ++ [(ApiCall.ESP_IsReady, env s.calls.length)] }).calls := by
      rw [(calls_assignEspRes env _ _).1]
      refine callOrder_snoc_getLast (by rw [hr]; exact callOrder_snoc_isReady h _) _
        ⟨pre, ApiCall.ESP_CONN_Start, ws, Or.inl rfl, hws, ?_⟩
      show s.calls ++ [(ApiCall.ESP_IsReady, env s.calls.length)] = _
      rw [hr, hcalls]
    split
    · rename_i hok
      have hs : CallOrder (assignEspRes env ApiCall.ESP_CONN_Send
          (assignEspRes env ApiCall.ESP_GetLastReturnStatus
            { s with lc := 93,
                     calls := s.calls ++ [(ApiCall.ESP_IsReady, env s.calls.length)] })).calls := by
        rw [(calls_assignEspRes env _ _).1]
        refine callOrder_snoc_send hg _ ⟨pre, ws, hws, ?_⟩
        rw [(calls_assignEspRes env _ _).2] at hok
        rw [(calls_assignEspRes env _ _).1]
        show s.calls ++ [(ApiCall.ESP_IsReady, env s.calls.length)]
          ++ [(ApiCall.ESP_GetLastReturnStatus,
                env (s.calls ++ [(ApiCall.ESP_IsReady, env s.calls.length)]).length)] = _
        rw [show env (s.calls ++ [(ApiCall.ESP_IsReady, env s.calls.length)]).length
          = Result.ok from hok, hr, hcalls]
        simp
      split
      · rename_i hok2
        apply inv_line104 env _ hs
        rw [(calls_assignEspRes env _ _).2] at hok2
        exact ⟨_, [], busyPolls_nil, by rw [(calls_assignEspRes env _ _).1, hok2]⟩
      · exact inv_finish _ hs
    · exact inv_finish _ hg
  · rw [if_neg (fun hc => hr (h2.mp hc)), h1]
    exact ⟨callOrder_snoc_isReady h _,
      Or.inr (Or.inr (Or.inl ⟨rfl, pre, ws ++ [(ApiCall.ESP_IsReady, env s.calls.length)],
        busyPolls_snoc hws hr, by simp [hcalls]⟩))⟩

theorem inv_line87 (env : Nat → Result) (s : PtState) (h : CallOrder s.calls) :
    ClientInv (ClientPT.line87 env s).1 := by
  obtain ⟨h1, h2⟩ := calls_isReadyOK env s 87
  unfold ClientPT.line87 PT_WAIT_UNTIL
  by_cases hr : env s.calls.length = Result.ok
  · rw [if_pos (h2.mpr hr), h1]
    simp only []
    have hs : CallOrder (assignEspRes env ApiCall.ESP_CONN_Start
        { s with lc := 87,
                 calls := s.calls ++ [(ApiCall.ESP_IsReady, env s.calls.length)] }).calls := by
      rw [(calls_assignEspRes env _ _).1]
      exact callOrder_snoc_start (callOrder_snoc_isReady h _) _ ⟨s.calls, by rw [hr]⟩
    split
    · rename_i hok
      apply inv_line93 env _ hs
      rw [(calls_assignEspRes env _ _).2] at hok
      exact ⟨_, [], busyPolls_nil, by rw [(calls_assignEspRes env _ _).1, hok]⟩
    · exact inv_finish _ hs
  · rw [if_neg (fun hc => hr (h2.mp hc)), h1]
    exact ⟨callOrder_snoc_isReady h _, Or.inr (Or.inl rfl)⟩

/-- One call of `CLIENT_THREAD` keeps the invariant. -/
theorem inv_CLIENT_THREAD (env : Nat → Result) (s : PtState) (h : ClientInv s) :
    ClientInv (ClientPT.CLIENT_THREAD env s).1 := by
  obtain ⟨hord, hlc⟩ := h
  unfold ClientPT.CLIENT_THREAD
  split
  · exact inv_line87 env s hord
  split
  · exact inv_line87 env s hord
  split
  · rename_i h0 h87 h93
    rcases hlc with h | h | ⟨_, hshape⟩ | ⟨h, _⟩
    · exact absurd h h0
    · exact absurd h h87
    · exact inv_line93 env s hord hshape
    · rw [h93] at h
      exact absurd h (by decide)
  split
  · rename_i h0 h87 h93 h104
    rcases hlc with h | h | ⟨h, _⟩ | ⟨_, hshape⟩
    · exact absurd h h0
    · exact absurd h h87
    · exact absurd h h93
    · exact inv_line104 env s hord hshape
  · exact ⟨hord, Or.inl rfl⟩

theorem inv_run (env : Nat → Result) (n : Nat) : ∀ s : PtState, ClientInv s →
    ClientInv (ClientPT.run env n s) := by
  induction n with
  | zero => intro s h; exact h
  | succ n ih => intro s h; exact ih _ (inv_CLIENT_THREAD env s h)

/-- C20: in every execution of `CLIENT_THREAD`, that is after any number `n` of calls from
the initial position with any values `env` returned by the engine functions, the calls made
are in order: `ESP_CONN_Start` only right after an `ESP_IsReady` that returned `espOK`;
`ESP_GetLastReturnStatus` only after a command that returned `espOK` and, later, an
`ESP_IsReady` that returned `espOK`; `ESP_CONN_Send` only after `ESP_CONN_Start` returned
`espOK`, a later `ESP_IsReady` returned `espOK` and the `ESP_GetLastReturnStatus` read
after it returned `espOK`. -/
theorem client_thread_call_order (env : Nat → Result) (n : Nat) (espRes : Result)
    (client : Nat) :
    CallOrder (ClientPT.run env n ⟨0, espRes, client, []⟩).calls :=
  (inv_run env n ⟨0, espRes, client, []⟩ ⟨callOrder_nil, Or.inl rfl⟩).1

/-- A run of `CLIENT_THREAD` evaluated: with the engine busy at the calls 0, 3 and 7, four
calls of the thread connect, send, and end with the activation flag cleared. -/
theorem client_thread_alternating :
    ClientPT.run alternatingEnv 4 ⟨0, Result.ok, 1, []⟩ =
      ⟨0, Result.ok, 0,
        [(ApiCall.ESP_IsReady, Result.busy), (ApiCall.ESP_IsReady, Result.ok),
         (ApiCall.ESP_CONN_Start, Result.ok), (ApiCall.ESP_IsReady, Result.busy),
         (ApiCall.ESP_IsReady, Result.ok), (ApiCall.ESP_GetLastReturnStatus, Result.ok),
         (ApiCall.ESP_CONN_Send, Result.ok), (ApiCall.ESP_IsReady, Result.busy),
         (ApiCall.ESP_IsReady, Result.ok), (ApiCall.ESP_GetLastReturnStatus, Result.ok)]⟩ := by
  decide

/-- The first prescaler of `ESP8266_LL_USARTInit` at 16 MHz, for a baud rate up to 4000000:
no wrap-around and no truncation take place. -/
theorem prescalerOf_4_eq (b : Nat) (hlo : 245 ≤ b) (hhi : b ≤ 4000000) :
    prescalerOf 16000000 4 b = (4000000 / b - 1) / 2 := by
  have h1 : 1 ≤ 4000000 / b := (Nat.one_le_div_iff (by omega)).2 hhi
  have h2 : 4000000 / b ≤ 4000000 := Nat.div_le_self _ _
  have h3 : 4000000 / b < 16327 := (Nat.div_lt_iff_lt_mul (by omega)).2 (by omega)
  unfold prescalerOf
  norm_num
  omega

/-- The second prescaler of `ESP8266_LL_USARTInit` at 16 MHz, for a baud rate up to
2000000. -/
theorem prescalerOf_8_eq (b : Nat) (hlo : 245 ≤ b) (hhi : b ≤ 2000000) :
    prescalerOf 16000000 8 b = (2000000 / b - 1) / 2 := by
  have h1 : 1 ≤ 2000000 / b := (Nat.one_le_div_iff (by omega)).2 hhi
  have h3 : 2000000 / b < 8164 := (Nat.div_lt_iff_lt_mul (by omega)).2 (by omega)
  unfold prescalerOf
  norm_num
  omega

/-- At 16 MHz the second prescaler is taken exactly for the baud rates up to 488 and for
57600. -/
theorem recalculates_iff (b : Nat) (hlo : 245 ≤ b) (hhi : b ≤ 4000000) :
    recalculates 16000000 b = true ↔ (b ≤ 488 ∨ b = 57600) := by
  have hb : 0 < b := by omega
  unfold recalculates
  rw [prescalerOf_4_eq b hlo hhi]
  simp only [Bool.or_eq_true, Bool.and_eq_true, decide_eq_true_eq]
  by_cases hc : b ≤ 488
  · have h3 : 8193 ≤ 4000000 / b := (Nat.le_div_iff_mul_le hb).2 (by omega)
    constructor
    · intro _; exact Or.inl hc
    · intro _; right; omega
  · have h3 : 4000000 / b < 8180 := (Nat.div_lt_iff_lt_mul hb).2 (by omega)
    constructor
    · rintro (h | h)
      · exact Or.inr h.2
      · omega
    · rintro (h | h)
      · omega
      · exact Or.inl ⟨trivial, h⟩

/-- The two bytes written to `UBRR1H` and `UBRR1L` put together give back a 16-bit value. -/
theorem high_low_bytes (p : Nat) (h : p < 65536) :
    ((p >>> 8) &&& 0xFF) * 256 + (p &&& 0xFF) = p := by
  have e1 : (p >>> 8) &&& 0xFF = (p >>> 8) % 2 ^ 8 := Nat.and_pow_two_sub_one_eq_mod _ 8
  have e2 : p &&& 0xFF = p % 2 ^ 8 := Nat.and_pow_two_sub_one_eq_mod _ 8
  rw [e1, e2, Nat.shiftRight_eq_div_pow]
  norm_num
  omega

/-- C25: for `F_CPU = 16000000` and every baud rate `b` from 245 to 4000000, the prescaler
that `ESP8266_LL_USARTInit` writes to `UBRR1H:UBRR1L` is `(4000000 / b - 1) / 2`, replaced
by `(2000000 / b - 1) / 2` where that exceeds 4095 (the rates up to 488) or `b` is 57600;
it is at most 4095, so fits the 12-bit baud-rate register; the call returns 0, and
`UBRR1H * 256 + UBRR1L` of the registers it leaves equals that prescaler. -/
theorem USARTInit_prescaler_fits_12_bits (bits : UsartBits) (b : Nat) (r : AvrRegs)
    (hlo : 245 ≤ b) (hhi : b ≤ 4000000) :
    prescalerWritten 16000000 b
      = (if b ≤ 488 ∨ b = 57600 then (2000000 / b - 1) / 2 else (4000000 / b - 1) / 2) ∧
    prescalerWritten 16000000 b ≤ 4095 ∧
    ∃ r', ESP8266_LL_USARTInit 16000000 bits b r = some (r', 0) ∧
      r'.UBRR1H * 256 + r'.UBRR1L = prescalerWritten 16000000 b := by
  have hb : 0 < b := by omega
  have hmod : b % 2 ^ 32 = b := Nat.mod_eq_of_lt (by norm_num; omega)
  have hval : prescalerWritten 16000000 b
      = (if b ≤ 488 ∨ b = 57600 then (2000000 / b - 1) / 2 else (4000000 / b - 1) / 2) := by
    unfold prescalerWritten
    by_cases hc : b ≤ 488 ∨ b = 57600
    · rw [if_pos ((recalculates_iff b hlo hhi).2 hc), if_pos hc]
      exact prescalerOf_8_eq b hlo (by omega)
    · have hn : ¬ recalculates 16000000 b = true := fun h => hc ((recalculates_iff b hlo hhi).1 h)
      rw [if_neg hn, if_neg hc]
      exact prescalerOf_4_eq b hlo hhi
  have hle : prescalerWritten 16000000 b ≤ 4095 := by
    rw [hval]
    have h8 : 2000000 / b < 8164 := (Nat.div_lt_iff_lt_mul hb).2 (by omega)
    split
    · omega
    · next hc =>
      have h4 : 4000000 / b < 8180 := (Nat.div_lt_iff_lt_mul hb).2 (by omega)
      omega
  refine ⟨hval, hle, ?_⟩
  have hne : b % 2 ^ 32 ≠ 0 := by rw [hmod]; omega
  rw [USARTInit_regs 16000000 bits b r hne, hmod]
  exact ⟨_, rfl, high_low_bytes _ (by omega)⟩

/-- C25 at the baud rate 115200 that the example passes, on the registers after reset. -/
theorem USARTInit_prescaler_fits_12_bits_witness :
    prescalerWritten 16000000 115200
      = (if 115200 ≤ 488 ∨ 115200 = 57600 then (2000000 / 115200 - 1) / 2
         else (4000000 / 115200 - 1) / 2) ∧
    prescalerWritten 16000000 115200 ≤ 4095 ∧
    ∃ r', ESP8266_LL_USARTInit 16000000 iom2560 115200 AvrRegs.reset = some (r', 0) ∧
      r'.UBRR1H * 256 + r'.UBRR1L = prescalerWritten 16000000 115200 :=
  USARTInit_prescaler_fits_12_bits iom2560 115200 AvrRegs.reset (by decide) (by decide)

/-- A `PT_WAIT_UNTIL` on `ESP_IsReady` whose poll finds the stack not ready: the position
is saved, the poll recorded, and the thread waits. -/
theorem wait_not_ready (env : Nat → Result) (line : Nat)
    (rest : PtState → PtState × PtResult) (s : PtState)
    (h : env s.calls.length ≠ Result.ok) :
    PT_WAIT_UNTIL line (isReadyOK env) rest s =
      ({ s with lc := line, calls := s.calls ++ [(ApiCall.ESP_IsReady, env s.calls.length)] },
        PtResult.PT_WAITING) := by
  simp [PT_WAIT_UNTIL, isReadyOK, apiCall, h]

/-- A call of a thread function at one of its positions, with the stack not ready. -/
theorem thread_not_ready (t : PtExample) (env : Nat → Result) (s : PtState)
    (hlc : s.lc ∈ t.positions) (h : env s.calls.length ≠ Result.ok) :
    ∃ line, line ∈ t.positions ∧ line ≠ 0 ∧ (s.lc ≠ 0 → line = s.lc) ∧
      t.thread env s =
        ({ s with lc := line,
                  calls := s.calls ++ [(ApiCall.ESP_IsReady, env s.calls.length)] },
          PtResult.PT_WAITING) := by
  cases t
  · simp only [PtExample.positions, List.mem_cons, List.mem_singleton, List.not_mem_nil,
      or_false] at hlc
    rcases hlc with h0 | h0 | h0 | h0
    · exact ⟨87, by simp [PtExample.positions], by decide, fun hn => absurd h0 hn, by
        simp [PtExample.thread, ClientPT.CLIENT_THREAD, h0, ClientPT.line87, wait_not_ready env _ _ s h]⟩
    · exact ⟨87, by simp [PtExample.positions], by decide, fun _ => h0.symm, by
        simp [PtExample.thread, ClientPT.CLIENT_THREAD, h0, ClientPT.line87, wait_not_ready env _ _ s h]⟩
    · exact ⟨93, by simp [PtExample.positions], by decide, fun _ => h0.symm, by
        simp [PtExample.thread, ClientPT.CLIENT_THREAD, h0, ClientPT.line93, wait_not_ready env _ _ s h]⟩
    · exact ⟨104, by simp [PtExample.positions], by decide, fun _ => h0.symm, by
        simp [PtExample.thread, ClientPT.CLIENT_THREAD, h0, ClientPT.line104, wait_not_ready env _ _ s h]⟩
  · simp only [PtExample.positions, List.mem_cons, List.mem_singleton, List.not_mem_nil,
      or_false] at hlc
    rcases hlc with h0 | h0 | h0
    · exact ⟨85, by simp [PtExample.positions], by decide, fun hn => absurd h0 hn, by
        simp [PtExample.thread, NetworkScanPT.NETWORK_SCAN_THREAD, h0, NetworkScanPT.line85, wait_not_ready env _ _ s h]⟩
    · exact ⟨85, by simp [PtExample.positions], by decide, fun _ => h0.symm, by
        simp [PtExample.thread, NetworkScanPT.NETWORK_SCAN_THREAD, h0, NetworkScanPT.line85, wait_not_ready env _ _ s h]⟩
    · exact ⟨91, by simp [PtExample.positions], by decide, fun _ => h0.symm, by
        simp [PtExample.thread, NetworkScanPT.NETWORK_SCAN_THREAD, h0, NetworkScanPT.line91, wait_not_ready env _ _ s h]⟩
  · simp only [PtExample.positions, List.mem_cons, List.mem_singleton, List.not_mem_nil,
      or_false] at hlc
    rcases hlc with h0 | h0 | h0
    · exact ⟨82, by simp [PtExample.positions], by decide, fun hn => absurd h0 hn, by
        simp [PtExample.thread, PingPT.PING_THREAD, h0, PingPT.line82, wait_not_ready env _ _ s h]⟩
    · exact ⟨82, by simp [PtExample.positions], by decide, fun _ => h0.symm, by
        simp [PtExample.thread, PingPT.PING_THREAD, h0, PingPT.line82, wait_not_ready env _ _ s h]⟩
    · exact ⟨88, by simp [PtExample.positions], by decide, fun _ => h0.symm, by
        simp [PtExample.thread, PingPT.PING_THREAD, h0, PingPT.line88, wait_not_ready env _ _ s h]⟩

/-- C21: for each of `CLIENT_THREAD`, `NETWORK_SCAN_THREAD` and `PING_THREAD`, a call made at
one of the positions of the thread while `ESP_IsReady` does not return `espOK` returns
(with `PT_WAITING`) after that one poll: no command-issuing operation is called, and
`espRes` and the activation flag keep their values.  The step is idempotent while not
ready: a second such call polls once more and leaves the saved position, `espRes` and the
activation flag as they were after the first. -/
theorem not_ready_call_only_polls (t : PtExample) (env : Nat → Result) (s : PtState)
    (hlc : s.lc ∈ t.positions) (h1 : env s.calls.length ≠ Result.ok) :
    (t.thread env s).2 = PtResult.PT_WAITING ∧
    (t.thread env s).1.calls = s.calls ++ [(ApiCall.ESP_IsReady, env s.calls.length)] ∧
    (∀ c ∈ (t.thread env s).1.calls.drop s.calls.length, c.1.issuesCommand = false) ∧
    (t.thread env s).1.espRes = s.espRes ∧
    (t.thread env s).1.flag = s.flag ∧
    (t.thread env s).1.lc ∈ t.positions ∧
    (env (s.calls.length + 1) ≠ Result.ok →
      (t.thread env (t.thread env s).1).2 = PtResult.PT_WAITING ∧
      (t.thread env (t.thread env s).1).1.calls
        = s.calls ++ [(ApiCall.ESP_IsReady, env s.calls.length),
                      (ApiCall.ESP_IsReady, env (s.calls.length + 1))] ∧
      (t.thread env (t.thread env s).1).1.lc = (t.thread env s).1.lc ∧
      (t.thread env (t.thread env s).1).1.espRes = (t.thread env s).1.espRes ∧
      (t.thread env (t.thread env s).1).1.flag = (t.thread env s).1.flag) := by
  obtain ⟨line, hmem, hne, _, heq⟩ := thread_not_ready t env s hlc h1
  rw [heq]
  refine ⟨rfl, rfl, ?_, rfl, rfl, hmem, ?_⟩
  · intro c hc
    simp only [List.drop_left] at hc
    rw [List.mem_singleton.1 hc]
    rfl
  · intro h2
    have hlen :
        (PtState.calls
            { s with lc := line
                     calls := s.calls ++ [(ApiCall.ESP_IsReady, env s.calls.length)] }).length
          = s.calls.length + 1 := by simp
    obtain ⟨line2, _, _, hsame, heq2⟩ := thread_not_ready t env
      { s with lc := line, calls := s.calls ++ [(ApiCall.ESP_IsReady, env s.calls.length)] }
      hmem (by rw [hlen]; exact h2)
    rw [heq2, hlen]
    have hl : line2 = line := hsame hne
    subst hl
    exact ⟨rfl, by simp, rfl, rfl, rfl⟩

/-- C21 on the client example at its start, with an engine that is never ready. -/
theorem not_ready_call_only_polls_witness :
    (PtExample.client.thread alwaysBusy ⟨0, Result.ok, 1, []⟩).2 = PtResult.PT_WAITING ∧
    (PtExample.client.thread alwaysBusy ⟨0, Result.ok, 1, []⟩).1.lc = 87 ∧
    (PtExample.client.thread alwaysBusy
      (PtExample.client.thread alwaysBusy ⟨0, Result.ok, 1, []⟩).1).1.lc = 87 :=
  have h := not_ready_call_only_polls PtExample.client alwaysBusy ⟨0, Result.ok, 1, []⟩
    (by decide) (by decide)
  ⟨h.1, by decide, (h.2.2.2.2.2.2 (by decide)).2.2.1.trans (by decide)⟩

/-- The three ways to the end of each thread, on concrete engines: the command is
refused; the command is accepted and the polled status is an error; all calls succeed.
Each time the flag, set to 1 before, is 0 after the call that ends the thread. -/
theorem threads_end_on_every_branch :
    (∀ t : PtExample,
      (t.thread (fun k => if k = 1 then Result.busy else Result.ok)
          ⟨0, Result.ok, 1, []⟩).2 = PtResult.PT_ENDED ∧
      (t.thread (fun k => if k = 1 then Result.busy else Result.ok)
          ⟨0, Result.ok, 1, []⟩).1.flag = 0) ∧
    (∀ t : PtExample,
      (t.thread (fun k => if k = 3 then Result.deviceError else Result.ok)
          ⟨0, Result.ok, 1, []⟩).2 = PtResult.PT_ENDED ∧
      (t.thread (fun k => if k = 3 then Result.deviceError else Result.ok)
          ⟨0, Result.ok, 1, []⟩).1.flag = 0) ∧
    (∀ t : PtExample,
      (t.thread alwaysOK ⟨0, Result.ok, 1, []⟩).2 = PtResult.PT_ENDED ∧
      (t.thread alwaysOK ⟨0, Result.ok, 1, []⟩).1.flag = 0) := by
  refine ⟨fun t => ?_, fun t => ?_, fun t => ?_⟩ <;> cases t <;> decide

/-- The saved position after a `PT_WAIT_UNTIL` on `ESP_IsReady` is its own line or one
that the code after it leaves. -/
theorem wait_lc (L : List Nat) (env : Nat → Result) (line : Nat)
    (rest : PtState → PtState × PtResult) (s : PtState)
    (hline : line ∈ L) (hrest : ∀ s', (rest s').1.lc ∈ L) :
    (PT_WAIT_UNTIL line (isReadyOK env) rest s).1.lc ∈ L := by
  unfold PT_WAIT_UNTIL
  split
  · exact hrest _
  · exact hline

/-- Every call of a thread function leaves one of the positions of the thread in `PT.lc`:
the positions are the only values that `PT.lc` takes in a run that starts at 0. -/
theorem thread_keeps_positions (t : PtExample) (env : Nat → Result) (s : PtState) :
    (t.thread env s).1.lc ∈ t.positions := by
  have hfin : ∀ (L : List Nat), 0 ∈ L → ∀ s : PtState, (PT_END s).1.lc ∈ L :=
    fun L h _ => h
  cases t
  · have h104 : ∀ s, (ClientPT.line104 env s).1.lc ∈ [0, 87, 93, 104] := fun s =>
      wait_lc _ env 104 _ s (by simp) (fun _ => by simp [ClientPT.finish, PT_END])
    have h93 : ∀ s, (ClientPT.line93 env s).1.lc ∈ [0, 87, 93, 104] := fun s =>
      wait_lc _ env 93 _ s (by simp) (fun s' => by
        split
        · split
          · exact h104 _
          · simp [ClientPT.finish, PT_END]
        · simp [ClientPT.finish, PT_END])
    have h87 : ∀ s, (ClientPT.line87 env s).1.lc ∈ [0, 87, 93, 104] := fun s =>
      wait_lc _ env 87 _ s (by simp) (fun s' => by
        split
        · exact h93 _
        · simp [ClientPT.finish, PT_END])
    show (ClientPT.CLIENT_THREAD env s).1.lc ∈ [0, 87, 93, 104]
    unfold ClientPT.CLIENT_THREAD
    split
    · exact h87 s
    · split
      · exact h87 s
      · split
        · exact h93 s
        · split
          · exact h104 s
          · exact hfin _ (by simp) s
  · have h91 : ∀ s, (NetworkScanPT.line91 env s).1.lc ∈ [0, 85, 91] := fun s =>
      wait_lc _ env 91 _ s (by simp) (fun _ => by simp [NetworkScanPT.finish, PT_END])
    have h85 : ∀ s, (NetworkScanPT.line85 env s).1.lc ∈ [0, 85, 91] := fun s =>
      wait_lc _ env 85 _ s (by simp) (fun s' => by
        split
        · exact h91 _
        · simp [NetworkScanPT.finish, PT_END])
    show (NetworkScanPT.NETWORK_SCAN_THREAD env s).1.lc ∈ [0, 85, 91]
    unfold NetworkScanPT.NETWORK_SCAN_THREAD
    split
    · exact h85 s
    · split
      · exact h85 s
      · split
        · exact h91 s
        · exact hfin _ (by simp) s
  · have h88 : ∀ s, (PingPT.line88 env s).1.lc ∈ [0, 82, 88] := fun s =>
      wait_lc _ env 88 _ s (by simp) (fun _ => by simp [PingPT.finish, PT_END])
    have h82 : ∀ s, (PingPT.line82 env s).1.lc ∈ [0, 82, 88] := fun s =>
      wait_lc _ env 82 _ s (by simp) (fun s' => by
        split
        · exact h88 _
        · simp [PingPT.finish, PT_END])
    show (PingPT.PING_THREAD env s).1.lc ∈ [0, 82, 88]
    unfold PingPT.PING_THREAD
    split
    · exact h82 s
    · split
      · exact h82 s
      · split
        · exact h88 s
        · exact hfin _ (by simp) s

/-- In every run of the loop of `main` that starts with `PT.lc` at 0, `PT.lc` is one of
the positions of the thread. -/
theorem mainLoop_keeps_positions (t : PtExample) (env : Nat → Result) (presses : List Bool)
    (s : PtState) (h : s.lc ∈ t.positions) :
    (t.mainLoop env presses s).lc ∈ t.positions := by
  induction presses generalizing s with
  | nil => exact h
  | cons p ps ih =>
    rw [PtExample.mainLoop]
    apply ih
    unfold PtExample.mainPass
    cases p
    · simp only [Bool.false_eq_true, if_false]
      split
      · exact thread_keeps_positions t env s
      · exact h
    · simp only [if_true]
      split
      · exact thread_keeps_positions t env s
      · exact h

/-- The clock of the engine after `n` runs of `ISR(TIMER0_COMPA_vect)`. -/
theorem iterate_ISR_clock (n : Nat) (e : Engine) :
    Nat.iterate (ISR_TIMER0_COMPA_vect ESP_UpdateTime) n e = { e with clock := e.clock + n } := by
  induction n generalizing e with
  | zero => rfl
  | succ n ih =>
    rw [Function.iterate_succ_apply, ih]
    simp [ISR_TIMER0_COMPA_vect, ESP_UpdateTime, Nat.add_assoc, Nat.add_comm 1 n]

/-- The increments that `n` runs of `ISR(TIMER0_COMPA_vect)` pass to the time update. -/
theorem iterate_ISR_log (n : Nat) (calls : List Nat) :
    Nat.iterate (ISR_TIMER0_COMPA_vect logTick) n calls = calls ++ List.replicate n 1 := by
  induction n generalizing calls with
  | zero => simp
  | succ n ih =>
    rw [Function.iterate_succ_apply, ih]
    simp [ISR_TIMER0_COMPA_vect, logTick, List.replicate_succ]

/-- The mode, clock select and interrupt mask after `TimerInit` on the ATmega2560, when
the bits `WGM00`, `WGM02` and `CS02` were clear before. -/
theorem TimerInit_fields (r : Timer0Regs)
    (hW0 : r.TCCR0A.testBit 0 = false) (hW2 : r.TCCR0B.testBit 3 = false)
    (hC2 : r.TCCR0B.testBit 2 = false) :
    waveformMode iom2560Timer0 (TimerInit iom2560Timer0 r) = 2 ∧
    clockSelect iom2560Timer0 (TimerInit iom2560Timer0 r) = 3 ∧
    (TimerInit iom2560Timer0 r).TIMSK0.testBit iom2560Timer0.OCIE0A = true ∧
    (TimerInit iom2560Timer0 r).OCR0A = 249 := by
  have e256 : (256 : Nat) = 2 ^ 8 := by norm_num
  have s10 : Nat.testBit (1 <<< 1) 0 = false := by decide
  have s11 : Nat.testBit (1 <<< 1) 1 = true := by decide
  have s12 : Nat.testBit (1 <<< 1) 2 = false := by decide
  have s13 : Nat.testBit (1 <<< 1) 3 = false := by decide
  have s00 : Nat.testBit (1 <<< 0) 0 = true := by decide
  have s02 : Nat.testBit (1 <<< 0) 2 = false := by decide
  have s03 : Nat.testBit (1 <<< 0) 3 = false := by decide
  refine ⟨?_, ?_, ?_, rfl⟩
  · show (Nat.testBit ((r.TCCR0B ||| ((1 <<< 1) ||| (1 <<< 0))) % 256) 3).toNat * 4
        + (Nat.testBit ((r.TCCR0A ||| (1 <<< 1)) % 256) 1).toNat * 2
        + (Nat.testBit ((r.TCCR0A ||| (1 <<< 1)) % 256) 0).toNat = 2
    simp only [e256, Nat.testBit_mod_two_pow, Nat.testBit_or, s10, s11, s13, s03, hW0, hW2]
    simp
  · show (Nat.testBit ((r.TCCR0B ||| ((1 <<< 1) ||| (1 <<< 0))) % 256) 2).toNat * 4
        + (Nat.testBit ((r.TCCR0B ||| ((1 <<< 1) ||| (1 <<< 0))) % 256) 1).toNat * 2
        + (Nat.testBit ((r.TCCR0B ||| ((1 <<< 1) ||| (1 <<< 0))) % 256) 0).toNat = 3
    simp only [e256, Nat.testBit_mod_two_pow, Nat.testBit_or, s11, s12, s00, s02, hC2]
    simp
  · show Nat.testBit ((r.TIMSK0 ||| (1 <<< 1)) % 256) 1 = true
    simp only [e256, Nat.testBit_mod_two_pow, Nat.testBit_or, s11]
    simp

/-- C23: with `F_CPU = 16000000`, after `TimerInit` (on registers whose bits `WGM00`,
`WGM02` and `CS02` are clear, as after reset) the timer is in clear-on-compare mode with
the divider 64 and `OCR0A = 249`, so the compare-match interrupt comes every
`(249 + 1) * 64 = 16000` CPU cycles; 1000 such periods are exactly `F_CPU` cycles, so the
period is 1 ms, the increment that `ISR(TIMER0_COMPA_vect)` passes to the time update; and
in `k` seconds of CPU time the handler runs `1000 * k` times, each time with the increment
1, and the clock of the engine advances by exactly `1000 * k`. -/
theorem TimerInit_one_millisecond (r : Timer0Regs)
    (hW0 : r.TCCR0A.testBit iom2560Timer0.WGM00 = false)
    (hW2 : r.TCCR0B.testBit iom2560Timer0.WGM02 = false)
    (hC2 : r.TCCR0B.testBit iom2560Timer0.CS02 = false) :
    waveformMode iom2560Timer0 (TimerInit iom2560Timer0 r) = 2 ∧
    timer0Divider (clockSelect iom2560Timer0 (TimerInit iom2560Timer0 r)) = some 64 ∧
    (TimerInit iom2560Timer0 r).OCR0A = 249 ∧
    compareMatchPeriod iom2560Timer0 (TimerInit iom2560Timer0 r) = some ((249 + 1) * 64) ∧
    (249 + 1) * 64 = 16000 ∧
    16000 * 1000 = 16000000 ∧
    (∀ k : Nat, compareMatchesIn 16000 (k * 16000000) = 1000 * k) ∧
    (∀ (k : Nat) (calls : List Nat),
      Nat.iterate (ISR_TIMER0_COMPA_vect logTick) (compareMatchesIn 16000 (k * 16000000)) calls
        = calls ++ List.replicate (1000 * k) 1) ∧
    (∀ (k : Nat) (e : Engine),
      Nat.iterate (ISR_TIMER0_COMPA_vect ESP_UpdateTime)
          (compareMatchesIn 16000 (k * 16000000)) e
        = { e with clock := e.clock + 1000 * k }) := by
  obtain ⟨hm, hc, hi, ho⟩ := TimerInit_fields r hW0 hW2 hC2
  have hk : ∀ k : Nat, compareMatchesIn 16000 (k * 16000000) = 1000 * k := by
    intro k
    unfold compareMatchesIn
    omega
  refine ⟨hm, by rw [hc]; rfl, ho, ?_, by norm_num, by norm_num, hk, ?_, ?_⟩
  · unfold compareMatchPeriod
    rw [if_pos ⟨hm, hi⟩, hc, ho]
    rfl
  · intro k calls
    rw [hk, iterate_ISR_log]
  · intro k e
    rw [hk, iterate_ISR_clock]

/-- C23 on the timer registers after reset. -/
theorem TimerInit_one_millisecond_witness :
    compareMatchPeriod iom2560Timer0 (TimerInit iom2560Timer0 Timer0Regs.reset) = some 16000 ∧
    compareMatchesIn 16000 (1 * 16000000) = 1000 :=
  have h := TimerInit_one_millisecond Timer0Regs.reset (by decide) (by decide) (by decide)
  ⟨h.2.2.2.1, h.2.2.2.2.2.2.1 1⟩

set_option maxRecDepth 20000 in
/-- The text constants of the server example are the ASCII codes of their texts, and
`sizeof(responseData)`, which counts the terminating NUL, is 308. -/
theorem server_text :
    favicon = ascii "/favicon" ∧ responseData.getLast? = some 0 ∧
    responseData.length = 308 := by
  decide

/-- The result of `strstr` on memory that holds a NUL. -/
theorem strstr_terminated (mem needle : List Byte) (h : 0 ∈ mem) :
    strstr mem needle = some (decide (needle <:+: stringAt mem)) := by
  unfold strstr
  rw [if_pos h]

/-- C22, amended: for every event and every parameter record (for a data event handled
while the stack is ready, one whose data buffer holds a NUL) one invocation of the server
example's `ESP_Callback` returns 0 and issues at most one engine command, always with the
blocking flag 0.  For `espEventDataReceived` it polls `ESP_IsReady` and issues a command
only when that returned `espOK`: `ESP_CONN_Close` on the event's connection if the string
at the data pointer (the bytes before the first NUL) contains `/favicon`, and otherwise
`ESP_CONN_Send` of the `sizeof(responseData)` bytes of `responseData`, whose result goes to
`espRes`.  For `espEventDataSent` and `espEventDataSentError` it issues exactly one
`ESP_CONN_Close` on the event's connection; for every other event it calls nothing. -/
theorem server_callback_commands (env : Nat → Result) (evt : ESP_Event_t)
    (p : ESP_EventParams_t) (s : ServerState)
    (hterm : evt = ESP_Event_t.espEventDataReceived → env s.calls.length = Result.ok →
      0 ∈ p.CP2) :
    ∃ s' new, Server.ESP_Callback env evt p s = some (s', 0) ∧
      s'.calls = s.calls ++ new ∧
      (new.filter fun c => c.1.issuesCommand).length ≤ 1 ∧
      (∀ c ∈ new, c.1.issuesCommand = true → c.1.blocking = some 0) ∧
      (evt = ESP_Event_t.espEventDataReceived →
        (env s.calls.length ≠ Result.ok →
          new = [(ServerCall.ESP_IsReady, env s.calls.length)] ∧ s'.espRes = s.espRes) ∧
        (env s.calls.length = Result.ok → favicon <:+: stringAt p.CP2 →
          new = [(ServerCall.ESP_IsReady, Result.ok),
                 (ServerCall.ESP_CONN_Close p.CP1 0, env (s.calls.length + 1))] ∧
          s'.espRes = s.espRes) ∧
        (env s.calls.length = Result.ok → ¬ favicon <:+: stringAt p.CP2 →
          new = [(ServerCall.ESP_IsReady, Result.ok),
                 (ServerCall.ESP_CONN_Send p.CP1 responseData responseData.length 0,
                   env (s.calls.length + 1))] ∧
          s'.espRes = env (s.calls.length + 1))) ∧
      (evt = ESP_Event_t.espEventDataSent ∨ evt = ESP_Event_t.espEventDataSentError →
        new = [(ServerCall.ESP_CONN_Close p.CP1 0, env s.calls.length)] ∧
        s'.espRes = s.espRes) ∧
      (evt ≠ ESP_Event_t.espEventDataReceived → evt ≠ ESP_Event_t.espEventDataSent →
        evt ≠ ESP_Event_t.espEventDataSentError → new = [] ∧ s' = s) := by
  cases evt with
  | espEventIdle =>
    exact ⟨s, [], rfl, (List.append_nil _).symm, by simp, by simp, by simp, by simp,
      fun _ _ _ => ⟨rfl, rfl⟩⟩
  | espEventConnActive =>
    exact ⟨s, [], rfl, (List.append_nil _).symm, by simp, by simp, by simp, by simp,
      fun _ _ _ => ⟨rfl, rfl⟩⟩
  | espEventConnClosed =>
    exact ⟨s, [], rfl, (List.append_nil _).symm, by simp, by simp, by simp, by simp,
      fun _ _ _ => ⟨rfl, rfl⟩⟩
  | espEventTransparentReceived =>
    exact ⟨s, [], rfl, (List.append_nil _).symm, by simp, by simp, by simp, by simp,
      fun _ _ _ => ⟨rfl, rfl⟩⟩
  | other n =>
    exact ⟨s, [], rfl, (List.append_nil _).symm, by simp, by simp, by simp, by simp,
      fun _ _ _ => ⟨rfl, rfl⟩⟩
  | espEventDataSent =>
    refine ⟨(s.call env (ServerCall.ESP_CONN_Close p.CP1 0)).1,
      [(ServerCall.ESP_CONN_Close p.CP1 0, env s.calls.length)], rfl, rfl,
      by simp [ServerCall.issuesCommand], ?_, by simp, fun _ => ⟨rfl, rfl⟩, by simp⟩
    intro c hc _
    rw [List.mem_singleton.1 hc]
    rfl
  | espEventDataSentError =>
    refine ⟨(s.call env (ServerCall.ESP_CONN_Close p.CP1 0)).1,
      [(ServerCall.ESP_CONN_Close p.CP1 0, env s.calls.length)], rfl, rfl,
      by simp [ServerCall.issuesCommand], ?_, by simp, fun _ => ⟨rfl, rfl⟩, by simp⟩
    intro c hc _
    rw [List.mem_singleton.1 hc]
    rfl
  | espEventDataReceived =>
    by_cases hr : env s.calls.length = Result.ok
    · have h0 : 0 ∈ p.CP2 := hterm rfl hr
      by_cases hf : favicon <:+: stringAt p.CP2
      · refine ⟨{ s with calls := s.calls ++ [(ServerCall.ESP_IsReady, Result.ok),
            (ServerCall.ESP_CONN_Close p.CP1 0, env (s.calls.length + 1))] }, _, ?_, rfl,
          by simp [ServerCall.issuesCommand], ?_, fun _ => ⟨fun h => absurd hr h,
            fun _ _ => ⟨rfl, rfl⟩, fun _ h => absurd hf h⟩, ?_, fun h => absurd rfl h⟩
        · simp [Server.ESP_Callback, ServerState.call, hr, strstr_terminated _ _ h0, hf]
        · intro c hc hcmd
          simp only [List.mem_cons, List.mem_singleton, List.not_mem_nil, or_false] at hc
          rcases hc with h | h
          · rw [h] at hcmd; cases hcmd
          · rw [h]; rfl
        · rintro (h | h) <;> cases h
      · refine ⟨{ espRes := env (s.calls.length + 1)
                  calls := s.calls ++ [(ServerCall.ESP_IsReady, Result.ok),
                    (ServerCall.ESP_CONN_Send p.CP1 responseData responseData.length 0,
                      env (s.calls.length + 1))] }, _, ?_, rfl,
          by simp [ServerCall.issuesCommand], ?_, fun _ => ⟨fun h => absurd hr h,
            fun _ h => absurd h hf, fun _ _ => ⟨rfl, rfl⟩⟩, ?_, fun h => absurd rfl h⟩
        · simp [Server.ESP_Callback, ServerState.call, hr, strstr_terminated _ _ h0, hf]
        · intro c hc hcmd
          simp only [List.mem_cons, List.mem_singleton, List.not_mem_nil, or_false] at hc
          rcases hc with h | h
          · rw [h] at hcmd; cases hcmd
          · rw [h]; rfl
        · rintro (h | h) <;> cases h
    · refine ⟨{ s with calls := s.calls ++ [(ServerCall.ESP_IsReady, env s.calls.length)] },
        _, ?_, rfl, by simp [ServerCall.issuesCommand], ?_, fun _ => ⟨fun _ => ⟨rfl, rfl⟩,
          fun h => absurd h hr, fun h => absurd h hr⟩, ?_, fun h => absurd rfl h⟩
      · simp [Server.ESP_Callback, ServerState.call, hr]
      · intro c hc hcmd
        rw [List.mem_singleton.1 hc] at hcmd
        cases hcmd
      · rintro (h | h) <;> cases h

/-- C22, amended, on a data event whose data are the request line `GET /favicon.ico`, the
stack being ready: the callback closes the connection. -/
theorem server_callback_commands_witness :
    ∃ s' new, Server.ESP_Callback alwaysOK ESP_Event_t.espEventDataReceived faviconParams
        ⟨Result.ok, []⟩ = some (s', 0) ∧
      s'.calls = [] ++ new ∧
      (new.filter fun c => c.1.issuesCommand).length ≤ 1 ∧
      (alwaysOK 0 = Result.ok → favicon <:+: stringAt faviconParams.CP2 →
        new = [(ServerCall.ESP_IsReady, Result.ok),
               (ServerCall.ESP_CONN_Close 3 0, Result.ok)] ∧ s'.espRes = Result.ok) :=
  have h := server_callback_commands alwaysOK ESP_Event_t.espEventDataReceived faviconParams
    ⟨Result.ok, []⟩ (fun _ _ => by decide)
  h.imp fun _ hs => hs.imp fun _ hn =>
    ⟨hn.1, hn.2.1, hn.2.2.1, (hn.2.2.2.2.1 rfl).2.1⟩

/-- C22 as stated fails: the received data of `nulFaviconParams`, 9 bytes, contain
`/favicon`, and `ESP_IsReady` returns `espOK`; yet the callback issues `ESP_CONN_Send` of
`responseData`, not `ESP_CONN_Close`, because the string that `strstr` searches ends at the
NUL byte in front. -/
theorem favicon_after_nul_counterexample :
    favicon <:+: receivedData nulFaviconParams ∧
    stringAt nulFaviconParams.CP2 = [] ∧
    Server.ESP_Callback alwaysOK ESP_Event_t.espEventDataReceived nulFaviconParams
        ⟨Result.ok, []⟩
      = some (⟨Result.ok, [(ServerCall.ESP_IsReady, Result.ok),
            (ServerCall.ESP_CONN_Send 3 responseData responseData.length 0, Result.ok)]⟩,
          0) := by
  refine ⟨⟨[0], [], by decide⟩, by decide, ?_⟩
  have h0 : (0 : Byte) ∈ nulFaviconParams.CP2 := by decide
  have hs : stringAt nulFaviconParams.CP2 = [] := by decide
  have hf : ¬ favicon <:+: ([] : List Byte) := by
    rw [List.infix_nil]
    decide
  simp [Server.ESP_Callback, ServerState.call, alwaysOK, strstr_terminated _ _ h0, hs, hf]
  rfl

end ESP
